import Mathlib

/-!
Verification of the maze-chase arcade core (the GameCanvas component).

The grid is a rectangular boolean matrix `wall[y][x]` (`true` = wall),
40 columns by 24 rows, with the player spawn at cell (20, 12).
The maze initializer is embedded stage by stage below; the pseudo-random
source (the `Math.random() > 0.3` decisions in the two strut passes) is
made explicit as boolean functions indexed by the loop coordinates of the
call site, so that quantifying over both functions quantifies over every
outcome of the pseudo-random source.

Passes whose writes never influence their own later reads (the strut and
projection passes, whose cells are written independently) are embedded as
pointwise overlays; passes that scan a single row or column and only write
cells behind the scan position (segment removal, short-run closing) are
embedded as per-row/per-column scans, since distinct rows (columns) of the
source loop neither read nor write each other; the 2x2 thinning pass, whose
row `y+1` writes are read while processing the next row pair, is embedded
as a row-by-row recursion threading the previously processed row.
-/

namespace OfficeRage

/-- Grid of wall flags, row-major: `g[y][x] = true` means wall. -/
abbrev Grid := List (List Bool)

/-- MAZE_WIDTH -/
def MAZE_WIDTH : Nat := 40
/-- MAZE_HEIGHT -/
def MAZE_HEIGHT : Nat := 24
/-- PLAYER_SPAWN_X = MAZE_WIDTH / 2 -/
def SPAWN_X : Nat := 20
/-- PLAYER_SPAWN_Y = MAZE_HEIGHT / 2 -/
def SPAWN_Y : Nat := 12

/-- Read a cell; out-of-range reads yield `false` (JS `maze[y]?.[x]` is
falsy out of range, and every in-code access is bounds-guarded). -/
def getCell (g : Grid) (x y : Nat) : Bool := (g.getD y []).getD x false

/-- Write a cell (no-op out of range, like `List.set`). -/
def setCell (g : Grid) (x y : Nat) (b : Bool) : Grid :=
  g.set y ((g.getD y []).set x b)

/-- Build a 40x24 grid from a cell formula. -/
def mkGrid (f : Nat → Nat → Bool) : Grid :=
  (List.range MAZE_HEIGHT).map fun y => (List.range MAZE_WIDTH).map fun x => f x y

/-- Pointwise transformation of a grid. -/
def cellMap (f : Nat → Nat → Bool → Bool) (g : Grid) : Grid :=
  mkGrid fun x y => f x y (getCell g x y)

/-- Apply a per-row function to each of the 24 rows. -/
def onRows (f : Nat → List Bool → List Bool) (g : Grid) : Grid :=
  (List.range MAZE_HEIGHT).map fun y => f y (g.getD y [])

/-- Column `x` of the grid as a 24-element list. -/
def colOf (g : Grid) (x : Nat) : List Bool :=
  (List.range MAZE_HEIGHT).map fun y => getCell g x y

/-- Apply a per-column function to each of the 40 columns. -/
def onCols (f : Nat → List Bool → List Bool) (g : Grid) : Grid :=
  mkGrid fun x y => (f x (colOf g x)).getD y false

/-- `isPlayerSpawnArea`: the spawn row or the spawn column. -/
def isSpawnArea (x y : Nat) : Bool := x == SPAWN_X || y == SPAWN_Y

/-- The fine grid right after the outer border pass: a solid 1-cell border. -/
def fineInit : Grid :=
  mkGrid fun x y => x == 0 || x == MAZE_WIDTH - 1 || y == 0 || y == MAZE_HEIGHT - 1

/-- The coarse grid after its border pass (border cells outside the spawn
row/column). -/
def coarseInit : Grid :=
  mkGrid fun x y =>
    (x == 0 || x == MAZE_WIDTH - 1 || y == 0 || y == MAZE_HEIGHT - 1) && !isSpawnArea x y

/-- Loop indices of the vertical-strut pass: `y = 2, 5, …, 20`. -/
def strutYs : List Nat := [2, 5, 8, 11, 14, 17, 20]
/-- Loop indices of the vertical-strut pass: `x = 3, 7, …, 35`. -/
def strutXs : List Nat := [3, 7, 11, 15, 19, 23, 27, 31, 35]

/-- Cells walled by the vertical-strut pass: at each loop position `(x, y0)`
the pass walls `(x, y0)` when off the spawn cross, and `(x, y0 + 1)` when
off the spawn cross and the pass's random draw `r x y0` succeeded. -/
def vertStrutAt (r : Nat → Nat → Bool) (x y : Nat) : Bool :=
  strutXs.contains x && strutYs.any fun y0 =>
    (y == y0 && !isSpawnArea x y0) || (y == y0 + 1 && !isSpawnArea x (y0 + 1) && r x y0)

/-- Vertical coarse struts (independent writes, so a pointwise overlay). -/
def vertStruts (r : Nat → Nat → Bool) (g : Grid) : Grid :=
  cellMap (fun x y v => v || vertStrutAt r x y) g

/-- Loop indices of the horizontal-strut pass: `x = 2, 5, …, 35`. -/
def strutHXs : List Nat := [2, 5, 8, 11, 14, 17, 20, 23, 26, 29, 32, 35]
/-- Loop indices of the horizontal-strut pass: `y = 4, 8, 12, 16`. -/
def strutHYs : List Nat := [4, 8, 12, 16]

/-- Cells walled by the horizontal-strut pass. -/
def horizStrutAt (r : Nat → Nat → Bool) (x y : Nat) : Bool :=
  strutHYs.contains y && strutHXs.any fun x0 =>
    (x == x0 && !isSpawnArea x0 y) || (x == x0 + 1 && !isSpawnArea (x0 + 1) y && r x0 y)

/-- Horizontal coarse struts. -/
def horizStruts (r : Nat → Nat → Bool) (g : Grid) : Grid :=
  cellMap (fun x y v => v || horizStrutAt r x y) g

/-- Coarse room rectangle. -/
structure Room where
  rx : Nat
  ry : Nat
  rw : Nat
  rh : Nat

/-- The four room-like structures. -/
def roomList : List Room := [⟨5, 4, 3, 2⟩, ⟨13, 2, 4, 2⟩, ⟨3, 9, 3, 2⟩, ⟨14, 9, 4, 2⟩]

/-- Draw one room's walls (skipped when it overlaps the spawn row/column),
then punch its door. -/
def addRoom (g : Grid) (rm : Room) : Grid :=
  let overlapsSpawnRow := rm.ry ≤ SPAWN_Y ∧ SPAWN_Y < rm.ry + rm.rh
  let overlapsSpawnCol := rm.rx ≤ SPAWN_X ∧ SPAWN_X < rm.rx + rm.rw
  if ¬overlapsSpawnRow ∧ ¬overlapsSpawnCol then
    let g := (List.range' rm.rx rm.rw).foldl (fun g x =>
      setCell (setCell g x rm.ry true) x (rm.ry + rm.rh - 1) true) g
    let g := (List.range' rm.ry rm.rh).foldl (fun g y =>
      setCell (setCell g rm.rx y true) (rm.rx + rm.rw - 1) y true) g
    setCell g rm.rx (rm.ry + rm.rh / 2) false
  else g

/-- All four rooms. -/
def addRooms (g : Grid) : Grid := roomList.foldl addRoom g

/-- Clear the wall run `xx = s … e` of a row at height `y`, honouring the
border and spawn-area guards of the segment-removal pass. -/
def clearRunH (y : Nat) (row : List Bool) (s e : Nat) : List Bool :=
  (List.range' s (e + 1 - s)).foldl (fun row xx =>
    if xx = 0 ∨ xx = MAZE_WIDTH - 1 ∨ y = 0 ∨ y = MAZE_HEIGHT - 1 ∨ isSpawnArea xx y
    then row else row.set xx false) row

/-- One scan step of the horizontal segment-removal pass.
State: (row, segment index, run start if inside a run). -/
def segRowStep (y : Nat) (st : List Bool × Nat × Option Nat) (x : Nat) :
    List Bool × Nat × Option Nat :=
  let (row, segIdx, runStart) := st
  let isWall := x < MAZE_WIDTH - 1 && row.getD x false
  if isWall then
    (row, segIdx, match runStart with | none => some x | some s => some s)
  else
    match runStart with
    | none => (row, segIdx, none)
    | some s =>
      if x - s > 1 then
        (if segIdx % 2 = 1 then clearRunH y row s (x - 1) else row, segIdx + 1, none)
      else (row, segIdx, none)

/-- Scan one row for the horizontal segment-removal pass (clears happen
behind the scan position, so the pass is row-local). -/
def segRowGo (y : Nat) (row : List Bool) : List Bool :=
  ((List.range' 1 (MAZE_WIDTH - 1)).foldl (segRowStep y) (row, 0, none)).1

/-- Remove every other horizontal wall segment (internal rows only). -/
def segRemoveH (g : Grid) : Grid :=
  onRows (fun y row => if 1 ≤ y ∧ y ≤ MAZE_HEIGHT - 2 then segRowGo y row else row) g

/-- Clear the wall run `yy = s … e` of a column at abscissa `x`. -/
def clearRunV (x : Nat) (col : List Bool) (s e : Nat) : List Bool :=
  (List.range' s (e + 1 - s)).foldl (fun col yy =>
    if x = 0 ∨ x = MAZE_WIDTH - 1 ∨ yy = 0 ∨ yy = MAZE_HEIGHT - 1 ∨ isSpawnArea x yy
    then col else col.set yy false) col

/-- One scan step of the vertical segment-removal pass. -/
def segColStep (x : Nat) (st : List Bool × Nat × Option Nat) (y : Nat) :
    List Bool × Nat × Option Nat :=
  let (col, segIdx, runStart) := st
  let isWall := y < MAZE_HEIGHT - 1 && col.getD y false
  if isWall then
    (col, segIdx, match runStart with | none => some y | some s => some s)
  else
    match runStart with
    | none => (col, segIdx, none)
    | some s =>
      if y - s > 1 then
        (if segIdx % 2 = 1 then clearRunV x col s (y - 1) else col, segIdx + 1, none)
      else (col, segIdx, none)

/-- Scan one column for the vertical segment-removal pass. -/
def segColGo (x : Nat) (col : List Bool) : List Bool :=
  ((List.range' 1 (MAZE_HEIGHT - 1)).foldl (segColStep x) (col, 0, none)).1

/-- Remove every other vertical wall segment (internal columns only). -/
def segRemoveV (g : Grid) : Grid :=
  onCols (fun x col => if 1 ≤ x ∧ x ≤ MAZE_WIDTH - 2 then segColGo x col else col) g

/-- Project the coarse maze 1:1 onto the fine grid (walls only; the spawn
row/column is never walled). -/
def project (coarse : Grid) (fine : Grid) : Grid :=
  cellMap (fun x y v => v || (getCell coarse x y && !isSpawnArea x y)) fine

/-- Process one row pair of the 2x2 thinning scan: `top` is the (already
processed) row `y`, `bot` is row `y+1`; the bottom-right cell of each 2x2
wall block found is cleared, sequentially over `x = 1 … 38`. -/
def thinRowStep (top bot : List Bool) : List Bool :=
  (List.range' 1 (MAZE_WIDTH - 2)).foldl (fun bot x =>
    if top.getD x false && top.getD (x + 1) false &&
       bot.getD x false && bot.getD (x + 1) false
    then bot.set (x + 1) false else bot) bot

/-- Thread the 2x2 thinning over the remaining rows. -/
def thinGo : List Bool → List (List Bool) → List (List Bool)
  | _, [] => []
  | prev, bot :: rest =>
    let b := thinRowStep prev bot
    b :: thinGo b rest

/-- Thin 2x2 wall blocks (scan `y = 1 … 22`, clearing only in row `y+1`,
so rows 0 and 1 are left as they are). -/
def thin2x2 (g : Grid) : Grid :=
  match g with
  | r0 :: r1 :: rest => r0 :: r1 :: thinGo r1 rest
  | g => g

/-- Fill (wall) the open run `rx = s … e` of a row at height `y`, keeping
the outer border untouched. -/
def fillRunH (y : Nat) (row : List Bool) (s e : Nat) : List Bool :=
  (List.range' s (e + 1 - s)).foldl (fun row rx =>
    if rx = 0 ∨ rx = MAZE_WIDTH - 1 ∨ y = 0 ∨ y = MAZE_HEIGHT - 1
    then row else row.set rx true) row

/-- One scan step of the row-wise short-open-run closing pass.
State: (row, run start if inside an open run). -/
def closeRowStep (y : Nat) (st : List Bool × Option Nat) (x : Nat) :
    List Bool × Option Nat :=
  let (row, runStart) := st
  let isOpen := x < MAZE_WIDTH && !row.getD x false
  if isOpen then
    (row, match runStart with | none => some x | some s => some s)
  else
    match runStart with
    | none => (row, none)
    | some s =>
      if 0 < x - s ∧ x - s < 3 then (fillRunH y row s (x - 1), none) else (row, none)

/-- Scan one row for the short-open-run closing pass. -/
def closeRowGo (y : Nat) (row : List Bool) : List Bool :=
  ((List.range (MAZE_WIDTH + 1)).foldl (closeRowStep y) (row, none)).1

/-- Close every open row-run of length 1-2. -/
def closeRunsRows (g : Grid) : Grid := onRows closeRowGo g

/-- Fill (wall) the open run `ry = s … e` of a column at abscissa `x`. -/
def fillRunV (x : Nat) (col : List Bool) (s e : Nat) : List Bool :=
  (List.range' s (e + 1 - s)).foldl (fun col ry =>
    if x = 0 ∨ x = MAZE_WIDTH - 1 ∨ ry = 0 ∨ ry = MAZE_HEIGHT - 1
    then col else col.set ry true) col

/-- One scan step of the column-wise short-open-run closing pass. -/
def closeColStep (x : Nat) (st : List Bool × Option Nat) (y : Nat) :
    List Bool × Option Nat :=
  let (col, runStart) := st
  let isOpen := y < MAZE_HEIGHT && !col.getD y false
  if isOpen then
    (col, match runStart with | none => some y | some s => some s)
  else
    match runStart with
    | none => (col, none)
    | some s =>
      if 0 < y - s ∧ y - s < 3 then (fillRunV x col s (y - 1), none) else (col, none)

/-- Scan one column for the short-open-run closing pass. -/
def closeColGo (x : Nat) (col : List Bool) : List Bool :=
  ((List.range (MAZE_HEIGHT + 1)).foldl (closeColStep x) (col, none)).1

/-- Close every open column-run of length 1-2. -/
def closeRunsCols (g : Grid) : Grid := onCols closeColGo g

/-- `clearCornerPocket`: a 3x3 open pocket just inside the border. -/
def clearPocket (g : Grid) (sx sy : Nat) : Grid :=
  (List.range' sy 3).foldl (fun g y =>
    (List.range' sx 3).foldl (fun g x =>
      if y < MAZE_HEIGHT - 1 ∧ x < MAZE_WIDTH - 1 ∧ 0 < x ∧ 0 < y
      then setCell g x y false else g) g) g

/-- The four corner pockets. -/
def clearPockets (g : Grid) : Grid :=
  clearPocket (clearPocket (clearPocket (clearPocket g 1 1) (MAZE_WIDTH - 4) 1)
    1 (MAZE_HEIGHT - 4)) (MAZE_WIDTH - 4) (MAZE_HEIGHT - 4)

/-- The 3-wide spawn "plus": clear a 3-column band around the spawn column in
every interior row, and a 3-row band around the spawn row in every interior
column (the outer border is never pierced). -/
def clearBands (g : Grid) : Grid :=
  cellMap (fun x y v =>
    if (1 ≤ y ∧ y ≤ MAZE_HEIGHT - 2 ∧ SPAWN_X - 1 ≤ x ∧ x ≤ SPAWN_X + 1) ∨
       (1 ≤ x ∧ x ≤ MAZE_WIDTH - 2 ∧ SPAWN_Y - 1 ≤ y ∧ y ≤ SPAWN_Y + 1)
    then false else v) g

/-- `inBounds` of the generator's flood fill: strictly inside the border. -/
def interiorB (x y : Nat) : Bool :=
  0 < x && x < MAZE_WIDTH - 1 && 0 < y && y < MAZE_HEIGHT - 1

/-- Flood-fill seed: just the spawn cell, provided it is open. -/
def visitedInit (g : Grid) : Grid :=
  mkGrid fun x y => x == SPAWN_X && y == SPAWN_Y && !getCell g SPAWN_X SPAWN_Y

/-- One saturation step of the flood fill: mark every interior open cell
with a marked 4-neighbour. -/
def dilate (g V : Grid) : Grid :=
  cellMap (fun x y v =>
    v || (interiorB x y && !getCell g x y &&
      (getCell V (x + 1) y || getCell V (x - 1) y ||
       getCell V x (y + 1) || getCell V x (y - 1)))) V

/-- Saturate the flood fill (fuel-bounded; the 960 cells bound the growth). -/
def ffIter (g : Grid) : Nat → Grid → Grid
  | 0, V => V
  | n + 1, V =>
    let V' := dilate g V
    if V' = V then V else ffIter g n V'

/-- `floodFillFromSpawn`: the set of cells the generator's BFS marks. -/
def floodFill (g : Grid) : Grid := ffIter g 960 (visitedInit g)

/-- Scan order of the connectivity loop's search for an unreached open cell. -/
def scanCells : List (Nat × Nat) :=
  (List.range' 1 (MAZE_HEIGHT - 2)).flatMap fun y =>
    (List.range' 1 (MAZE_WIDTH - 2)).map fun x => (x, y)

/-- First open cell not reached by the flood fill, in scan order. -/
def findUnvisited (g V : Grid) : Option (Nat × Nat) :=
  scanCells.find? fun c => !getCell g c.1 c.2 && !getCell V c.1 c.2

/-- Cells cleared by the horizontal leg of an L-corridor carved from
`(sx, sy)`: every column strictly between `sx` (exclusive) and the spawn
column (inclusive), rows `sy - 1 … sy + 1`, interior only. -/
def hLeg (sx sy x y : Nat) : Bool :=
  (decide ((sx < x ∧ x ≤ SPAWN_X) ∨ (SPAWN_X ≤ x ∧ x < sx))) &&
  (decide (sy - 1 ≤ y ∧ y ≤ sy + 1)) && interiorB x y

/-- Cells cleared by the vertical leg: rows strictly between `sy` (exclusive)
and the spawn row (inclusive), spawn-centred columns `19 … 21`, interior. -/
def vLeg (sy x y : Nat) : Bool :=
  (decide ((sy < y ∧ y ≤ SPAWN_Y) ∨ (SPAWN_Y ≤ y ∧ y < sy))) &&
  (decide (SPAWN_X - 1 ≤ x ∧ x ≤ SPAWN_X + 1)) && interiorB x y

/-- Carve a 3-wide L-shaped corridor from `s` back to the spawn (used both by
the connectivity loop and by `carveCornerToSpawn`, whose loops clear exactly
these cells: the writes are independent of the reads, so the two imperative
legs are a pointwise overlay). -/
def carve (g : Grid) (s : Nat × Nat) : Grid :=
  cellMap (fun x y v => if hLeg s.1 s.2 x y || vLeg s.2 x y then false else v) g

/-- The connectivity loop: repeatedly flood fill from the spawn and carve a
corridor from the first unreached open cell, until none remains.  The source
loop terminates because each carve strictly shrinks the wall set; the fuel
of 960 (one unit per grid cell) is shown sufficient below. -/
def connectLoopFuel : Nat → Grid → Grid
  | 0, g => g
  | n + 1, g =>
    match findUnvisited g (floodFill g) with
    | none => g
    | some s => connectLoopFuel n (carve g s)

/-- The grid as it stands when the connectivity loop starts. -/
def mazePre (rv rh : Nat → Nat → Bool) : Grid :=
  clearBands (clearPockets (closeRunsCols (closeRunsRows (thin2x2
    (project (segRemoveV (segRemoveH (addRooms (horizStruts rh
      (vertStruts rv coarseInit))))) fineInit)))))

/-- The full maze initializer: connectivity loop, the four
`carveCornerToSpawn` corridors, and the final spawn clearing. -/
def generate (rv rh : Nat → Nat → Bool) : Grid :=
  let g := connectLoopFuel 960 (mazePre rv rh)
  let g := carve g (2, 2)
  let g := carve g (MAZE_WIDTH - 3, 2)
  let g := carve g (2, MAZE_HEIGHT - 3)
  let g := carve g (MAZE_WIDTH - 3, MAZE_HEIGHT - 3)
  setCell g SPAWN_X SPAWN_Y false

/-! ### Pointwise access lemmas -/

theorem getD_map_range {α : Type} (f : Nat → α) {n y : Nat} (d : α) (hy : y < n) :
    (((List.range n).map f).getD y d) = f y := by
  rw [List.getD_eq_getElem?_getD, List.getElem?_map, List.getElem?_range hy]
  rfl

theorem getD_map_range_ge {α : Type} (f : Nat → α) {n y : Nat} (d : α) (hy : n ≤ y) :
    (((List.range n).map f).getD y d) = d := by
  rw [List.getD_eq_getElem?_getD,
    List.getElem?_eq_none (by simpa using hy)]
  rfl

theorem getCell_mkGrid (f : Nat → Nat → Bool) (x y : Nat) :
    getCell (mkGrid f) x y =
      if x < MAZE_WIDTH ∧ y < MAZE_HEIGHT then f x y else false := by
  unfold getCell mkGrid
  rcases Nat.lt_or_ge y MAZE_HEIGHT with hy | hy
  · rw [getD_map_range _ _ hy]
    rcases Nat.lt_or_ge x MAZE_WIDTH with hx | hx
    · rw [getD_map_range _ _ hx, if_pos ⟨hx, hy⟩]
    · rw [getD_map_range_ge _ _ hx, if_neg (by omega)]
  · rw [getD_map_range_ge _ _ hy, if_neg (by omega)]
    rfl

theorem getCell_cellMap (f : Nat → Nat → Bool → Bool) (g : Grid) (x y : Nat) :
    getCell (cellMap f g) x y =
      if x < MAZE_WIDTH ∧ y < MAZE_HEIGHT then f x y (getCell g x y) else false := by
  unfold cellMap; exact getCell_mkGrid _ x y

theorem getCell_onRows (f : Nat → List Bool → List Bool) (g : Grid) (x y : Nat) :
    getCell (onRows f g) x y =
      if y < MAZE_HEIGHT then (f y (g.getD y [])).getD x false else false := by
  unfold getCell onRows
  rcases Nat.lt_or_ge y MAZE_HEIGHT with hy | hy
  · rw [getD_map_range _ _ hy, if_pos hy]
  · rw [getD_map_range_ge _ _ hy, if_neg (by omega)]
    rfl

theorem getCell_onCols (f : Nat → List Bool → List Bool) (g : Grid) (x y : Nat) :
    getCell (onCols f g) x y =
      if x < MAZE_WIDTH ∧ y < MAZE_HEIGHT then (f x (colOf g x)).getD y false
      else false := by
  unfold onCols; exact getCell_mkGrid _ x y

theorem colOf_getD (g : Grid) (x y : Nat) :
    (colOf g x).getD y false = if y < MAZE_HEIGHT then getCell g x y else false := by
  unfold colOf
  rcases Nat.lt_or_ge y MAZE_HEIGHT with hy | hy
  · rw [getD_map_range _ _ hy, if_pos hy]
  · rw [getD_map_range_ge _ _ hy, if_neg (by omega)]

theorem getD_set_list (l : List Bool) (i j : Nat) (b d : Bool) :
    (l.set i b).getD j d =
      if i = j ∧ i < l.length then b else l.getD j d := by
  rw [List.getD_eq_getElem?_getD, List.getD_eq_getElem?_getD, List.getElem?_set]
  by_cases hij : i = j
  · subst hij
    by_cases hl : i < l.length
    · rw [if_pos rfl, if_pos hl, if_pos ⟨rfl, hl⟩]; rfl
    · rw [if_pos rfl, if_neg hl, if_neg (by omega), List.getElem?_eq_none (by omega)]
  · rw [if_neg hij, if_neg (by intro h; exact hij h.1)]

/-- Well-formed 40x24 grid. -/
def Wf (g : Grid) : Prop :=
  g.length = MAZE_HEIGHT ∧ ∀ r ∈ g, r.length = MAZE_WIDTH

theorem wf_mkGrid (f : Nat → Nat → Bool) : Wf (mkGrid f) := by
  constructor
  · simp [mkGrid]
  · intro r hr
    simp only [mkGrid, List.mem_map] at hr
    obtain ⟨y, -, rfl⟩ := hr
    simp

theorem wf_cellMap (f : Nat → Nat → Bool → Bool) (g : Grid) : Wf (cellMap f g) :=
  wf_mkGrid _

theorem getCell_eq_getElem {g : Grid} {x y : Nat} (hy : y < g.length)
    (hx : x < g[y].length) : getCell g x y = g[y][x] := by
  unfold getCell
  have r1 : g.getD y [] = g[y] := by
    rw [List.getD_eq_getElem?_getD, List.getElem?_eq_getElem hy]
    rfl
  rw [r1, List.getD_eq_getElem?_getD, List.getElem?_eq_getElem hx]
  rfl

theorem grid_ext {a b : Grid} (ha : Wf a) (hb : Wf b)
    (h : ∀ x y, x < MAZE_WIDTH → y < MAZE_HEIGHT → getCell a x y = getCell b x y) :
    a = b := by
  apply List.ext_getElem?
  intro y
  rcases Nat.lt_or_ge y MAZE_HEIGHT with hy | hy
  · have hya : y < a.length := by rw [ha.1]; exact hy
    have hyb : y < b.length := by rw [hb.1]; exact hy
    rw [List.getElem?_eq_getElem hya, List.getElem?_eq_getElem hyb]
    congr 1
    apply List.ext_getElem?
    intro x
    have hra : a[y].length = MAZE_WIDTH := ha.2 _ (a.getElem_mem hya)
    have hrb : b[y].length = MAZE_WIDTH := hb.2 _ (b.getElem_mem hyb)
    rcases Nat.lt_or_ge x MAZE_WIDTH with hx | hx
    · have hxa : x < a[y].length := by rw [hra]; exact hx
      have hxb : x < b[y].length := by rw [hrb]; exact hx
      rw [List.getElem?_eq_getElem hxa, List.getElem?_eq_getElem hxb]
      have := h x y hx hy
      rw [getCell_eq_getElem hya hxa, getCell_eq_getElem hyb hxb] at this
      rw [this]
    · rw [List.getElem?_eq_none (by rw [hra]; exact hx),
        List.getElem?_eq_none (by rw [hrb]; exact hx)]
  · rw [List.getElem?_eq_none (by rw [ha.1]; exact hy),
      List.getElem?_eq_none (by rw [hb.1]; exact hy)]

/-! ### Cell counting -/

/-- All 960 cell coordinates. -/
def cellFinset : Finset (Nat × Nat) :=
  Finset.range MAZE_WIDTH ×ˢ Finset.range MAZE_HEIGHT

/-- Number of marked (`true`) cells of a grid. -/
def cntTrue (g : Grid) : Nat :=
  (cellFinset.filter fun c => getCell g c.1 c.2 = true).card

theorem cntTrue_le (g : Grid) : cntTrue g ≤ 960 := by
  calc cntTrue g ≤ cellFinset.card := Finset.card_filter_le _ _
  _ = 960 := by simp [cellFinset, MAZE_WIDTH, MAZE_HEIGHT]

theorem cntTrue_mono {a b : Grid}
    (h : ∀ x y, x < MAZE_WIDTH → y < MAZE_HEIGHT →
      getCell a x y = true → getCell b x y = true) :
    cntTrue a ≤ cntTrue b := by
  apply Finset.card_le_card
  intro c hc
  rw [Finset.mem_filter] at hc ⊢
  rcases hc with ⟨hcell, hval⟩
  refine ⟨hcell, ?_⟩
  simp only [cellFinset, Finset.mem_product, Finset.mem_range] at hcell
  exact h c.1 c.2 hcell.1 hcell.2 hval

theorem cntTrue_strict {a b : Grid}
    (h : ∀ x y, x < MAZE_WIDTH → y < MAZE_HEIGHT →
      getCell a x y = true → getCell b x y = true)
    (x y : Nat) (hx : x < MAZE_WIDTH) (hy : y < MAZE_HEIGHT)
    (ha : getCell a x y = false) (hb : getCell b x y = true) :
    cntTrue a < cntTrue b := by
  apply Finset.card_lt_card
  constructor
  · intro c hc
    rw [Finset.mem_filter] at hc ⊢
    rcases hc with ⟨hcell, hval⟩
    refine ⟨hcell, ?_⟩
    simp only [cellFinset, Finset.mem_product, Finset.mem_range] at hcell
    exact h c.1 c.2 hcell.1 hcell.2 hval
  · intro hsub
    have : (x, y) ∈ cellFinset.filter fun c => getCell a c.1 c.2 = true := by
      apply hsub
      rw [Finset.mem_filter]
      exact ⟨by simp [cellFinset, hx, hy], hb⟩
    rw [Finset.mem_filter] at this
    rw [this.2] at ha
    exact absurd ha (by simp)

/-! ### Reachability (4-connected over interior open cells) -/

/-- One flood-fill move: to a 4-neighbour that is interior and open. -/
def stepRel (g : Grid) (a b : Nat × Nat) : Prop :=
  ((b.1 = a.1 + 1 ∧ b.2 = a.2) ∨ (a.1 = b.1 + 1 ∧ b.2 = a.2) ∨
   (b.2 = a.2 + 1 ∧ b.1 = a.1) ∨ (a.2 = b.2 + 1 ∧ b.1 = a.1)) ∧
  interiorB b.1 b.2 = true ∧ getCell g b.1 b.2 = false

/-- The spawn is open and the cell is flood-fill reachable from it. -/
def Reach (g : Grid) (c : Nat × Nat) : Prop :=
  getCell g SPAWN_X SPAWN_Y = false ∧
  Relation.ReflTransGen (stepRel g) (SPAWN_X, SPAWN_Y) c

/-- Removing walls preserves reachability. -/
theorem reach_mono {a b : Grid}
    (h : ∀ x y, getCell b x y = true → getCell a x y = true) {c : Nat × Nat}
    (hr : Reach a c) : Reach b c := by
  rcases hr with ⟨hs, hpath⟩
  refine ⟨?_, ?_⟩
  · cases hb : getCell b SPAWN_X SPAWN_Y
    · rfl
    · rw [h _ _ hb] at hs; exact absurd hs (by simp)
  · refine Relation.ReflTransGen.mono ?_ hpath
    rintro p q ⟨hadj, hint, hopen⟩
    refine ⟨hadj, hint, ?_⟩
    cases hb : getCell b q.1 q.2
    · rfl
    · rw [h _ _ hb] at hopen; exact absurd hopen (by simp)

/-! ### Flood-fill correctness -/

theorem interiorB_iff {x y : Nat} : interiorB x y = true ↔
    0 < x ∧ x < MAZE_WIDTH - 1 ∧ 0 < y ∧ y < MAZE_HEIGHT - 1 := by
  simp [interiorB, and_assoc]

theorem marked_lt {V : Grid} (hV : Wf V) {x y : Nat}
    (h : getCell V x y = true) : x < MAZE_WIDTH ∧ y < MAZE_HEIGHT := by
  by_contra hc
  push_neg at hc
  unfold getCell at h
  rcases Nat.lt_or_ge y MAZE_HEIGHT with hy | hy
  · have hx : MAZE_WIDTH ≤ x := by
      rcases Nat.lt_or_ge x MAZE_WIDTH with hxlt | hxge
      · exact absurd (hc hxlt) (by omega)
      · exact hxge
    have hyl : y < V.length := by rw [hV.1]; exact hy
    have hrow : V.getD y [] = V[y] := by
      rw [List.getD_eq_getElem?_getD, List.getElem?_eq_getElem hyl]; rfl
    rw [hrow] at h
    have hlen : V[y].length = MAZE_WIDTH := hV.2 _ (V.getElem_mem hyl)
    rw [List.getD_eq_getElem?_getD, List.getElem?_eq_none (by rw [hlen]; exact hx)] at h
    exact absurd h (by simp)
  · have : V.getD y [] = [] := by
      rw [List.getD_eq_getElem?_getD, List.getElem?_eq_none (by rw [hV.1]; exact hy)]
      rfl
    rw [this] at h
    exact absurd h (by simp)

theorem getCell_dilate (g V : Grid) (x y : Nat) :
    getCell (dilate g V) x y =
      if x < MAZE_WIDTH ∧ y < MAZE_HEIGHT then
        (getCell V x y || (interiorB x y && !getCell g x y &&
          (getCell V (x + 1) y || getCell V (x - 1) y ||
           getCell V x (y + 1) || getCell V x (y - 1))))
      else false :=
  getCell_cellMap _ V x y

theorem wf_dilate (g V : Grid) : Wf (dilate g V) := wf_cellMap _ _

theorem wf_ffIter (g : Grid) (n : Nat) {V : Grid} (hV : Wf V) :
    Wf (ffIter g n V) := by
  induction n generalizing V with
  | zero => exact hV
  | succ n ih =>
    rw [ffIter]
    split
    · exact hV
    · exact ih (wf_dilate g V)

theorem dilate_ge {g V : Grid} (hV : Wf V) {x y : Nat}
    (h : getCell V x y = true) : getCell (dilate g V) x y = true := by
  obtain ⟨hx, hy⟩ := marked_lt hV h
  rw [getCell_dilate, if_pos ⟨hx, hy⟩, h]
  rfl

theorem ffIter_ge (g : Grid) (n : Nat) {V : Grid} (hV : Wf V) {x y : Nat}
    (h : getCell V x y = true) : getCell (ffIter g n V) x y = true := by
  induction n generalizing V with
  | zero => exact h
  | succ n ih =>
    rw [ffIter]
    split
    · exact h
    · exact ih (wf_dilate g V) (dilate_ge hV h)

/-- Every marked cell is reachable. -/
def SoundV (g V : Grid) : Prop :=
  ∀ x y, getCell V x y = true → Reach g (x, y)

theorem soundV_visitedInit (g : Grid) : SoundV g (visitedInit g) := by
  intro x y h
  unfold visitedInit at h
  rw [getCell_mkGrid] at h
  split at h
  · simp only [Bool.and_eq_true, beq_iff_eq, Bool.not_eq_true'] at h
    obtain ⟨⟨rfl, rfl⟩, hopen⟩ := h
    exact ⟨hopen, Relation.ReflTransGen.refl⟩
  · exact absurd h (by simp)

theorem soundV_dilate {g V : Grid} (hs : SoundV g V) : SoundV g (dilate g V) := by
  intro x y h
  rw [getCell_dilate] at h
  split at h
  case isFalse => exact absurd h (by simp)
  case isTrue hxy =>
    rcases Bool.or_eq_true_iff.mp h with hold | hnew
    · exact hs x y hold
    · simp only [Bool.and_eq_true, Bool.not_eq_true'] at hnew
      obtain ⟨⟨hint, hopen⟩, hnb⟩ := hnew
      have hstep : ∀ a : Nat × Nat, getCell V a.1 a.2 = true →
          ((x = a.1 + 1 ∧ y = a.2) ∨ (a.1 = x + 1 ∧ y = a.2) ∨
           (y = a.2 + 1 ∧ x = a.1) ∨ (a.2 = y + 1 ∧ x = a.1)) →
          Reach g (x, y) := by
        rintro a hmark hadj
        obtain ⟨hso, hpath⟩ := hs a.1 a.2 hmark
        refine ⟨hso, Relation.ReflTransGen.tail hpath ?_⟩
        exact ⟨by rcases hadj with h | h | h | h <;> simp [h], hint, hopen⟩
      have hib := interiorB_iff.mp hint
      have hx0 : 0 < x := hib.1
      have hy0 : 0 < y := hib.2.2.1
      rcases Bool.or_eq_true_iff.mp hnb with hnb | hnb4
      · rcases Bool.or_eq_true_iff.mp hnb with hnb | hnb3
        · rcases Bool.or_eq_true_iff.mp hnb with hnb1 | hnb2
          · exact hstep (x + 1, y) hnb1 (Or.inr (Or.inl ⟨rfl, rfl⟩))
          · exact hstep (x - 1, y) hnb2 (Or.inl ⟨by omega, rfl⟩)
        · exact hstep (x, y + 1) hnb3 (Or.inr (Or.inr (Or.inr ⟨rfl, rfl⟩)))
      · exact hstep (x, y - 1) hnb4 (Or.inr (Or.inr (Or.inl ⟨by omega, rfl⟩)))

theorem soundV_ffIter (g : Grid) (n : Nat) {V : Grid} (hs : SoundV g V) :
    SoundV g (ffIter g n V) := by
  induction n generalizing V with
  | zero => exact hs
  | succ n ih =>
    rw [ffIter]
    split
    · exact hs
    · exact ih (soundV_dilate hs)

theorem floodFill_sound (g : Grid) {x y : Nat}
    (h : getCell (floodFill g) x y = true) : Reach g (x, y) :=
  soundV_ffIter g 960 (soundV_visitedInit g) x y h

/-- Reached cells are open. -/
theorem reach_open {g : Grid} {c : Nat × Nat} (h : Reach g c) :
    getCell g c.1 c.2 = false := by
  rcases h with ⟨hs, hpath⟩
  rcases hpath.cases_tail with heq | ⟨b, -, hstep⟩
  · rw [heq]
    exact hs
  · exact hstep.2.2

/-- Marked cells are open. -/
theorem floodFill_sub_open (g : Grid) {x y : Nat}
    (h : getCell (floodFill g) x y = true) : getCell g x y = false :=
  reach_open (floodFill_sound g h)

theorem ffIter_fixpoint (g : Grid) (n : Nat) {V : Grid} (hV : Wf V)
    (hn : 960 - cntTrue V ≤ n) : dilate g (ffIter g n V) = ffIter g n V := by
  induction n generalizing V with
  | zero =>
    have hfull : cntTrue V = 960 := le_antisymm (cntTrue_le V) (by omega)
    have hall : ∀ x y, x < MAZE_WIDTH → y < MAZE_HEIGHT → getCell V x y = true := by
      intro x y hx hy
      have hcard : cellFinset.card ≤
          (cellFinset.filter fun c => getCell V c.1 c.2 = true).card := by
        unfold cntTrue at hfull
        rw [hfull]
        simp [cellFinset, MAZE_WIDTH, MAZE_HEIGHT]
      have heq := Finset.eq_of_subset_of_card_le (Finset.filter_subset _ _) hcard
      have hmem : (x, y) ∈ cellFinset.filter fun c => getCell V c.1 c.2 = true := by
        rw [heq]
        simp [cellFinset, hx, hy]
      exact (Finset.mem_filter.mp hmem).2
    simp only [ffIter]
    apply grid_ext (wf_dilate g V) hV
    intro x y hx hy
    rw [getCell_dilate, if_pos ⟨hx, hy⟩, hall x y hx hy]
    rfl
  | succ n ih =>
    rw [ffIter]
    split
    case isTrue h => exact h
    case isFalse h =>
      have hge : cntTrue V < cntTrue (dilate g V) := by
        have hmono : ∀ x y, x < MAZE_WIDTH → y < MAZE_HEIGHT →
            getCell V x y = true → getCell (dilate g V) x y = true :=
          fun x y _ _ hm => dilate_ge hV hm
        by_contra hcnt
        push_neg at hcnt
        apply h
        apply grid_ext (wf_dilate g V) hV
        intro x y hx hy
        cases hv : getCell V x y
        · cases hd : getCell (dilate g V) x y
          · rfl
          · exact absurd (cntTrue_strict hmono x y hx hy hv hd) (by omega)
        · rw [hmono x y hx hy hv]
      exact ih (wf_dilate g V) (by omega)

theorem floodFill_fixpoint (g : Grid) : dilate g (floodFill g) = floodFill g :=
  ffIter_fixpoint g 960 (wf_mkGrid _) (by omega)

/-- Completeness: every reachable cell gets marked. -/
theorem floodFill_complete (g : Grid) {c : Nat × Nat} (h : Reach g c) :
    getCell (floodFill g) c.1 c.2 = true := by
  rcases h with ⟨hs, hpath⟩
  induction hpath with
  | refl =>
    have hseed : getCell (visitedInit g) SPAWN_X SPAWN_Y = true := by
      unfold visitedInit
      rw [getCell_mkGrid, if_pos (by constructor <;> decide)]
      rw [hs]
      rfl
    exact ffIter_ge g 960 (wf_mkGrid _) hseed
  | tail hbefore hstep ih =>
    rename_i b c
    have hb := ih
    have hfix := floodFill_fixpoint g
    obtain ⟨hadj, hint, hopen⟩ := hstep
    have hib := interiorB_iff.mp hint
    have hmarked : getCell (dilate g (floodFill g)) c.1 c.2 = true := by
      rw [getCell_dilate, if_pos ⟨by omega, by omega⟩, hint, hopen]
      have hnb : (getCell (floodFill g) (c.1 + 1) c.2 ||
          getCell (floodFill g) (c.1 - 1) c.2 ||
          getCell (floodFill g) c.1 (c.2 + 1) ||
          getCell (floodFill g) c.1 (c.2 - 1)) = true := by
        rcases hadj with ⟨h1, h2⟩ | ⟨h1, h2⟩ | ⟨h1, h2⟩ | ⟨h1, h2⟩
        · have hcell : getCell (floodFill g) (c.1 - 1) c.2 = true := by
            rw [show c.1 - 1 = b.1 by omega, h2]
            exact hb
          simp [hcell]
        · have hcell : getCell (floodFill g) (c.1 + 1) c.2 = true := by
            rw [← h1, h2]
            exact hb
          simp [hcell]
        · have hcell : getCell (floodFill g) c.1 (c.2 - 1) = true := by
            rw [show c.2 - 1 = b.2 by omega, h2]
            exact hb
          simp [hcell]
        · have hcell : getCell (floodFill g) c.1 (c.2 + 1) = true := by
            rw [← h1, h2]
            exact hb
          simp [hcell]
      rw [hnb]
      simp
    rw [hfix] at hmarked
    exact hmarked

/-! ### Corridor carving: reachability and progress -/

theorem getCell_carve (g : Grid) (s : Nat × Nat) (x y : Nat) :
    getCell (carve g s) x y =
      if x < MAZE_WIDTH ∧ y < MAZE_HEIGHT then
        (if hLeg s.1 s.2 x y || vLeg s.2 x y then false else getCell g x y)
      else false :=
  getCell_cellMap _ g x y

theorem wf_carve (g : Grid) (s : Nat × Nat) : Wf (carve g s) := wf_cellMap _ _

theorem carve_le (g : Grid) (s : Nat × Nat) {x y : Nat}
    (h : getCell (carve g s) x y = true) : getCell g x y = true := by
  rw [getCell_carve] at h
  split at h
  · split at h
    · exact absurd h (by simp)
    · exact h
  · exact absurd h (by simp)

theorem hLeg_iff {sx sy x y : Nat} : hLeg sx sy x y = true ↔
    ((sx < x ∧ x ≤ SPAWN_X) ∨ (SPAWN_X ≤ x ∧ x < sx)) ∧
    (sy - 1 ≤ y ∧ y ≤ sy + 1) ∧
    (0 < x ∧ x < MAZE_WIDTH - 1 ∧ 0 < y ∧ y < MAZE_HEIGHT - 1) := by
  unfold hLeg
  rw [Bool.and_eq_true, Bool.and_eq_true]
  rw [decide_eq_true_eq, decide_eq_true_eq, interiorB_iff]
  tauto

theorem vLeg_iff {sy x y : Nat} : vLeg sy x y = true ↔
    ((sy < y ∧ y ≤ SPAWN_Y) ∨ (SPAWN_Y ≤ y ∧ y < sy)) ∧
    (SPAWN_X - 1 ≤ x ∧ x ≤ SPAWN_X + 1) ∧
    (0 < x ∧ x < MAZE_WIDTH - 1 ∧ 0 < y ∧ y < MAZE_HEIGHT - 1) := by
  unfold vLeg
  rw [Bool.and_eq_true, Bool.and_eq_true]
  rw [decide_eq_true_eq, decide_eq_true_eq, interiorB_iff]
  tauto

/-- A cell of the carved corridor is open and interior in the carved grid. -/
theorem carve_leg_open (g : Grid) (s : Nat × Nat) {x y : Nat}
    (h : hLeg s.1 s.2 x y = true ∨ vLeg s.2 x y = true) :
    interiorB x y = true ∧ getCell (carve g s) x y = false := by
  have hint : interiorB x y = true := by
    rcases h with h | h
    · exact interiorB_iff.mpr (hLeg_iff.mp h).2.2
    · exact interiorB_iff.mpr (vLeg_iff.mp h).2.2
  have hib := interiorB_iff.mp hint
  refine ⟨hint, ?_⟩
  rw [getCell_carve, if_pos ⟨by omega, by omega⟩, if_pos (by
    rcases h with h | h
    · rw [h]; rfl
    · rw [h]; simp)]

/-- Walk one row to the right through open interior cells. -/
theorem reach_row_right {g : Grid} {y x0 : Nat} (k : Nat) (h0 : Reach g (x0, y))
    (hcells : ∀ i, 1 ≤ i → i ≤ k →
      interiorB (x0 + i) y = true ∧ getCell g (x0 + i) y = false) :
    Reach g (x0 + k, y) := by
  induction k with
  | zero => exact h0
  | succ k ih =>
    have hk := ih fun i h1 h2 => hcells i h1 (by omega)
    obtain ⟨hso, hpath⟩ := hk
    obtain ⟨hint, hopen⟩ := hcells (k + 1) (by omega) le_rfl
    exact ⟨hso, hpath.tail ⟨Or.inl ⟨by omega, rfl⟩, hint, hopen⟩⟩

/-- Walk one row to the left through open interior cells. -/
theorem reach_row_left {g : Grid} {y x0 : Nat} (k : Nat) (h0 : Reach g (x0, y))
    (hcells : ∀ i, 1 ≤ i → i ≤ k →
      interiorB (x0 - i) y = true ∧ getCell g (x0 - i) y = false)
    (hk : k ≤ x0) : Reach g (x0 - k, y) := by
  induction k with
  | zero => exact h0
  | succ k ih =>
    have hkr := ih (fun i h1 h2 => hcells i h1 (by omega)) (by omega)
    obtain ⟨hso, hpath⟩ := hkr
    obtain ⟨hint, hopen⟩ := hcells (k + 1) (by omega) le_rfl
    refine ⟨hso, hpath.tail ⟨Or.inr (Or.inl ⟨by omega, rfl⟩), hint, hopen⟩⟩

/-- Walk one column downwards through open interior cells. -/
theorem reach_col_down {g : Grid} {x y0 : Nat} (k : Nat) (h0 : Reach g (x, y0))
    (hcells : ∀ i, 1 ≤ i → i ≤ k →
      interiorB x (y0 + i) = true ∧ getCell g x (y0 + i) = false) :
    Reach g (x, y0 + k) := by
  induction k with
  | zero => exact h0
  | succ k ih =>
    have hk := ih fun i h1 h2 => hcells i h1 (by omega)
    obtain ⟨hso, hpath⟩ := hk
    obtain ⟨hint, hopen⟩ := hcells (k + 1) (by omega) le_rfl
    exact ⟨hso, hpath.tail ⟨Or.inr (Or.inr (Or.inl ⟨by omega, rfl⟩)), hint, hopen⟩⟩

/-- Walk one column upwards through open interior cells. -/
theorem reach_col_up {g : Grid} {x y0 : Nat} (k : Nat) (h0 : Reach g (x, y0))
    (hcells : ∀ i, 1 ≤ i → i ≤ k →
      interiorB x (y0 - i) = true ∧ getCell g x (y0 - i) = false)
    (hk : k ≤ y0) : Reach g (x, y0 - k) := by
  induction k with
  | zero => exact h0
  | succ k ih =>
    have hkr := ih (fun i h1 h2 => hcells i h1 (by omega)) (by omega)
    obtain ⟨hso, hpath⟩ := hkr
    obtain ⟨hint, hopen⟩ := hcells (k + 1) (by omega) le_rfl
    refine ⟨hso, hpath.tail ⟨Or.inr (Or.inr (Or.inr ⟨by omega, rfl⟩)), hint, hopen⟩⟩

/-- In the carved grid, the centre cells `(20, r)` of the vertical leg are
reachable from the spawn. -/
theorem carve_vspine_reach (g : Grid) (s : Nat × Nat)
    (hspawn : getCell (carve g s) SPAWN_X SPAWN_Y = false) {r : Nat}
    (hr : (s.2 < r ∧ r ≤ SPAWN_Y) ∨ (SPAWN_Y ≤ r ∧ r < s.2))
    (hr23 : r < MAZE_HEIGHT - 1) :
    Reach (carve g s) (SPAWN_X, r) := by
  have hbase : Reach (carve g s) (SPAWN_X, SPAWN_Y) :=
    ⟨hspawn, Relation.ReflTransGen.refl⟩
  rcases hr with ⟨h1, h2⟩ | ⟨h1, h2⟩
  · -- r ≤ 12: walk upwards from the spawn row
    have := @reach_col_up (carve g s) SPAWN_X SPAWN_Y
      (SPAWN_Y - r) hbase ?_ (by omega)
    · rw [show SPAWN_Y - (SPAWN_Y - r) = r by omega] at this
      exact this
    · intro i hi1 hi2
      apply carve_leg_open g s
      right
      rw [vLeg_iff]
      refine ⟨Or.inl ⟨by omega, by omega⟩, by omega, ?_⟩
      simp only [SPAWN_X, SPAWN_Y, MAZE_WIDTH, MAZE_HEIGHT] at h1 h2 hi2 ⊢
      omega
  · -- r ≥ 12: walk downwards from the spawn row
    have := @reach_col_down (carve g s) SPAWN_X SPAWN_Y
      (r - SPAWN_Y) hbase ?_
    · rw [show SPAWN_Y + (r - SPAWN_Y) = r by omega] at this
      exact this
    · intro i hi1 hi2
      apply carve_leg_open g s
      right
      rw [vLeg_iff]
      refine ⟨Or.inr ⟨by omega, by omega⟩, by omega, ?_⟩
      simp only [SPAWN_X, SPAWN_Y, MAZE_WIDTH, MAZE_HEIGHT] at h1 h2 hi2 hr23 ⊢
      omega

/-- Every cell of the carved corridor is reachable in the carved grid. -/
theorem carve_leg_reach (g : Grid) (s : Nat × Nat)
    (hs2a : 1 ≤ s.2) (hs2b : s.2 ≤ MAZE_HEIGHT - 2) (hs1 : s.1 ≤ MAZE_WIDTH - 2)
    (hspawn : getCell (carve g s) SPAWN_X SPAWN_Y = false) :
    ∀ x y, (hLeg s.1 s.2 x y = true ∨ vLeg s.2 x y = true) →
      Reach (carve g s) (x, y) := by
  have eW : MAZE_WIDTH = 40 := rfl
  have eH : MAZE_HEIGHT = 24 := rfl
  have eX : SPAWN_X = 20 := rfl
  have eY : SPAWN_Y = 12 := rfl
  -- the centre cell of the horizontal leg at abscissa t is reachable
  have hanchor : s.1 ≠ SPAWN_X → Reach (carve g s) (SPAWN_X, s.2) := by
    intro hne
    have hcenter : hLeg s.1 s.2 SPAWN_X s.2 = true := by
      rw [hLeg_iff]
      exact ⟨by omega, by omega, by omega⟩
    rcases Nat.lt_trichotomy s.2 SPAWN_Y with hlt | heq | hgt
    · have hnb : vLeg s.2 SPAWN_X (s.2 + 1) = true := by
        rw [vLeg_iff]
        refine ⟨Or.inl ⟨by omega, by simp only [SPAWN_Y] at hlt ⊢; omega⟩, by omega, ?_⟩
        simp only [SPAWN_X, MAZE_WIDTH, MAZE_HEIGHT]
        omega
      have hr : Reach (carve g s) (SPAWN_X, s.2 + 1) :=
        carve_vspine_reach g s hspawn
          (Or.inl ⟨by omega, by simp only [SPAWN_Y] at hlt ⊢; omega⟩)
          (by simp only [MAZE_HEIGHT]; omega)
      obtain ⟨hso, hpath⟩ := hr
      obtain ⟨hint, hopen⟩ := carve_leg_open g s (Or.inl hcenter)
      exact ⟨hso, hpath.tail ⟨Or.inr (Or.inr (Or.inr ⟨by omega, rfl⟩)), hint, hopen⟩⟩
    · rw [heq]
      exact ⟨hspawn, Relation.ReflTransGen.refl⟩
    · have hr : Reach (carve g s) (SPAWN_X, s.2 - 1) :=
        carve_vspine_reach g s hspawn (Or.inr ⟨by omega, by omega⟩) (by omega)
      obtain ⟨hso, hpath⟩ := hr
      obtain ⟨hint, hopen⟩ := carve_leg_open g s (Or.inl hcenter)
      exact ⟨hso, hpath.tail ⟨Or.inr (Or.inr (Or.inl ⟨by omega, rfl⟩)), hint, hopen⟩⟩
  -- the full centre row of the horizontal leg
  have hcrow : ∀ t, ((s.1 < t ∧ t ≤ SPAWN_X) ∨ (SPAWN_X ≤ t ∧ t < s.1)) →
      Reach (carve g s) (t, s.2) := by
    intro t ht
    have hne : s.1 ≠ SPAWN_X := by omega
    have ha := hanchor hne
    rcases ht with ⟨h1, h2⟩ | ⟨h1, h2⟩
    · -- t ≤ 20: walk left from the anchor
      have := @reach_row_left (carve g s) s.2 SPAWN_X
        (SPAWN_X - t) ha ?_ (by omega)
      · rw [show SPAWN_X - (SPAWN_X - t) = t by omega] at this
        exact this
      · intro i hi1 hi2
        apply carve_leg_open g s
        left
        rw [hLeg_iff]
        exact ⟨Or.inl ⟨by omega, by omega⟩, by omega, by omega⟩
    · -- t ≥ 20: walk right from the anchor
      have := @reach_row_right (carve g s) s.2 SPAWN_X
        (t - SPAWN_X) ha ?_
      · rw [show SPAWN_X + (t - SPAWN_X) = t by omega] at this
        exact this
      · intro i hi1 hi2
        apply carve_leg_open g s
        left
        rw [hLeg_iff]
        exact ⟨Or.inr ⟨by omega, by omega⟩, by omega, by omega⟩
  intro x y hleg
  rcases hleg with hx | hx
  · -- horizontal leg: reach the centre row cell, then step vertically
    obtain ⟨hcol, hrow, hbnd⟩ := hLeg_iff.mp hx
    rcases Nat.lt_trichotomy y s.2 with hy | hy | hy
    · have hyeq : y = s.2 - 1 := by omega
      have hc := hcrow x hcol
      obtain ⟨hso, hpath⟩ := hc
      obtain ⟨hint, hopen⟩ := carve_leg_open g s (Or.inl hx)
      exact ⟨hso, hpath.tail ⟨Or.inr (Or.inr (Or.inr ⟨by omega, rfl⟩)), hint, hopen⟩⟩
    · rw [hy]
      exact hcrow x hcol
    · have hyeq : y = s.2 + 1 := by omega
      have hc := hcrow x hcol
      obtain ⟨hso, hpath⟩ := hc
      obtain ⟨hint, hopen⟩ := carve_leg_open g s (Or.inl hx)
      exact ⟨hso, hpath.tail ⟨Or.inr (Or.inr (Or.inl ⟨by omega, rfl⟩)), hint, hopen⟩⟩
  · -- vertical leg: reach the centre column cell, then step horizontally
    obtain ⟨hrow, hcol, hbnd⟩ := vLeg_iff.mp hx
    have hcen : Reach (carve g s) (SPAWN_X, y) :=
      carve_vspine_reach g s hspawn hrow (by omega)
    rcases Nat.lt_trichotomy x SPAWN_X with hxc | hxc | hxc
    · obtain ⟨hso, hpath⟩ := hcen
      obtain ⟨hint, hopen⟩ := carve_leg_open g s (Or.inr hx)
      exact ⟨hso, hpath.tail ⟨Or.inr (Or.inl ⟨by omega, rfl⟩), hint, hopen⟩⟩
    · rw [hxc]
      exact hcen
    · obtain ⟨hso, hpath⟩ := hcen
      obtain ⟨hint, hopen⟩ := carve_leg_open g s (Or.inr hx)
      exact ⟨hso, hpath.tail ⟨Or.inl ⟨by omega, rfl⟩, hint, hopen⟩⟩

/-- After carving, the carve's starting cell itself is reachable. -/
theorem carve_start_reach (g : Grid) (s : Nat × Nat)
    (hs1a : 1 ≤ s.1) (hs1b : s.1 ≤ MAZE_WIDTH - 2)
    (hs2a : 1 ≤ s.2) (hs2b : s.2 ≤ MAZE_HEIGHT - 2)
    (hopen : getCell g s.1 s.2 = false)
    (hspawn : getCell (carve g s) SPAWN_X SPAWN_Y = false) :
    Reach (carve g s) (s.1, s.2) := by
  have eW : MAZE_WIDTH = 40 := rfl
  have eH : MAZE_HEIGHT = 24 := rfl
  have eX : SPAWN_X = 20 := rfl
  have eY : SPAWN_Y = 12 := rfl
  have hsopen : getCell (carve g s) s.1 s.2 = false := by
    rw [getCell_carve, if_pos (by omega)]
    split
    · rfl
    · exact hopen
  have hsint : interiorB s.1 s.2 = true := by
    rw [interiorB_iff]
    omega
  rcases Nat.lt_trichotomy s.1 SPAWN_X with hx | hx | hx
  · have hn : hLeg s.1 s.2 (s.1 + 1) s.2 = true := by
      rw [hLeg_iff]
      exact ⟨Or.inl ⟨by omega, by omega⟩, by omega, by omega⟩
    obtain ⟨hso, hpath⟩ := carve_leg_reach g s hs2a hs2b hs1b hspawn _ _ (Or.inl hn)
    exact ⟨hso, hpath.tail ⟨Or.inr (Or.inl ⟨rfl, rfl⟩), hsint, hsopen⟩⟩
  · rcases Nat.lt_trichotomy s.2 SPAWN_Y with hy | hy | hy
    · have hn : vLeg s.2 SPAWN_X (s.2 + 1) = true := by
        rw [vLeg_iff]
        exact ⟨Or.inl ⟨by omega, by omega⟩, by omega, by omega⟩
      obtain ⟨hso, hpath⟩ := carve_leg_reach g s hs2a hs2b hs1b hspawn _ _ (Or.inr hn)
      rw [hx] at hsint hsopen ⊢
      refine ⟨hso, hpath.tail ?_⟩
      show stepRel (carve g s) (SPAWN_X, s.2 + 1) (SPAWN_X, s.2)
      exact ⟨Or.inr (Or.inr (Or.inr ⟨rfl, rfl⟩)), hsint, hsopen⟩
    · have hes : s = (SPAWN_X, SPAWN_Y) := by
        apply Prod.ext <;> simp [← hx, ← hy]
      rw [hes] at hspawn ⊢
      exact ⟨hspawn, Relation.ReflTransGen.refl⟩
    · have hn : vLeg s.2 SPAWN_X (s.2 - 1) = true := by
        rw [vLeg_iff]
        exact ⟨Or.inr ⟨by omega, by omega⟩, by omega, by omega⟩
      obtain ⟨hso, hpath⟩ := carve_leg_reach g s hs2a hs2b hs1b hspawn _ _ (Or.inr hn)
      rw [hx] at hsint hsopen ⊢
      refine ⟨hso, hpath.tail ?_⟩
      show stepRel (carve g s) (SPAWN_X, s.2 - 1) (SPAWN_X, s.2)
      exact ⟨Or.inr (Or.inr (Or.inl ⟨by omega, rfl⟩)), hsint, hsopen⟩
  · have hn : hLeg s.1 s.2 (s.1 - 1) s.2 = true := by
      rw [hLeg_iff]
      exact ⟨Or.inr ⟨by omega, by omega⟩, by omega, by omega⟩
    obtain ⟨hso, hpath⟩ := carve_leg_reach g s hs2a hs2b hs1b hspawn _ _ (Or.inl hn)
    refine ⟨hso, hpath.tail ⟨Or.inl ⟨by omega, rfl⟩, hsint, hsopen⟩⟩

theorem scanCells_mem {c : Nat × Nat} : c ∈ scanCells ↔
    1 ≤ c.1 ∧ c.1 ≤ MAZE_WIDTH - 2 ∧ 1 ≤ c.2 ∧ c.2 ≤ MAZE_HEIGHT - 2 := by
  unfold scanCells
  rw [List.mem_flatMap]
  constructor
  · rintro ⟨y, hy, hz⟩
    rw [List.mem_range'_1] at hy
    rw [List.mem_map] at hz
    obtain ⟨x, hxmem, rfl⟩ := hz
    rw [List.mem_range'_1] at hxmem
    simp only [MAZE_WIDTH, MAZE_HEIGHT] at hy hxmem ⊢
    omega
  · rintro ⟨h1, h2, h3, h4⟩
    refine ⟨c.2, ?_, ?_⟩
    · rw [List.mem_range'_1]
      simp only [MAZE_HEIGHT] at h3 h4 ⊢
      omega
    · rw [List.mem_map]
      refine ⟨c.1, ?_, rfl⟩
      rw [List.mem_range'_1]
      simp only [MAZE_WIDTH] at h1 h2 ⊢
      omega

/-- The spawn cell lies on the corridor carved from any other start cell. -/
theorem spawn_in_legs {s : Nat × Nat} (hs1 : 1 ≤ s.1 ∧ s.1 ≤ MAZE_WIDTH - 2)
    (hs2 : 1 ≤ s.2 ∧ s.2 ≤ MAZE_HEIGHT - 2) (hne : s ≠ (SPAWN_X, SPAWN_Y)) :
    hLeg s.1 s.2 SPAWN_X SPAWN_Y = true ∨ vLeg s.2 SPAWN_X SPAWN_Y = true := by
  have eW : MAZE_WIDTH = 40 := rfl
  have eH : MAZE_HEIGHT = 24 := rfl
  have eX : SPAWN_X = 20 := rfl
  have eY : SPAWN_Y = 12 := rfl
  by_cases h2 : s.2 = SPAWN_Y
  · left
    have h1 : s.1 ≠ SPAWN_X := by
      intro h
      exact hne (Prod.ext h h2)
    rw [hLeg_iff]
    exact ⟨by omega, by omega, by omega⟩
  · right
    rw [vLeg_iff]
    exact ⟨by omega, by omega, by omega⟩

/-- Carving from an unreached open cell strictly shrinks the wall count. -/
theorem carve_decreases {g : Grid} (hw : Wf g) {s : Nat × Nat}
    (hfind : findUnvisited g (floodFill g) = some s) :
    cntTrue (carve g s) < cntTrue g := by
  have hpred := List.find?_some hfind
  simp only [Bool.and_eq_true, Bool.not_eq_true'] at hpred
  obtain ⟨hopen, hunvis⟩ := hpred
  have hmem := scanCells_mem.mp (List.mem_of_find?_eq_some hfind)
  obtain ⟨hs1a, hs1b, hs2a, hs2b⟩ := hmem
  have hmono : ∀ x y, x < MAZE_WIDTH → y < MAZE_HEIGHT →
      getCell (carve g s) x y = true → getCell g x y = true :=
    fun x y _ _ h => carve_le g s h
  by_contra hc
  push_neg at hc
  -- no corridor cell is a wall of g
  have hall : ∀ x y, (hLeg s.1 s.2 x y = true ∨ vLeg s.2 x y = true) →
      getCell g x y = false := by
    intro x y hleg
    obtain ⟨hint, hcopen⟩ := carve_leg_open g s hleg
    have hib := interiorB_iff.mp hint
    cases hg : getCell g x y
    · rfl
    · exact absurd (cntTrue_strict hmono x y (by omega) (by omega) hcopen hg) (by omega)
  cases hgspawn : getCell g SPAWN_X SPAWN_Y
  · -- spawn open: the carved grid equals g, so `s` was already reachable
    have heqg : carve g s = g := by
      apply grid_ext (wf_carve g s) hw
      intro x y hx hy
      rw [getCell_carve, if_pos ⟨hx, hy⟩]
      split
      case isTrue hleg =>
        rw [hall x y (by rcases Bool.or_eq_true_iff.mp hleg with h | h
                         · exact Or.inl h
                         · exact Or.inr h)]
      case isFalse => rfl
    have hreach : Reach (carve g s) (s.1, s.2) := by
      apply carve_start_reach g s hs1a hs1b hs2a hs2b hopen
      rw [heqg]
      exact hgspawn
    rw [heqg] at hreach
    have := floodFill_complete g hreach
    rw [this] at hunvis
    exact absurd hunvis (by simp)
  · -- spawn walled: but the spawn is on the corridor, contradiction
    by_cases hse : s = (SPAWN_X, SPAWN_Y)
    · rw [hse] at hopen
      rw [hopen] at hgspawn
      exact absurd hgspawn (by simp)
    · have := hall SPAWN_X SPAWN_Y (spawn_in_legs ⟨hs1a, hs1b⟩ ⟨hs2a, hs2b⟩ hse)
      rw [this] at hgspawn
      exact absurd hgspawn (by simp)

/-- With enough fuel, the connectivity loop ends with no unreached open cell. -/
theorem connectLoopFuel_none : ∀ n {g : Grid}, Wf g → cntTrue g < n →
    findUnvisited (connectLoopFuel n g) (floodFill (connectLoopFuel n g)) = none := by
  intro n
  induction n with
  | zero => intro g _ h; omega
  | succ n ih =>
    intro g hw hcnt
    rw [connectLoopFuel]
    cases hf : findUnvisited g (floodFill g) with
    | none => simpa [hf] using hf
    | some s =>
      simp only [hf]
      exact ih (wf_carve g s) (by have := carve_decreases hw hf; omega)

/-! ### Per-pass pointwise bounds (border and write-region lemmas) -/

theorem getCell_setCell_ne (g : Grid) (v : Bool) {a b x y : Nat}
    (h : a ≠ x ∨ b ≠ y) : getCell (setCell g a b v) x y = getCell g x y := by
  unfold getCell setCell
  by_cases hby : b = y
  · subst hby
    have hax : a ≠ x := by tauto
    have hrow : (g.set b ((g.getD b []).set a v)).getD b [] =
        if b < g.length then (g.getD b []).set a v else g.getD b [] := by
      rw [List.getD_eq_getElem?_getD, List.getElem?_set]
      rw [if_pos rfl]
      by_cases hl : b < g.length
      · rw [if_pos hl, if_pos hl]
        rfl
      · rw [if_neg hl, if_neg hl, List.getD_eq_getElem?_getD,
          List.getElem?_eq_none (Nat.le_of_not_lt hl)]
    rw [hrow]
    by_cases hl : b < g.length
    · rw [if_pos hl, getD_set_list, if_neg (by tauto)]
    · rw [if_neg hl]
  · have : (g.set b ((g.getD b []).set a v)).getD y [] = g.getD y [] := by
      rw [List.getD_eq_getElem?_getD, List.getElem?_set_ne hby,
        List.getD_eq_getElem?_getD]
    rw [this]

theorem getCell_setCell {g : Grid} (hw : Wf g) (v : Bool) (a b x y : Nat) :
    getCell (setCell g a b v) x y =
      if a = x ∧ b = y ∧ x < MAZE_WIDTH ∧ y < MAZE_HEIGHT then v
      else getCell g x y := by
  by_cases hab : a = x ∧ b = y
  · obtain ⟨rfl, rfl⟩ := hab
    by_cases hin : a < MAZE_WIDTH ∧ b < MAZE_HEIGHT
    · rw [if_pos ⟨rfl, rfl, hin.1, hin.2⟩]
      unfold getCell setCell
      have hyl : b < g.length := by rw [hw.1]; exact hin.2
      have hrow : (g.set b ((g.getD b []).set a v)).getD b [] =
          (g.getD b []).set a v := by
        rw [List.getD_eq_getElem?_getD, List.getElem?_set, if_pos rfl, if_pos hyl]
        rfl
      have hrv : g.getD b [] = g[b] := by
        rw [List.getD_eq_getElem?_getD, List.getElem?_eq_getElem hyl]
        rfl
      have hlen : a < (g.getD b []).length := by
        rw [hrv, hw.2 _ (g.getElem_mem hyl)]
        exact hin.1
      rw [hrow, getD_set_list, if_pos ⟨rfl, hlen⟩]
    · rw [if_neg (by tauto)]
      unfold getCell setCell
      rcases Nat.lt_or_ge b MAZE_HEIGHT with hy | hy
      · have hx : MAZE_WIDTH ≤ a := by
          rcases Nat.lt_or_ge a MAZE_WIDTH with h | h
          · exact absurd ⟨h, hy⟩ hin
          · exact h
        have hyl : b < g.length := by rw [hw.1]; exact hy
        have hrow : (g.set b ((g.getD b []).set a v)).getD b [] =
            (g.getD b []).set a v := by
          rw [List.getD_eq_getElem?_getD, List.getElem?_set, if_pos rfl, if_pos hyl]
          rfl
        have hbound : (g.getD b []).length = MAZE_WIDTH := by
          have : g.getD b [] = g[b] := by
            rw [List.getD_eq_getElem?_getD, List.getElem?_eq_getElem hyl]
            rfl
          rw [this, hw.2 _ (g.getElem_mem hyl)]
        rw [hrow, getD_set_list, if_neg (by rw [hbound]; omega)]
      · have hout : ∀ l : Grid, g.length = l.length → l.getD b [] = [] := by
          intro l hl
          rw [List.getD_eq_getElem?_getD,
            List.getElem?_eq_none (by rw [← hl, hw.1]; exact hy)]
          rfl
        rw [hout (g.set b ((g.getD b []).set a v)) (by rw [List.length_set]),
          hout g rfl]
  · rw [if_neg (by tauto), getCell_setCell_ne g v (by tauto)]

theorem wf_setCell {g : Grid} (hw : Wf g) (a b : Nat) (v : Bool) :
    Wf (setCell g a b v) := by
  constructor
  · rw [setCell, List.length_set, hw.1]
  · intro r hr
    rcases List.mem_or_eq_of_mem_set hr with h | h
    · exact hw.2 r h
    · rw [h, List.length_set]
      rcases Nat.lt_or_ge b g.length with hb | hb
      · have : g.getD b [] = g[b] := by
          rw [List.getD_eq_getElem?_getD, List.getElem?_eq_getElem hb]
          rfl
        rw [this]
        exact hw.2 _ (g.getElem_mem hb)
      · -- out of range: row defaults to [], but then `set` leaves []
        have : g.getD b [] = [] := by
          rw [List.getD_eq_getElem?_getD, List.getElem?_eq_none hb]
          rfl
        rw [this] at h
        -- r = [].set a v = [], which has length 0, not 40: impossible since
        -- b is out of range means the set was a no-op at the grid level
        exfalso
        have : g.set b ([].set a v) = g := List.set_eq_of_length_le (by omega)
        rw [setCell] at hr
        rw [show g.getD b [] = [] from by
          rw [List.getD_eq_getElem?_getD, List.getElem?_eq_none hb]; rfl] at hr
        rw [this] at hr
        -- then r ∈ g, so its length is 40; but also r = [].set a v = []
        have hlen := hw.2 r hr
        rw [h] at hlen
        simp at hlen
        simp [MAZE_WIDTH] at hlen

/-- Fold invariant: a property preserved by every step holds of the fold. -/
theorem foldl_preserve {α β : Type} (P : β → Prop) (f : β → α → β) :
    ∀ (l : List α) (b : β), P b → (∀ b a, a ∈ l → P b → P (f b a)) →
      P (l.foldl f b) := by
  intro l
  induction l with
  | nil => intro b hb _; exact hb
  | cons a t ih =>
    intro b hb hf
    exact ih (f b a) (hf b a (List.mem_cons_self a t) hb)
      (fun b' a' ha' hb' => hf b' a' (List.mem_cons_of_mem _ ha') hb')

/-- The row-run filling of the closing pass never touches the border. -/
theorem fillRunH_protected (y : Nat) (row : List Bool) (s e x : Nat)
    (hx : x = 0 ∨ x = MAZE_WIDTH - 1 ∨ y = 0 ∨ y = MAZE_HEIGHT - 1) :
    (fillRunH y row s e).getD x false = row.getD x false := by
  have eW : MAZE_WIDTH = 40 := rfl
  have eH : MAZE_HEIGHT = 24 := rfl
  unfold fillRunH
  refine foldl_preserve (fun (r : List Bool) => r.getD x false = row.getD x false) _ _ _ rfl ?_
  intro r rx _ hr
  by_cases hg : rx = 0 ∨ rx = MAZE_WIDTH - 1 ∨ y = 0 ∨ y = MAZE_HEIGHT - 1
  · rw [if_pos hg]; exact hr
  · rw [if_neg hg, getD_set_list, if_neg (by intro hc; omega)]
    exact hr

/-- The column-run filling never touches the border. -/
theorem fillRunV_protected (x : Nat) (col : List Bool) (s e y : Nat)
    (hy : x = 0 ∨ x = MAZE_WIDTH - 1 ∨ y = 0 ∨ y = MAZE_HEIGHT - 1) :
    (fillRunV x col s e).getD y false = col.getD y false := by
  have eW : MAZE_WIDTH = 40 := rfl
  have eH : MAZE_HEIGHT = 24 := rfl
  unfold fillRunV
  refine foldl_preserve (fun (r : List Bool) => r.getD y false = col.getD y false) _ _ _ rfl ?_
  intro r ry _ hr
  by_cases hg : x = 0 ∨ x = MAZE_WIDTH - 1 ∨ ry = 0 ∨ ry = MAZE_HEIGHT - 1
  · rw [if_pos hg]; exact hr
  · rw [if_neg hg, getD_set_list, if_neg (by intro hc; omega)]
    exact hr

/-- Each step of the row-closing scan keeps the row or fills a run. -/
theorem closeRowStep_shape (y : Nat) (st : List Bool × Option Nat) (x : Nat) :
    (closeRowStep y st x).1 = st.1 ∨
    ∃ s e, (closeRowStep y st x).1 = fillRunH y st.1 s e := by
  rcases st with ⟨row, runStart⟩
  unfold closeRowStep
  dsimp only
  by_cases hio : (decide (x < MAZE_WIDTH) && !row.getD x false) = true
  · rw [if_pos hio]
    left; rfl
  · rw [if_neg hio]
    cases runStart with
    | none => left; rfl
    | some s =>
      dsimp only
      by_cases hc : 0 < x - s ∧ x - s < 3
      · rw [if_pos hc]; right; exact ⟨s, x - 1, rfl⟩
      · rw [if_neg hc]; left; rfl

/-- Each step of the column-closing scan keeps the column or fills a run. -/
theorem closeColStep_shape (x : Nat) (st : List Bool × Option Nat) (y : Nat) :
    (closeColStep x st y).1 = st.1 ∨
    ∃ s e, (closeColStep x st y).1 = fillRunV x st.1 s e := by
  rcases st with ⟨col, runStart⟩
  unfold closeColStep
  dsimp only
  by_cases hio : (decide (y < MAZE_HEIGHT) && !col.getD y false) = true
  · rw [if_pos hio]
    left; rfl
  · rw [if_neg hio]
    cases runStart with
    | none => left; rfl
    | some s =>
      dsimp only
      by_cases hc : 0 < y - s ∧ y - s < 3
      · rw [if_pos hc]; right; exact ⟨s, y - 1, rfl⟩
      · rw [if_neg hc]; left; rfl

/-- The row-closing pass leaves border cells as they are. -/
theorem closeRowGo_protected (y : Nat) (row : List Bool) (x : Nat)
    (hx : x = 0 ∨ x = MAZE_WIDTH - 1 ∨ y = 0 ∨ y = MAZE_HEIGHT - 1) :
    (closeRowGo y row).getD x false = row.getD x false := by
  unfold closeRowGo
  refine foldl_preserve (fun st => st.1.getD x false = row.getD x false)
      (closeRowStep y) _ (row, none) rfl ?_
  intro st a _ hst
  rcases closeRowStep_shape y st a with h | ⟨s, e, h⟩
  · rw [h]; exact hst
  · rw [h, fillRunH_protected _ _ _ _ _ hx]; exact hst

/-- The column-closing pass leaves border cells as they are. -/
theorem closeColGo_protected (x : Nat) (col : List Bool) (y : Nat)
    (hy : x = 0 ∨ x = MAZE_WIDTH - 1 ∨ y = 0 ∨ y = MAZE_HEIGHT - 1) :
    (closeColGo x col).getD y false = col.getD y false := by
  unfold closeColGo
  refine foldl_preserve (fun st => st.1.getD y false = col.getD y false)
      (closeColStep x) _ (col, none) rfl ?_
  intro st a _ hst
  rcases closeColStep_shape x st a with h | ⟨s, e, h⟩
  · rw [h]; exact hst
  · rw [h, fillRunV_protected _ _ _ _ _ hy]; exact hst

/-- Run clearing in a row only removes walls. -/
theorem clearRunH_le (y : Nat) (row : List Bool) (s e x : Nat)
    (h : (clearRunH y row s e).getD x false = true) : row.getD x false = true := by
  revert h
  unfold clearRunH
  refine foldl_preserve
    (fun (r : List Bool) => r.getD x false = true → row.getD x false = true) _ _ _ (fun h => h) ?_
  intro r xx _ hr hnew
  by_cases hg : xx = 0 ∨ xx = MAZE_WIDTH - 1 ∨ y = 0 ∨ y = MAZE_HEIGHT - 1 ∨
      isSpawnArea xx y = true
  · rw [if_pos hg] at hnew; exact hr hnew
  · rw [if_neg hg, getD_set_list] at hnew
    by_cases hc : xx = x ∧ xx < r.length
    · rw [if_pos hc] at hnew; exact absurd hnew (by simp)
    · rw [if_neg hc] at hnew; exact hr hnew

/-- Run clearing in a column only removes walls. -/
theorem clearRunV_le (x : Nat) (col : List Bool) (s e y : Nat)
    (h : (clearRunV x col s e).getD y false = true) : col.getD y false = true := by
  revert h
  unfold clearRunV
  refine foldl_preserve
    (fun (r : List Bool) => r.getD y false = true → col.getD y false = true) _ _ _ (fun h => h) ?_
  intro r yy _ hr hnew
  by_cases hg : x = 0 ∨ x = MAZE_WIDTH - 1 ∨ yy = 0 ∨ yy = MAZE_HEIGHT - 1 ∨
      isSpawnArea x yy = true
  · rw [if_pos hg] at hnew; exact hr hnew
  · rw [if_neg hg, getD_set_list] at hnew
    by_cases hc : yy = y ∧ yy < r.length
    · rw [if_pos hc] at hnew; exact absurd hnew (by simp)
    · rw [if_neg hc] at hnew; exact hr hnew

/-- Each step of the segment-removal scan keeps the row or clears a run. -/
theorem segRowStep_shape (y : Nat) (st : List Bool × Nat × Option Nat) (x : Nat) :
    (segRowStep y st x).1 = st.1 ∨
    ∃ s e, (segRowStep y st x).1 = clearRunH y st.1 s e := by
  rcases st with ⟨row, segIdx, runStart⟩
  unfold segRowStep
  dsimp only
  by_cases hw : (decide (x < MAZE_WIDTH - 1) && row.getD x false) = true
  · rw [if_pos hw]
    left; rfl
  · rw [if_neg hw]
    cases runStart with
    | none => left; rfl
    | some s =>
      dsimp only
      by_cases hc : x - s > 1
      · rw [if_pos hc]
        by_cases hp : segIdx % 2 = 1
        · rw [if_pos hp]; right; exact ⟨s, x - 1, rfl⟩
        · rw [if_neg hp]; left; rfl
      · rw [if_neg hc]; left; rfl

/-- Each step of the vertical segment-removal scan keeps or clears. -/
theorem segColStep_shape (x : Nat) (st : List Bool × Nat × Option Nat) (y : Nat) :
    (segColStep x st y).1 = st.1 ∨
    ∃ s e, (segColStep x st y).1 = clearRunV x st.1 s e := by
  rcases st with ⟨col, segIdx, runStart⟩
  unfold segColStep
  dsimp only
  by_cases hw : (decide (y < MAZE_HEIGHT - 1) && col.getD y false) = true
  · rw [if_pos hw]
    left; rfl
  · rw [if_neg hw]
    cases runStart with
    | none => left; rfl
    | some s =>
      dsimp only
      by_cases hc : y - s > 1
      · rw [if_pos hc]
        by_cases hp : segIdx % 2 = 1
        · rw [if_pos hp]; right; exact ⟨s, y - 1, rfl⟩
        · rw [if_neg hp]; left; rfl
      · rw [if_neg hc]; left; rfl

/-- The horizontal segment-removal scan only removes walls. -/
theorem segRowGo_le (y : Nat) (row : List Bool) (x : Nat)
    (h : (segRowGo y row).getD x false = true) : row.getD x false = true := by
  revert h
  unfold segRowGo
  refine foldl_preserve
    (fun st => st.1.getD x false = true → row.getD x false = true)
    (segRowStep y) _ (row, 0, none) (fun h => h) ?_
  intro st a _ hst hnew
  rcases segRowStep_shape y st a with h | ⟨s, e, h⟩
  · rw [h] at hnew; exact hst hnew
  · rw [h] at hnew; exact hst (clearRunH_le _ _ _ _ _ hnew)

/-- The vertical segment-removal scan only removes walls. -/
theorem segColGo_le (x : Nat) (col : List Bool) (y : Nat)
    (h : (segColGo x col).getD y false = true) : col.getD y false = true := by
  revert h
  unfold segColGo
  refine foldl_preserve
    (fun st => st.1.getD y false = true → col.getD y false = true)
    (segColStep x) _ (col, 0, none) (fun h => h) ?_
  intro st a _ hst hnew
  rcases segColStep_shape x st a with h | ⟨s, e, h⟩
  · rw [h] at hnew; exact hst hnew
  · rw [h] at hnew; exact hst (clearRunV_le _ _ _ _ _ hnew)

/-- The horizontal segment-removal pass only removes walls. -/
theorem segRemoveH_le (g : Grid) {x y : Nat}
    (h : getCell (segRemoveH g) x y = true) : getCell g x y = true := by
  rw [segRemoveH, getCell_onRows] at h
  by_cases hy : y < MAZE_HEIGHT
  · rw [if_pos hy] at h
    by_cases hg : 1 ≤ y ∧ y ≤ MAZE_HEIGHT - 2
    · rw [if_pos hg] at h
      exact segRowGo_le _ _ _ h
    · rw [if_neg hg] at h
      exact h
  · rw [if_neg hy] at h
    exact absurd h (by simp)

/-- The vertical segment-removal pass only removes walls. -/
theorem segRemoveV_le (g : Grid) {x y : Nat}
    (h : getCell (segRemoveV g) x y = true) : getCell g x y = true := by
  rw [segRemoveV, getCell_onCols] at h
  by_cases hxy : x < MAZE_WIDTH ∧ y < MAZE_HEIGHT
  · rw [if_pos hxy] at h
    have hcol : (colOf g x).getD y false = getCell g x y := by
      rw [colOf_getD, if_pos hxy.2]
    by_cases hg : 1 ≤ x ∧ x ≤ MAZE_WIDTH - 2
    · rw [if_pos hg] at h
      rw [← hcol]
      exact segColGo_le _ _ _ h
    · rw [if_neg hg] at h
      rw [← hcol]
      exact h
  · rw [if_neg hxy] at h
    exact absurd h (by simp)

/-! ### The 2x2 thinning pass: write bounds -/

/-- Thinning a row pair only removes walls from the bottom row. -/
theorem thinRowStep_le (top bot : List Bool) (x : Nat)
    (h : (thinRowStep top bot).getD x false = true) : bot.getD x false = true := by
  revert h
  unfold thinRowStep
  refine foldl_preserve
    (fun (r : List Bool) => r.getD x false = true → bot.getD x false = true)
    _ _ _ (fun h => h) ?_
  intro r a _ hr hnew
  by_cases hc : (top.getD a false && top.getD (a + 1) false &&
      r.getD a false && r.getD (a + 1) false) = true
  · rw [if_pos hc, getD_set_list] at hnew
    by_cases he : a + 1 = x ∧ a + 1 < r.length
    · rw [if_pos he] at hnew; exact absurd hnew (by simp)
    · rw [if_neg he] at hnew; exact hr hnew
  · rw [if_neg hc] at hnew; exact hr hnew

/-- Open cells of the bottom row stay open under thinning. -/
theorem thinRowStep_open (top bot : List Bool) (x : Nat)
    (h : bot.getD x false = false) : (thinRowStep top bot).getD x false = false := by
  cases hres : (thinRowStep top bot).getD x false with
  | false => rfl
  | true => exact absurd (thinRowStep_le top bot x hres) (by rw [h]; simp)

/-- Thinning writes nothing at columns 0 and 1. -/
theorem thinRowStep_low (top bot : List Bool) (x : Nat) (hx : x < 2) :
    (thinRowStep top bot).getD x false = bot.getD x false := by
  unfold thinRowStep
  refine foldl_preserve
    (fun (r : List Bool) => r.getD x false = bot.getD x false) _ _ _ rfl ?_
  intro r a ha hr
  rw [List.mem_range'_1] at ha
  by_cases hc : (top.getD a false && top.getD (a + 1) false &&
      r.getD a false && r.getD (a + 1) false) = true
  · rw [if_pos hc, getD_set_list, if_neg (by intro hcc; omega)]
    exact hr
  · rw [if_neg hc]; exact hr

/-- When the processed top row is open at column 38, thinning leaves
column 39 of the bottom row unchanged. -/
theorem thinRowStep_39 (top bot : List Bool)
    (h38 : top.getD 38 false = false) :
    (thinRowStep top bot).getD 39 false = bot.getD 39 false := by
  unfold thinRowStep
  refine foldl_preserve
    (fun (r : List Bool) => r.getD 39 false = bot.getD 39 false) _ _ _ rfl ?_
  intro r a ha hr
  rw [List.mem_range'_1] at ha
  by_cases hc : (top.getD a false && top.getD (a + 1) false &&
      r.getD a false && r.getD (a + 1) false) = true
  · rw [if_pos hc, getD_set_list]
    by_cases he : a + 1 = 39 ∧ a + 1 < r.length
    · exfalso
      have htop : top.getD a false = true := by
        simp only [Bool.and_eq_true] at hc
        exact hc.1.1.1
      rw [show a = 38 by omega, h38] at htop
      exact absurd htop (by simp)
    · rw [if_neg he]; exact hr
  · rw [if_neg hc]; exact hr

/-- When the whole interior of the processed top row is open, thinning a
row pair is the identity. -/
theorem thinRowStep_id (top bot : List Bool)
    (h : ∀ a, 1 ≤ a → a ≤ MAZE_WIDTH - 2 → top.getD a false = false) :
    thinRowStep top bot = bot := by
  have eW : MAZE_WIDTH = 40 := rfl
  unfold thinRowStep
  refine foldl_preserve (fun (r : List Bool) => r = bot) _ _ _ rfl ?_
  intro r a ha hr
  rw [List.mem_range'_1] at ha
  have h1 : top.getD a false = false := h a (by omega) (by omega)
  rw [if_neg (by
    intro hX
    rw [h1] at hX
    simp only [Bool.false_and] at hX
    exact absurd hX (by simp))]
  exact hr

/-- The processed row of index `k - 1` of the thinning scan (`thinAt prev L 0`
is the row above the scanned block). -/
def thinAt (prev : List Bool) (L : List (List Bool)) : Nat → List Bool
  | 0 => prev
  | k + 1 => thinRowStep (thinAt prev L k) (L.getD k [])

theorem thinAt_cons (prev bot : List Bool) (rest : List (List Bool)) :
    ∀ k, thinAt prev (bot :: rest) (k + 1) = thinAt (thinRowStep prev bot) rest k := by
  intro k
  induction k with
  | zero => rfl
  | succ k ih =>
    show thinRowStep (thinAt prev (bot :: rest) (k + 1)) ((bot :: rest).getD (k + 1) []) =
      thinRowStep (thinAt (thinRowStep prev bot) rest k) (rest.getD k [])
    rw [ih, List.getD_cons_succ]

/-- Pointwise description of the thinning recursion. -/
theorem thinGo_getD : ∀ (L : List (List Bool)) (prev : List Bool) (k : Nat),
    k < L.length →
    (thinGo prev L).getD k [] = thinRowStep (thinAt prev L k) (L.getD k []) := by
  intro L
  induction L with
  | nil => intro prev k hk; exact absurd hk (by simp)
  | cons bot rest ih =>
    intro prev k hk
    show ((thinRowStep prev bot) :: thinGo (thinRowStep prev bot) rest).getD k [] = _
    cases k with
    | zero => rw [List.getD_cons_zero]; rfl
    | succ k =>
      rw [List.getD_cons_succ, ih (thinRowStep prev bot) k (by
        simp only [List.length_cons] at hk; omega)]
      rw [thinAt_cons, List.getD_cons_succ]

/-- Column 38 of every processed row stays open, provided the rows above
the current block were open there. -/
theorem thinAt_38 (prev : List Bool) (L : List (List Bool)) (k : Nat)
    (hprev : prev.getD 38 false = false)
    (hk : ∀ i, i < k → (L.getD i []).getD 38 false = false) :
    (thinAt prev L k).getD 38 false = false := by
  cases k with
  | zero => exact hprev
  | succ k =>
    show (thinRowStep (thinAt prev L k) (L.getD k [])).getD 38 false = false
    exact thinRowStep_open _ _ _ (hk k (Nat.lt_succ_self k))

/-- A processed row is open wherever its input row was open. -/
theorem thinAt_open (prev : List Bool) (L : List (List Bool)) (k a : Nat)
    (hk : 1 ≤ k) (hrow : (L.getD (k - 1) []).getD a false = false) :
    (thinAt prev L k).getD a false = false := by
  cases k with
  | zero => omega
  | succ k =>
    show (thinRowStep (thinAt prev L k) (L.getD k [])).getD a false = false
    exact thinRowStep_open _ _ _ (by simpa using hrow)

/-! ### The border and edge invariants -/

/-- Every border cell of the 40x24 grid is a wall. -/
def BorderWall (g : Grid) : Prop :=
  ∀ x y, x < MAZE_WIDTH → y < MAZE_HEIGHT →
    (x = 0 ∨ x = MAZE_WIDTH - 1 ∨ y = 0 ∨ y = MAZE_HEIGHT - 1) →
    getCell g x y = true

/-- The interior cells of column 38 and of row 22 are all open (true of the
grid entering the thinning pass; it shields the border from the thinning
writes at `x + 1 = 39` and `y + 1 = 23`). -/
def EdgeOpen (g : Grid) : Prop :=
  (∀ y, 1 ≤ y → y ≤ MAZE_HEIGHT - 2 → getCell g (MAZE_WIDTH - 2) y = false) ∧
  (∀ x, 1 ≤ x → x ≤ MAZE_WIDTH - 2 → getCell g x (MAZE_HEIGHT - 2) = false)

/-- The thinning pass preserves the solid border, given the open edges. -/
theorem borderWall_thin2x2 {g : Grid} (hw : Wf g) (hb : BorderWall g)
    (he : EdgeOpen g) : BorderWall (thin2x2 g) := by
  have eW : MAZE_WIDTH = 40 := rfl
  have eH : MAZE_HEIGHT = 24 := rfl
  obtain ⟨r0, r1, rest, hg, hrest⟩ :
      ∃ r0 r1 rest, g = r0 :: r1 :: rest ∧ rest.length = 22 := by
    have hlen := hw.1
    cases g with
    | nil => rw [List.length_nil] at hlen; omega
    | cons r0 t =>
      cases t with
      | nil => rw [List.length_cons, List.length_nil] at hlen; omega
      | cons r1 rest =>
        refine ⟨r0, r1, rest, rfl, ?_⟩
        simp only [List.length_cons] at hlen
        omega
  subst hg
  have hthin : thin2x2 (r0 :: r1 :: rest) = r0 :: r1 :: thinGo r1 rest := rfl
  intro x y hx hy hbd
  rw [hthin]
  show ((r0 :: r1 :: thinGo r1 rest).getD y []).getD x false = true
  -- the rows of the input grid, seen through `getCell`
  have hrow0 : ∀ a, r0.getD a false = getCell (r0 :: r1 :: rest) a 0 := fun a => rfl
  have hrow1 : ∀ a, r1.getD a false = getCell (r0 :: r1 :: rest) a 1 := fun a => rfl
  have hrowk : ∀ k a, (rest.getD k []).getD a false =
      getCell (r0 :: r1 :: rest) a (k + 2) := fun k a => rfl
  by_cases hy2 : y < 2
  · have : (r0 :: r1 :: thinGo r1 rest).getD y [] = (r0 :: r1 :: rest).getD y [] := by
      interval_cases y
      · rfl
      · rfl
    rw [this]
    exact hb x y hx hy hbd
  · -- rows processed by the thinning recursion
    obtain ⟨k, rfl⟩ : ∃ k, y = k + 2 := ⟨y - 2, by omega⟩
    have hkl : k < rest.length := by rw [hrest]; omega
    rw [List.getD_cons_succ, List.getD_cons_succ, thinGo_getD rest r1 k hkl]
    rcases hbd with hx0 | hx39 | hy0 | hy23
    · -- column 0 is never written
      subst hx0
      rw [thinRowStep_low _ _ _ (by omega), hrowk]
      exact hb 0 (k + 2) hx hy (by omega)
    · -- column 39: shielded by the open column 38
      have h38 : (thinAt r1 rest k).getD 38 false = false := by
        refine thinAt_38 r1 rest k ?_ ?_
        · rw [hrow1]
          have := he.1 1 (by omega) (by omega)
          simpa [eW] using this
        · intro i hi
          rw [hrowk]
          have := he.1 (i + 2) (by omega) (by omega)
          simpa [eW] using this
      rw [hx39] at *
      rw [show MAZE_WIDTH - 1 = 39 by omega, thinRowStep_39 _ _ h38, hrowk]
      exact hb (MAZE_WIDTH - 1) (k + 2) (by omega) hy (by omega)
    · omega
    · -- row 23: shielded by the open row 22
      have hk21 : k = 21 := by omega
      subst hk21
      have htop : ∀ a, 1 ≤ a → a ≤ MAZE_WIDTH - 2 →
          (thinAt r1 rest 21).getD a false = false := by
        intro a ha1 ha2
        refine thinAt_open r1 rest 21 a (by omega) ?_
        rw [show (21 : Nat) - 1 = 20 by omega, hrowk]
        have := he.2 a ha1 ha2
        simpa [eH] using this
      rw [thinRowStep_id _ _ htop, hrowk]
      exact hb x 23 hx (by omega) (by omega)

/-! ### The coarse stages keep column 38 and row 22 clear -/

/-- The coarse stage of the pipeline, before projection onto the fine grid. -/
def coarseFinal (rv rh : Nat → Nat → Bool) : Grid :=
  segRemoveV (segRemoveH (addRooms (horizStruts rh (vertStruts rv coarseInit))))

theorem mazePre_eq (rv rh : Nat → Nat → Bool) :
    mazePre rv rh = clearBands (clearPockets (closeRunsCols (closeRunsRows
      (thin2x2 (project (coarseFinal rv rh) fineInit))))) := rfl

theorem vertStrutAt_38 (r : Nat → Nat → Bool) (y : Nat) :
    vertStrutAt r 38 y = false := by
  unfold vertStrutAt
  rw [show strutXs.contains 38 = false from rfl, Bool.false_and]

theorem vertStrutAt_22 (r : Nat → Nat → Bool) (x : Nat) :
    vertStrutAt r x 22 = false := by
  simp [vertStrutAt, strutYs]

theorem horizStrutAt_38 (r : Nat → Nat → Bool) (y : Nat) :
    horizStrutAt r 38 y = false := by
  simp [horizStrutAt, strutHXs]

theorem horizStrutAt_22 (r : Nat → Nat → Bool) (x : Nat) :
    horizStrutAt r x 22 = false := by
  unfold horizStrutAt
  rw [show strutHYs.contains 22 = false from rfl, Bool.false_and]

/-- A cell outside a room's rectangle is untouched by drawing the room. -/
theorem addRoom_outside (g : Grid) (rm : Room) (x y : Nat)
    (hrw : 1 ≤ rm.rw) (hrh : 1 ≤ rm.rh)
    (h : x < rm.rx ∨ rm.rx + rm.rw ≤ x ∨ y < rm.ry ∨ rm.ry + rm.rh ≤ y) :
    getCell (addRoom g rm) x y = getCell g x y := by
  unfold addRoom
  dsimp only
  by_cases hg : ¬(rm.ry ≤ SPAWN_Y ∧ SPAWN_Y < rm.ry + rm.rh) ∧
      ¬(rm.rx ≤ SPAWN_X ∧ SPAWN_X < rm.rx + rm.rw)
  · rw [if_pos hg]
    rw [getCell_setCell_ne _ _ (by omega)]
    have h2 : ∀ g0 : Grid, getCell g0 x y = getCell g x y →
        getCell ((List.range' rm.ry rm.rh).foldl (fun gg a =>
          setCell (setCell gg rm.rx a true) (rm.rx + rm.rw - 1) a true) g0) x y =
        getCell g x y := by
      intro g0 h0
      refine foldl_preserve (fun (gg : Grid) => getCell gg x y = getCell g x y)
        _ _ _ h0 ?_
      intro gg a ha hgg
      rw [List.mem_range'_1] at ha
      rw [getCell_setCell_ne _ _ (by omega), getCell_setCell_ne _ _ (by omega)]
      exact hgg
    refine h2 _ ?_
    refine foldl_preserve (fun (gg : Grid) => getCell gg x y = getCell g x y)
      _ _ _ rfl ?_
    intro gg a ha hgg
    rw [List.mem_range'_1] at ha
    rw [getCell_setCell_ne _ _ (by omega), getCell_setCell_ne _ _ (by omega)]
    exact hgg
  · rw [if_neg hg]

/-- Cells right or below all four rooms are untouched by the room pass. -/
theorem addRooms_outside (g : Grid) (x y : Nat) (h : 18 ≤ x ∨ 11 ≤ y) :
    getCell (addRooms g) x y = getCell g x y := by
  simp only [addRooms, roomList, List.foldl_cons, List.foldl_nil]
  rw [addRoom_outside _ _ _ _ (by decide) (by decide)
      (by show x < 14 ∨ 14 + 4 ≤ x ∨ y < 9 ∨ 9 + 2 ≤ y; omega),
    addRoom_outside _ _ _ _ (by decide) (by decide)
      (by show x < 3 ∨ 3 + 3 ≤ x ∨ y < 9 ∨ 9 + 2 ≤ y; omega),
    addRoom_outside _ _ _ _ (by decide) (by decide)
      (by show x < 13 ∨ 13 + 4 ≤ x ∨ y < 2 ∨ 2 + 2 ≤ y; omega),
    addRoom_outside _ _ _ _ (by decide) (by decide)
      (by show x < 5 ∨ 5 + 3 ≤ x ∨ y < 4 ∨ 4 + 2 ≤ y; omega)]

theorem coarseInit_38 (y : Nat) (hy : 1 ≤ y ∧ y ≤ 22) :
    getCell coarseInit 38 y = false := by
  have eW : MAZE_WIDTH = 40 := rfl
  have eH : MAZE_HEIGHT = 24 := rfl
  rw [coarseInit, getCell_mkGrid, if_pos ⟨by omega, by omega⟩]
  have h1 : ((38 : Nat) == 0 || (38 : Nat) == MAZE_WIDTH - 1 || y == 0 ||
      y == MAZE_HEIGHT - 1) = false := by
    simp only [Bool.or_eq_false_iff, beq_eq_false_iff_ne]
    refine ⟨⟨⟨by omega, by omega⟩, by omega⟩, by omega⟩
  rw [h1, Bool.false_and]

theorem coarseInit_22 (x : Nat) (hx : 1 ≤ x ∧ x ≤ 38) :
    getCell coarseInit x 22 = false := by
  have eW : MAZE_WIDTH = 40 := rfl
  have eH : MAZE_HEIGHT = 24 := rfl
  rw [coarseInit, getCell_mkGrid, if_pos ⟨by omega, by omega⟩]
  have h1 : ((x : Nat) == 0 || (x : Nat) == MAZE_WIDTH - 1 || (22 : Nat) == 0 ||
      (22 : Nat) == MAZE_HEIGHT - 1) = false := by
    simp only [Bool.or_eq_false_iff, beq_eq_false_iff_ne]
    refine ⟨⟨⟨by omega, by omega⟩, by omega⟩, by omega⟩
  rw [h1, Bool.false_and]

theorem coarseFinal_38 (rv rh : Nat → Nat → Bool) (y : Nat) (hy : 1 ≤ y ∧ y ≤ 22) :
    getCell (coarseFinal rv rh) 38 y = false := by
  have eW : MAZE_WIDTH = 40 := rfl
  have eH : MAZE_HEIGHT = 24 := rfl
  have h1 : getCell (vertStruts rv coarseInit) 38 y = false := by
    rw [vertStruts, getCell_cellMap, if_pos ⟨by omega, by omega⟩,
      coarseInit_38 y hy, vertStrutAt_38]
    rfl
  have h2 : getCell (horizStruts rh (vertStruts rv coarseInit)) 38 y = false := by
    rw [horizStruts, getCell_cellMap, if_pos ⟨by omega, by omega⟩, h1,
      horizStrutAt_38]
    rfl
  have h3 : getCell (addRooms (horizStruts rh (vertStruts rv coarseInit))) 38 y =
      false := by
    rw [addRooms_outside _ _ _ (by omega)]; exact h2
  have h4 : getCell (segRemoveH (addRooms (horizStruts rh
      (vertStruts rv coarseInit)))) 38 y = false := by
    cases hres : getCell (segRemoveH (addRooms (horizStruts rh
        (vertStruts rv coarseInit)))) 38 y with
    | false => rfl
    | true => exact absurd (segRemoveH_le _ hres) (by rw [h3]; simp)
  cases hres : getCell (coarseFinal rv rh) 38 y with
  | false => rfl
  | true => exact absurd (segRemoveV_le _ hres) (by rw [h4]; simp)

theorem coarseFinal_22 (rv rh : Nat → Nat → Bool) (x : Nat) (hx : 1 ≤ x ∧ x ≤ 38) :
    getCell (coarseFinal rv rh) x 22 = false := by
  have eW : MAZE_WIDTH = 40 := rfl
  have eH : MAZE_HEIGHT = 24 := rfl
  have h1 : getCell (vertStruts rv coarseInit) x 22 = false := by
    rw [vertStruts, getCell_cellMap, if_pos ⟨by omega, by omega⟩,
      coarseInit_22 x hx, vertStrutAt_22]
    rfl
  have h2 : getCell (horizStruts rh (vertStruts rv coarseInit)) x 22 = false := by
    rw [horizStruts, getCell_cellMap, if_pos ⟨by omega, by omega⟩, h1,
      horizStrutAt_22]
    rfl
  have h3 : getCell (addRooms (horizStruts rh (vertStruts rv coarseInit))) x 22 =
      false := by
    rw [addRooms_outside _ _ _ (by omega)]; exact h2
  have h4 : getCell (segRemoveH (addRooms (horizStruts rh
      (vertStruts rv coarseInit)))) x 22 = false := by
    cases hres : getCell (segRemoveH (addRooms (horizStruts rh
        (vertStruts rv coarseInit)))) x 22 with
    | false => rfl
    | true => exact absurd (segRemoveH_le _ hres) (by rw [h3]; simp)
  cases hres : getCell (coarseFinal rv rh) x 22 with
  | false => rfl
  | true => exact absurd (segRemoveV_le _ hres) (by rw [h4]; simp)

/-- `fineInit` is open off the border. -/
theorem fineInit_interior (x y : Nat) (hx : 1 ≤ x ∧ x ≤ 38) (hy : 1 ≤ y ∧ y ≤ 22) :
    getCell fineInit x y = false := by
  have eW : MAZE_WIDTH = 40 := rfl
  have eH : MAZE_HEIGHT = 24 := rfl
  rw [fineInit, getCell_mkGrid, if_pos ⟨by omega, by omega⟩]
  simp only [Bool.or_eq_false_iff, beq_eq_false_iff_ne]
  refine ⟨⟨⟨by omega, by omega⟩, by omega⟩, by omega⟩

/-- The projected grid has open interior edges at column 38 and row 22. -/
theorem edgeOpen_project (rv rh : Nat → Nat → Bool) :
    EdgeOpen (project (coarseFinal rv rh) fineInit) := by
  have eW : MAZE_WIDTH = 40 := rfl
  have eH : MAZE_HEIGHT = 24 := rfl
  constructor
  · intro y hy1 hy2
    show getCell (project (coarseFinal rv rh) fineInit) 38 y = false
    rw [project, getCell_cellMap, if_pos ⟨by omega, by omega⟩,
      fineInit_interior 38 y ⟨by omega, by omega⟩ ⟨by omega, by omega⟩,
      coarseFinal_38 rv rh y ⟨by omega, by omega⟩, Bool.false_and, Bool.or_false]
  · intro x hx1 hx2
    show getCell (project (coarseFinal rv rh) fineInit) x 22 = false
    rw [project, getCell_cellMap, if_pos ⟨by omega, by omega⟩,
      fineInit_interior x 22 ⟨by omega, by omega⟩ ⟨by omega, by omega⟩,
      coarseFinal_22 rv rh x ⟨by omega, by omega⟩, Bool.false_and, Bool.or_false]

/-- The projected grid has a solid border (from the fine border pass). -/
theorem borderWall_project (c : Grid) : BorderWall (project c fineInit) := by
  intro x y hx hy hbd
  rw [project, getCell_cellMap, if_pos ⟨hx, hy⟩]
  have h1 : getCell fineInit x y = true := by
    rw [fineInit, getCell_mkGrid, if_pos ⟨hx, hy⟩]
    rcases hbd with h | h | h | h <;>
      simp [h]
  rw [h1, Bool.true_or]

/-! ### The solid border survives every later pass -/

theorem borderWall_closeRunsRows {g : Grid} (hb : BorderWall g) :
    BorderWall (closeRunsRows g) := by
  intro x y hx hy hbd
  rw [closeRunsRows, getCell_onRows, if_pos hy,
    closeRowGo_protected y (g.getD y []) x hbd]
  exact hb x y hx hy hbd

theorem borderWall_closeRunsCols {g : Grid} (hb : BorderWall g) :
    BorderWall (closeRunsCols g) := by
  intro x y hx hy hbd
  rw [closeRunsCols, getCell_onCols, if_pos ⟨hx, hy⟩,
    closeColGo_protected x (colOf g x) y hbd, colOf_getD, if_pos hy]
  exact hb x y hx hy hbd

theorem clearPocket_border {g : Grid} (sx sy x y : Nat)
    (hbd : x = 0 ∨ x = MAZE_WIDTH - 1 ∨ y = 0 ∨ y = MAZE_HEIGHT - 1) :
    getCell (clearPocket g sx sy) x y = getCell g x y := by
  have eW : MAZE_WIDTH = 40 := rfl
  have eH : MAZE_HEIGHT = 24 := rfl
  unfold clearPocket
  refine foldl_preserve (fun (gg : Grid) => getCell gg x y = getCell g x y)
    _ _ _ rfl ?_
  intro gg b _ hgg
  refine foldl_preserve (fun (g2 : Grid) => getCell g2 x y = getCell g x y)
    _ _ _ hgg ?_
  intro g2 a _ hg2
  by_cases hc : b < MAZE_HEIGHT - 1 ∧ a < MAZE_WIDTH - 1 ∧ 0 < a ∧ 0 < b
  · rw [if_pos hc, getCell_setCell_ne _ _ (by omega)]
    exact hg2
  · rw [if_neg hc]; exact hg2

theorem borderWall_clearPockets {g : Grid} (hb : BorderWall g) :
    BorderWall (clearPockets g) := by
  intro x y hx hy hbd
  unfold clearPockets
  rw [clearPocket_border _ _ _ _ hbd, clearPocket_border _ _ _ _ hbd,
    clearPocket_border _ _ _ _ hbd, clearPocket_border _ _ _ _ hbd]
  exact hb x y hx hy hbd

theorem borderWall_clearBands {g : Grid} (hb : BorderWall g) :
    BorderWall (clearBands g) := by
  have eW : MAZE_WIDTH = 40 := rfl
  have eH : MAZE_HEIGHT = 24 := rfl
  have eX : SPAWN_X = 20 := rfl
  have eY : SPAWN_Y = 12 := rfl
  intro x y hx hy hbd
  rw [clearBands, getCell_cellMap, if_pos ⟨hx, hy⟩, if_neg (by omega)]
  exact hb x y hx hy hbd

theorem interiorB_border {x y : Nat}
    (hbd : x = 0 ∨ x = MAZE_WIDTH - 1 ∨ y = 0 ∨ y = MAZE_HEIGHT - 1) :
    interiorB x y = false := by
  have eW : MAZE_WIDTH = 40 := rfl
  have eH : MAZE_HEIGHT = 24 := rfl
  cases hres : interiorB x y with
  | false => rfl
  | true =>
    have := interiorB_iff.mp hres
    omega

theorem borderWall_carve {g : Grid} (hb : BorderWall g) (s : Nat × Nat) :
    BorderWall (carve g s) := by
  intro x y hx hy hbd
  rw [getCell_carve, if_pos ⟨hx, hy⟩]
  have h1 : hLeg s.1 s.2 x y = false := by
    unfold hLeg
    rw [interiorB_border hbd, Bool.and_false]
  have h2 : vLeg s.2 x y = false := by
    unfold vLeg
    rw [interiorB_border hbd, Bool.and_false]
  rw [h1, h2]
  exact hb x y hx hy hbd

theorem borderWall_connectLoopFuel :
    ∀ n {g : Grid}, BorderWall g → BorderWall (connectLoopFuel n g) := by
  intro n
  induction n with
  | zero => intro g hb; exact hb
  | succ n ih =>
    intro g hb
    rw [connectLoopFuel]
    cases hf : findUnvisited g (floodFill g) with
    | none => exact hb
    | some s => exact ih (borderWall_carve hb s)

theorem wf_mazePre (rv rh : Nat → Nat → Bool) : Wf (mazePre rv rh) := by
  unfold mazePre clearBands
  exact wf_cellMap _ _

theorem wf_connectLoopFuel :
    ∀ n {g : Grid}, Wf g → Wf (connectLoopFuel n g) := by
  intro n
  induction n with
  | zero => intro g hw; exact hw
  | succ n ih =>
    intro g hw
    rw [connectLoopFuel]
    cases hf : findUnvisited g (floodFill g) with
    | none => exact hw
    | some s => exact ih (wf_carve g s)

/-- The connectivity loop only removes walls. -/
theorem connectLoopFuel_le :
    ∀ n {g : Grid} {x y : Nat},
      getCell (connectLoopFuel n g) x y = true → getCell g x y = true := by
  intro n
  induction n with
  | zero => intro g x y h; exact h
  | succ n ih =>
    intro g x y h
    rw [connectLoopFuel] at h
    cases hf : findUnvisited g (floodFill g) with
    | none => rw [hf] at h; exact h
    | some s =>
      rw [hf] at h
      exact carve_le g s (ih h)

/-- The spawn-band clearing leaves the spawn cell open. -/
theorem mazePre_spawn_open (rv rh : Nat → Nat → Bool) :
    getCell (mazePre rv rh) SPAWN_X SPAWN_Y = false := by
  have eW : MAZE_WIDTH = 40 := rfl
  have eH : MAZE_HEIGHT = 24 := rfl
  have eX : SPAWN_X = 20 := rfl
  have eY : SPAWN_Y = 12 := rfl
  unfold mazePre clearBands
  rw [getCell_cellMap, if_pos ⟨by omega, by omega⟩, if_pos (by omega)]

theorem borderWall_mazePre (rv rh : Nat → Nat → Bool) :
    BorderWall (mazePre rv rh) := by
  rw [mazePre_eq]
  exact borderWall_clearBands (borderWall_clearPockets (borderWall_closeRunsCols
    (borderWall_closeRunsRows (borderWall_thin2x2 (wf_cellMap _ _)
      (borderWall_project _) (edgeOpen_project rv rh)))))

/-- A grid with one open in-range cell has fewer than 960 walls. -/
theorem cntTrue_lt_of_open {g : Grid} {x y : Nat}
    (hx : x < MAZE_WIDTH) (hy : y < MAZE_HEIGHT)
    (h : getCell g x y = false) : cntTrue g < 960 := by
  have hlt : cntTrue g < cellFinset.card := by
    apply Finset.card_lt_card
    constructor
    · exact Finset.filter_subset _ _
    · intro hsub
      have hmem : (x, y) ∈ cellFinset.filter fun c => getCell g c.1 c.2 = true :=
        hsub (by simp [cellFinset, hx, hy])
      rw [Finset.mem_filter] at hmem
      rw [hmem.2] at h
      exact absurd h (by simp)
  calc cntTrue g < cellFinset.card := hlt
  _ = 960 := by simp [cellFinset, MAZE_WIDTH, MAZE_HEIGHT]

theorem borderWall_generate (rv rh : Nat → Nat → Bool) :
    BorderWall (generate rv rh) := by
  have eW : MAZE_WIDTH = 40 := rfl
  have eH : MAZE_HEIGHT = 24 := rfl
  have eX : SPAWN_X = 20 := rfl
  have eY : SPAWN_Y = 12 := rfl
  show BorderWall (setCell (carve (carve (carve (carve
    (connectLoopFuel 960 (mazePre rv rh)) (2, 2)) (MAZE_WIDTH - 3, 2))
    (2, MAZE_HEIGHT - 3)) (MAZE_WIDTH - 3, MAZE_HEIGHT - 3)) SPAWN_X SPAWN_Y false)
  intro x y hx hy hbd
  rw [getCell_setCell_ne _ _ (by omega)]
  exact borderWall_carve (borderWall_carve (borderWall_carve (borderWall_carve
    (borderWall_connectLoopFuel 960 (borderWall_mazePre rv rh)) _) _) _) _
    x y hx hy hbd

/-- Claim C8: in every generated 40x24 maze, every cell on the outer border
of the grid is a wall, except (possibly) border cells lying within the spawn
cross (the row and the column through the spawn cell): away from the spawn
cross, the border is solid, for every outcome of the pseudo-random source. -/
theorem maze_border_solid (rv rh : Nat → Nat → Bool) (x y : Nat)
    (hx : x < MAZE_WIDTH) (hy : y < MAZE_HEIGHT)
    (hbd : x = 0 ∨ x = MAZE_WIDTH - 1 ∨ y = 0 ∨ y = MAZE_HEIGHT - 1)
    (hcross : ¬(x = SPAWN_X ∨ y = SPAWN_Y)) :
    getCell (generate rv rh) x y = true :=
  borderWall_generate rv rh x y hx hy hbd

/-- Witness for C8: a concrete border cell off the spawn cross of a concrete
generated maze is a wall. -/
theorem maze_border_solid_witness :
    getCell (generate (fun _ _ => true) (fun _ _ => true)) 0 5 = true :=
  maze_border_solid (fun _ _ => true) (fun _ _ => true) 0 5
    (by decide) (by decide) (by decide) (by decide)

/-! ### Full connectivity of the generated maze (claim C1) -/

/-- The all-`true` outcome of the pseudo-random source. -/
def rAllTrue : Nat → Nat → Bool := fun _ _ => true

theorem generate_eq (rv rh : Nat → Nat → Bool) :
    generate rv rh = setCell (carve (carve (carve (carve
      (connectLoopFuel 960 (mazePre rv rh)) (2, 2)) (MAZE_WIDTH - 3, 2))
      (2, MAZE_HEIGHT - 3)) (MAZE_WIDTH - 3, MAZE_HEIGHT - 3))
      SPAWN_X SPAWN_Y false := rfl

/-- At the loop's exit, every interior open cell is flood-fill marked. -/
theorem loopExit_marked {g : Grid}
    (hnone : findUnvisited g (floodFill g) = none) :
    ∀ x y, interiorB x y = true → getCell g x y = false →
      getCell (floodFill g) x y = true := by
  intro x y hint hopen
  rw [findUnvisited, List.find?_eq_none] at hnone
  have hmem : (x, y) ∈ scanCells := by
    rw [scanCells_mem]
    have := interiorB_iff.mp hint
    exact ⟨by omega, by omega, by omega, by omega⟩
  have hno := hnone (x, y) hmem
  cases hm : getCell (floodFill g) x y with
  | true => rfl
  | false =>
    exfalso
    apply hno
    show (!getCell g x y && !getCell (floodFill g) x y) = true
    rw [hopen, hm]
    rfl

/-- With a solid border and a finished loop, every open in-range cell is
reachable from the spawn. -/
theorem conn_of_exit {g : Grid} (hb : BorderWall g)
    (hnone : findUnvisited g (floodFill g) = none) :
    ∀ x y, x < MAZE_WIDTH → y < MAZE_HEIGHT → getCell g x y = false →
      Reach g (x, y) := by
  have eW : MAZE_WIDTH = 40 := rfl
  have eH : MAZE_HEIGHT = 24 := rfl
  intro x y hx hy hopen
  have hint : interiorB x y = true := by
    cases hresI : interiorB x y with
    | true => rfl
    | false =>
      exfalso
      have hbd : x = 0 ∨ x = MAZE_WIDTH - 1 ∨ y = 0 ∨ y = MAZE_HEIGHT - 1 := by
        by_contra hc
        push_neg at hc
        have hI : interiorB x y = true := interiorB_iff.mpr (by omega)
        rw [hI] at hresI
        exact absurd hresI (by simp)
      have := hb x y hx hy hbd
      rw [hopen] at this
      exact absurd this (by simp)
  exact floodFill_sound g (loopExit_marked hnone x y hint hopen)

/-- One corner carve preserves spawn-openness and full reachability. -/
theorem carve_preserves_conn {g : Grid} (s : Nat × Nat)
    (hs1 : 1 ≤ s.1) (hs2 : s.1 ≤ MAZE_WIDTH - 2)
    (hs3 : 1 ≤ s.2) (hs4 : s.2 ≤ MAZE_HEIGHT - 2)
    (hspawn : getCell g SPAWN_X SPAWN_Y = false)
    (hconn : ∀ x y, x < MAZE_WIDTH → y < MAZE_HEIGHT →
      getCell g x y = false → Reach g (x, y)) :
    getCell (carve g s) SPAWN_X SPAWN_Y = false ∧
    ∀ x y, x < MAZE_WIDTH → y < MAZE_HEIGHT →
      getCell (carve g s) x y = false → Reach (carve g s) (x, y) := by
  have eW : MAZE_WIDTH = 40 := rfl
  have eH : MAZE_HEIGHT = 24 := rfl
  have eX : SPAWN_X = 20 := rfl
  have eY : SPAWN_Y = 12 := rfl
  have hsp : getCell (carve g s) SPAWN_X SPAWN_Y = false := by
    rw [getCell_carve, if_pos ⟨by omega, by omega⟩]
    by_cases hleg : (hLeg s.1 s.2 SPAWN_X SPAWN_Y || vLeg s.2 SPAWN_X SPAWN_Y) = true
    · rw [if_pos hleg]
    · rw [if_neg hleg]
      exact hspawn
  refine ⟨hsp, ?_⟩
  intro x y hx hy hopen
  by_cases hleg : (hLeg s.1 s.2 x y || vLeg s.2 x y) = true
  · exact carve_leg_reach g s hs3 hs4 hs2 hsp x y (by
      simp only [Bool.or_eq_true] at hleg
      exact hleg)
  · have hopen' : getCell g x y = false := by
      rw [getCell_carve, if_pos ⟨hx, hy⟩, if_neg hleg] at hopen
      exact hopen
    exact reach_mono (fun a b hab => carve_le g s hab) (hconn x y hx hy hopen')

/-- The final spawn clearing preserves spawn-openness and reachability. -/
theorem setCell_spawn_conn {g : Grid} (hw : Wf g)
    (hconn : ∀ x y, x < MAZE_WIDTH → y < MAZE_HEIGHT →
      getCell g x y = false → Reach g (x, y)) :
    getCell (setCell g SPAWN_X SPAWN_Y false) SPAWN_X SPAWN_Y = false ∧
    ∀ x y, x < MAZE_WIDTH → y < MAZE_HEIGHT →
      getCell (setCell g SPAWN_X SPAWN_Y false) x y = false →
      Reach (setCell g SPAWN_X SPAWN_Y false) (x, y) := by
  have eW : MAZE_WIDTH = 40 := rfl
  have eH : MAZE_HEIGHT = 24 := rfl
  have eX : SPAWN_X = 20 := rfl
  have eY : SPAWN_Y = 12 := rfl
  have hpt : ∀ x y, getCell (setCell g SPAWN_X SPAWN_Y false) x y =
      if SPAWN_X = x ∧ SPAWN_Y = y ∧ x < MAZE_WIDTH ∧ y < MAZE_HEIGHT then false
      else getCell g x y := fun x y => getCell_setCell hw false _ _ x y
  have hle : ∀ x y, getCell (setCell g SPAWN_X SPAWN_Y false) x y = true →
      getCell g x y = true := by
    intro x y h
    rw [hpt] at h
    by_cases hc : SPAWN_X = x ∧ SPAWN_Y = y ∧ x < MAZE_WIDTH ∧ y < MAZE_HEIGHT
    · rw [if_pos hc] at h
      exact absurd h (by simp)
    · rw [if_neg hc] at h
      exact h
  have hsp : getCell (setCell g SPAWN_X SPAWN_Y false) SPAWN_X SPAWN_Y = false := by
    rw [hpt, if_pos ⟨rfl, rfl, by omega, by omega⟩]
  refine ⟨hsp, ?_⟩
  intro x y hx hy hopen
  by_cases hc : SPAWN_X = x ∧ SPAWN_Y = y
  · obtain ⟨hcx, hcy⟩ := hc
    subst hcx
    subst hcy
    exact ⟨hsp, Relation.ReflTransGen.refl⟩
  · have hopen' : getCell g x y = false := by
      rw [hpt, if_neg (by tauto)] at hopen
      exact hopen
    exact reach_mono hle (hconn x y hx hy hopen')

/-- The generated maze: the spawn is open and every open cell reachable. -/
theorem generate_conn (rv rh : Nat → Nat → Bool) :
    getCell (generate rv rh) SPAWN_X SPAWN_Y = false ∧
    ∀ x y, x < MAZE_WIDTH → y < MAZE_HEIGHT →
      getCell (generate rv rh) x y = false → Reach (generate rv rh) (x, y) := by
  have eW : MAZE_WIDTH = 40 := rfl
  have eH : MAZE_HEIGHT = 24 := rfl
  have eX : SPAWN_X = 20 := rfl
  have eY : SPAWN_Y = 12 := rfl
  have hw0 := wf_mazePre rv rh
  have hcnt : cntTrue (mazePre rv rh) < 960 :=
    cntTrue_lt_of_open (by omega) (by omega) (mazePre_spawn_open rv rh)
  have hnone := connectLoopFuel_none 960 hw0 hcnt
  have hb1 : BorderWall (connectLoopFuel 960 (mazePre rv rh)) :=
    borderWall_connectLoopFuel 960 (borderWall_mazePre rv rh)
  have hconn1 := conn_of_exit hb1 hnone
  have hsp1 : getCell (connectLoopFuel 960 (mazePre rv rh)) SPAWN_X SPAWN_Y =
      false := by
    cases hres : getCell (connectLoopFuel 960 (mazePre rv rh)) SPAWN_X SPAWN_Y with
    | false => rfl
    | true =>
      exact absurd (connectLoopFuel_le 960 hres)
        (by rw [mazePre_spawn_open rv rh]; simp)
  have h2 := carve_preserves_conn (2, 2) (by omega) (by omega) (by omega)
    (by omega) hsp1 hconn1
  have h3 := carve_preserves_conn (MAZE_WIDTH - 3, 2) (by omega) (by omega)
    (by omega) (by omega) h2.1 h2.2
  have h4 := carve_preserves_conn (2, MAZE_HEIGHT - 3) (by omega) (by omega)
    (by omega) (by omega) h3.1 h3.2
  have h5 := carve_preserves_conn (MAZE_WIDTH - 3, MAZE_HEIGHT - 3) (by omega)
    (by omega) (by omega) (by omega) h4.1 h4.2
  rw [generate_eq]
  exact setCell_spawn_conn (wf_carve _ _) h5.2

/-- When every open cell is reachable, the flood fill marks every open cell. -/
theorem floodFill_marks_open {g : Grid}
    (hconn : ∀ x y, x < MAZE_WIDTH → y < MAZE_HEIGHT →
      getCell g x y = false → Reach g (x, y)) :
    ∀ x y, x < MAZE_WIDTH → y < MAZE_HEIGHT → getCell g x y = false →
      getCell (floodFill g) x y = true :=
  fun x y hx hy hopen => @floodFill_complete g (x, y) (hconn x y hx hy hopen)

/-- When every open cell is reachable, the flood-fill marked count equals
the open-cell count. -/
theorem floodFill_count_eq {g : Grid}
    (hconn : ∀ x y, x < MAZE_WIDTH → y < MAZE_HEIGHT →
      getCell g x y = false → Reach g (x, y)) :
    (cellFinset.filter fun c => getCell (floodFill g) c.1 c.2 = true).card =
      (cellFinset.filter fun c => getCell g c.1 c.2 = false).card := by
  apply congrArg Finset.card
  apply Finset.filter_congr
  intro c hc
  simp only [cellFinset, Finset.mem_product, Finset.mem_range] at hc
  constructor
  · intro hmk
    exact floodFill_sub_open _ hmk
  · intro hop
    exact floodFill_complete _ (hconn c.1 c.2 hc.1 hc.2 hop)

/-- Claim C1: for every outcome of the pseudo-random source, the maze
initializer leaves the spawn cell (20, 12) open, the 4-connected flood fill
from the spawn marks every open cell of the 40x24 grid, and the number of
marked (reachable) cells equals the number of open cells. -/
theorem maze_flood_fill_connected (rv rh : Nat → Nat → Bool) :
    getCell (generate rv rh) SPAWN_X SPAWN_Y = false ∧
    (∀ x y, x < MAZE_WIDTH → y < MAZE_HEIGHT →
      getCell (generate rv rh) x y = false →
      getCell (floodFill (generate rv rh)) x y = true) ∧
    (cellFinset.filter fun c =>
        getCell (floodFill (generate rv rh)) c.1 c.2 = true).card =
      (cellFinset.filter fun c => getCell (generate rv rh) c.1 c.2 = false).card :=
  ⟨(generate_conn rv rh).1,
   floodFill_marks_open (generate_conn rv rh).2,
   floodFill_count_eq (generate_conn rv rh).2⟩

/-- Witness for C1 at a concrete outcome of the random source: the spawn
cell itself is open and flood-fill marked. -/
theorem maze_flood_fill_connected_witness :
    getCell (floodFill (generate rAllTrue rAllTrue)) SPAWN_X SPAWN_Y = true :=
  (maze_flood_fill_connected rAllTrue rAllTrue).2.1 SPAWN_X SPAWN_Y
    (by decide) (by decide) (maze_flood_fill_connected rAllTrue rAllTrue).1

/-! ### Executives: state, the scare transition and the per-tick update

Positions are embedded as rationals: every JS float is rational, and the
executive update uses only +, -, *, min, max, floor and comparisons, which
are exact over ℚ.  The random draws are parameters: `move` stands for the
`Math.random() < baseSpeed` draw, and `js` for the Fisher-Yates draws
`Math.floor(Math.random() * (i + 1))` of the direction shuffle. -/

/-- SCARED_DURATION (180 ticks = 3 seconds at 60fps). -/
def SCARED_DURATION : Nat := 180

/-- An executive: continuous position, facing direction, scare state and
the patrol commitment counter (`stepsRemaining` defaults to 0). -/
structure Executive where
  posX : ℚ
  posY : ℚ
  dirX : ℚ
  dirY : ℚ
  isScared : Bool
  scaredTimer : Nat
  stepsRemaining : Nat

/-- `canExecMoveTo`: the executive sprite footprint (offsets 0.75 left/top,
1.75 right/bottom) covers no wall cell; the scanned cell range is clamped
to the grid. -/
def canExecMoveTo (m : Grid) (x y : ℚ) : Bool :=
  let minGX : Int := max 0 ⌊x - 0.75⌋
  let maxGX : Int := min (MAZE_WIDTH - 1) ⌊x + 1.75⌋
  let minGY : Int := max 0 ⌊y - 0.75⌋
  let maxGY : Int := min (MAZE_HEIGHT - 1) ⌊y + 1.75⌋
  (List.range' 0 (maxGY + 1 - minGY).toNat).all fun j =>
    (List.range' 0 (maxGX + 1 - minGX).toNat).all fun i =>
      !getCell m (minGX + i).toNat (minGY + j).toNat

/-- One swap of the in-place Fisher-Yates shuffle. -/
def swapL {α : Type} (l : List α) (i j : Nat) : List α :=
  match l[i]?, l[j]? with
  | some a, some b => (l.set i b).set j a
  | _, _ => l

/-- The Fisher-Yates shuffle (`i` from `length - 1` down to 1, swapping
with index `js i`). -/
def shuffleFY {α : Type} (js : Nat → Nat) (l : List α) : List α :=
  ((List.range' 1 (l.length - 1)).reverse).foldl (fun acc i => swapL acc i (js i)) l

/-- The patrol pass's candidate directions, before shuffling. -/
def cardinalDirs : List (ℚ × ℚ) := [(1, 0), (-1, 0), (0, 1), (0, -1)]

/-- The walkability test the patrol step runs on a candidate position. -/
def patrolCanMove (m : Grid) (tx ty : ℚ) : Bool :=
  decide (0.75 ≤ tx) && decide (tx ≤ (MAZE_WIDTH : ℚ) - 1.75) &&
  decide (0.75 ≤ ty) && decide (ty ≤ (MAZE_HEIGHT : ℚ) - 1.75) &&
  canExecMoveTo m tx ty

/-- One committed patrol move: step 0.5 in direction `d` with `sr` steps
of commitment; a blocked move keeps the old direction and forces a fresh
choice next tick. -/
def execPatrolMove (m : Grid) (e : Executive) (d : ℚ × ℚ) (sr : Nat) :
    Executive :=
  let newX := e.posX + d.1 * (1/2)
  let newY := e.posY + d.2 * (1/2)
  if patrolCanMove m newX newY
  then { e with
          posX := newX, posY := newY, dirX := d.1, dirY := d.2,
          stepsRemaining := sr - 1 }
  else { e with stepsRemaining := 0 }

/-- The per-tick executive update: flee when scared (one discrete step away
from the player, clamped into bounds, with the timer decrement recomputing
`isScared`); otherwise, when the speed draw fires, patrol (choosing a fresh
walkable direction from the shuffled cardinals when the commitment has run
out). -/
def execUpdate (m : Grid) (px py : ℚ) (move : Bool) (js : Nat → Nat)
    (e : Executive) : Executive :=
  if 0 < e.scaredTimer then
    let dx := e.posX - px
    let dy := e.posY - py
    let moveX : ℚ := if 0 < dx then 1 else if dx < 0 then -1 else 0
    let moveY : ℚ := if 0 < dy then 1 else if dy < 0 then -1 else 0
    let targetX := e.posX + moveX
    let targetY := e.posY + moveY
    let newPos : ℚ × ℚ :=
      if canExecMoveTo m targetX targetY then
        (max 0.75 (min ((MAZE_WIDTH : ℚ) - 1.75) targetX),
         max 0.75 (min ((MAZE_HEIGHT : ℚ) - 1.75) targetY))
      else (e.posX, e.posY)
    { e with
        posX := newPos.1, posY := newPos.2,
        scaredTimer := e.scaredTimer - 1,
        isScared := decide (0 < e.scaredTimer - 1),
        stepsRemaining := 0 }
  else if move then
    if e.stepsRemaining = 0 then
      match (shuffleFY js cardinalDirs).find?
          (fun d => patrolCanMove m (e.posX + d.1 * (1/2)) (e.posY + d.2 * (1/2)))
        with
      | some d => execPatrolMove m e d 15
      | none => e
    else execPatrolMove m e (e.dirX, e.dirY) e.stepsRemaining
  else e

/-- The four executives as initialized (directions, scare state and the
commitment counter are literal; the spiral position search's outcomes are
the `p1 … p4` parameters, which the scare fields do not depend on). -/
def executivesInit (p1 p2 p3 p4 : ℚ × ℚ) : List Executive :=
  [⟨p1.1, p1.2, 1, 0, false, 0, 0⟩,
   ⟨p2.1, p2.2, 0, 1, false, 0, 0⟩,
   ⟨p3.1, p3.2, 0, -1, false, 0, 0⟩,
   ⟨p4.1, p4.2, -1, 0, false, 0, 0⟩]

/-- `Math.abs` over the rationals (kept executable). -/
def qabs (q : ℚ) : ℚ := if q < 0 then -q else q

/-- The scare transition of the interaction action (one executive). -/
def scareStep (px py : ℚ) (e : Executive) : Executive :=
  if e.isScared = false ∧ qabs (e.posX - px) ≤ 1 ∧ qabs (e.posY - py) ≤ 1
  then { e with isScared := true, scaredTimer := SCARED_DURATION }
  else e

/-- `isScared` holds exactly when the scare timer is running. -/
def ScaredInv (e : Executive) : Prop := e.isScared = true ↔ 0 < e.scaredTimer

/-- The facing direction is one of the four cardinal unit vectors. -/
def IsCardinal (d : ℚ × ℚ) : Prop :=
  d = (1, 0) ∨ d = (-1, 0) ∨ d = (0, 1) ∨ d = (0, -1)

theorem mem_swapL {α : Type} {l : List α} {i j : Nat} {x : α}
    (h : x ∈ swapL l i j) : x ∈ l := by
  unfold swapL at h
  split at h
  · rename_i a b hi hj
    rcases List.mem_or_eq_of_mem_set h with h1 | rfl
    · rcases List.mem_or_eq_of_mem_set h1 with h2 | rfl
      · exact h2
      · obtain ⟨hlt, heq⟩ := List.getElem?_eq_some.mp hj
        rw [← heq]
        exact l.getElem_mem hlt
    · obtain ⟨hlt, heq⟩ := List.getElem?_eq_some.mp hi
      rw [← heq]
      exact l.getElem_mem hlt
  · exact h

theorem mem_shuffleFY {α : Type} {js : Nat → Nat} {l : List α} {x : α}
    (h : x ∈ shuffleFY js l) : x ∈ l := by
  revert h
  unfold shuffleFY
  refine foldl_preserve (fun (acc : List α) => x ∈ acc → x ∈ l) _ _ _
    (fun h => h) ?_
  intro acc i _ hacc hx
  exact hacc (mem_swapL hx)

/-- Claim C9: the equivalence `isScared = (scaredTimer > 0)` holds for every
executive at initialization, and is preserved both by the interaction
action's scare transition (which sets the flag with timer 180) and by every
per-tick executive update (whose flee branch clears the flag exactly when
the decremented timer reaches zero). -/
theorem scared_iff_timer_pos :
    (∀ p1 p2 p3 p4 : ℚ × ℚ, ∀ e ∈ executivesInit p1 p2 p3 p4, ScaredInv e) ∧
    (∀ (px py : ℚ) (e : Executive), ScaredInv e → ScaredInv (scareStep px py e)) ∧
    (∀ (m : Grid) (px py : ℚ) (move : Bool) (js : Nat → Nat) (e : Executive),
      ScaredInv e → ScaredInv (execUpdate m px py move js e)) := by
  refine ⟨?_, ?_, ?_⟩
  · intro p1 p2 p3 p4 e he
    simp only [executivesInit, List.mem_cons, List.not_mem_nil, or_false] at he
    rcases he with rfl | rfl | rfl | rfl <;> simp [ScaredInv]
  · intro px py e h
    unfold scareStep
    by_cases hc : e.isScared = false ∧ qabs (e.posX - px) ≤ 1 ∧ qabs (e.posY - py) ≤ 1
    · rw [if_pos hc]
      simp [ScaredInv, SCARED_DURATION]
    · rw [if_neg hc]
      exact h
  · intro m px py move js e h
    unfold execUpdate
    by_cases hs : 0 < e.scaredTimer
    · rw [if_pos hs]
      simp [ScaredInv]
    · rw [if_neg hs]
      by_cases hm : move = true
      · rw [if_pos hm]
        by_cases hsr : e.stepsRemaining = 0
        · rw [if_pos hsr]
          cases hf : (shuffleFY js cardinalDirs).find?
              (fun d => patrolCanMove m (e.posX + d.1 * (1/2))
                (e.posY + d.2 * (1/2))) with
          | none => exact h
          | some d =>
            show ScaredInv (execPatrolMove m e d 15)
            unfold execPatrolMove
            by_cases hmv : patrolCanMove m (e.posX + d.1 * (1/2))
                (e.posY + d.2 * (1/2)) = true
            · rw [if_pos hmv]
              exact h
            · rw [if_neg hmv]
              exact h
        · rw [if_neg hsr]
          unfold execPatrolMove
          by_cases hmv : patrolCanMove m (e.posX + e.dirX * (1/2))
              (e.posY + e.dirY * (1/2)) = true
          · rw [if_pos hmv]
            exact h
          · rw [if_neg hmv]
            exact h
      · rw [if_neg hm]
        exact h

/-- Witness for C9 at a concrete executive: the invariant holds of the
initial state and of one concrete update. -/
theorem scared_iff_timer_pos_witness :
    ScaredInv ⟨2, 2, 1, 0, false, 0, 0⟩ ∧
    ScaredInv (execUpdate (mkGrid fun _ _ => false) 0 0 false (fun _ => 0)
      ⟨2, 2, 1, 0, false, 0, 0⟩) :=
  ⟨by simp [ScaredInv],
   scared_iff_timer_pos.2.2 (mkGrid fun _ _ => false) 0 0 false (fun _ => 0)
     ⟨2, 2, 1, 0, false, 0, 0⟩ (by simp [ScaredInv])⟩

/-- Claim C10: every executive's facing direction is always one of the four
cardinal unit vectors: the initial directions are cardinal, the patrol
branch only ever commits to a direction drawn from the (shuffled) list of
the four cardinals, and the flee branch never changes the stored
direction. -/
theorem exec_direction_cardinal :
    (∀ p1 p2 p3 p4 : ℚ × ℚ, ∀ e ∈ executivesInit p1 p2 p3 p4,
      IsCardinal (e.dirX, e.dirY)) ∧
    (∀ (m : Grid) (px py : ℚ) (move : Bool) (js : Nat → Nat) (e : Executive),
      IsCardinal (e.dirX, e.dirY) →
      IsCardinal ((execUpdate m px py move js e).dirX,
        (execUpdate m px py move js e).dirY)) ∧
    (∀ (m : Grid) (px py : ℚ) (move : Bool) (js : Nat → Nat) (e : Executive),
      0 < e.scaredTimer →
      (execUpdate m px py move js e).dirX = e.dirX ∧
      (execUpdate m px py move js e).dirY = e.dirY) := by
  refine ⟨?_, ?_, ?_⟩
  · intro p1 p2 p3 p4 e he
    simp only [executivesInit, List.mem_cons, List.not_mem_nil, or_false] at he
    rcases he with rfl | rfl | rfl | rfl <;> simp [IsCardinal]
  · intro m px py move js e h
    unfold execUpdate
    by_cases hs : 0 < e.scaredTimer
    · rw [if_pos hs]
      exact h
    · rw [if_neg hs]
      by_cases hm : move = true
      · rw [if_pos hm]
        by_cases hsr : e.stepsRemaining = 0
        · rw [if_pos hsr]
          cases hf : (shuffleFY js cardinalDirs).find?
              (fun d => patrolCanMove m (e.posX + d.1 * (1/2))
                (e.posY + d.2 * (1/2))) with
          | none => exact h
          | some d =>
            have hd : d ∈ cardinalDirs :=
              mem_shuffleFY (List.mem_of_find?_eq_some hf)
            have hcard : IsCardinal d := by
              simp only [cardinalDirs, List.mem_cons, List.not_mem_nil,
                or_false] at hd
              rcases hd with rfl | rfl | rfl | rfl <;> simp [IsCardinal]
            show IsCardinal ((execPatrolMove m e d 15).dirX,
              (execPatrolMove m e d 15).dirY)
            unfold execPatrolMove
            by_cases hmv : patrolCanMove m (e.posX + d.1 * (1/2))
                (e.posY + d.2 * (1/2)) = true
            · rw [if_pos hmv]
              simpa [IsCardinal] using hcard
            · rw [if_neg hmv]
              exact h
        · rw [if_neg hsr]
          unfold execPatrolMove
          by_cases hmv : patrolCanMove m (e.posX + e.dirX * (1/2))
              (e.posY + e.dirY * (1/2)) = true
          · rw [if_pos hmv]
            exact h
          · rw [if_neg hmv]
            exact h
      · rw [if_neg hm]
        exact h
  · intro m px py move js e hs
    unfold execUpdate
    rw [if_pos hs]
    exact ⟨rfl, rfl⟩

/-- Witness for C10 at a concrete executive: a cardinal direction stays
cardinal across one concrete update. -/
theorem exec_direction_cardinal_witness :
    IsCardinal ((execUpdate (mkGrid fun _ _ => false) 0 0 false (fun _ => 0)
        ⟨2, 2, 1, 0, false, 0, 0⟩).dirX,
      (execUpdate (mkGrid fun _ _ => false) 0 0 false (fun _ => 0)
        ⟨2, 2, 1, 0, false, 0, 0⟩).dirY) :=
  exec_direction_cardinal.2.1 (mkGrid fun _ _ => false) 0 0 false (fun _ => 0)
    ⟨2, 2, 1, 0, false, 0, 0⟩ (by simp [IsCardinal])

/-! ### The catch evaluation (perception model)

Positions enter the perception model as reals; `Math.atan2(y, x)` is the
argument of the complex number `x + yi` (range `(-π, π]`, matching atan2),
and the two angle-normalization `while` loops reduce to one conditional
step because the difference of two `atan2` values lies in `(-2π, 2π)`. -/

/-- VISION_DISTANCE = 6. -/
def VISION_DISTANCE : ℝ := 6

/-- `Math.atan2 y x`. -/
noncomputable def atan2 (y x : ℝ) : ℝ := Complex.arg ⟨x, y⟩

/-- Normalization of the angle difference into `(-π, π]`. -/
noncomputable def normAngle (a : ℝ) : ℝ :=
  if Real.pi < a then a - 2 * Real.pi
  else if a < -Real.pi then a + 2 * Real.pi
  else a

/-- A sampled ray cell is (in bounds and) a wall. -/
def wallAtFloor (m : Grid) (x y : ℝ) : Prop :=
  0 ≤ ⌊x⌋ ∧ ⌊x⌋ < (MAZE_WIDTH : Int) ∧ 0 ≤ ⌊y⌋ ∧ ⌊y⌋ < (MAZE_HEIGHT : Int) ∧
  getCell m ⌊x⌋.toNat ⌊y⌋.toNat = true

/-- The per-executive catch evaluation of the game loop (run when the
player is neither invincible nor in catch cooldown): the executive is not
scared, the player is outside the blind spot but within vision range and
within the ±π/6 cone around the facing direction, and every sampled cell
of the ray to the player is free of walls. -/
def execCatch (m : Grid) (ex ey dx0 dy0 : ℝ) (scared : Bool) (px py : ℝ) :
    Prop :=
  scared = false ∧
  ¬(Real.sqrt ((px - ex)^2 + (py - ey)^2) < 1) ∧
  ¬(Real.sqrt ((px - ex)^2 + (py - ey)^2) > VISION_DISTANCE) ∧
  |normAngle (atan2 (py - ey) (px - ex) - atan2 dy0 dx0)| ≤ Real.pi / 6 ∧
  ∀ i : ℕ, 1 ≤ i → i ≤ ⌈Real.sqrt ((px - ex)^2 + (py - ey)^2)⌉₊ →
    ¬ wallAtFloor m
      (ex + (px - ex) / Real.sqrt ((px - ex)^2 + (py - ey)^2) * i)
      (ey + (py - ey) / Real.sqrt ((px - ex)^2 + (py - ey)^2) * i)

/-- Claim C4: whenever the player's Euclidean distance to an executive is
strictly below 1 (the blind spot), the per-tick catch evaluation never
triggers a catch for that executive, for every facing direction and every
angle to the player. -/
theorem blind_spot_no_catch (m : Grid) (ex ey dx0 dy0 : ℝ) (scared : Bool)
    (px py : ℝ) (h : Real.sqrt ((px - ex)^2 + (py - ey)^2) < 1) :
    ¬ execCatch m ex ey dx0 dy0 scared px py :=
  fun hc => hc.2.1 h

/-- Witness for C4: a concrete player half a cell away from a concrete
executive is never caught by it. -/
theorem blind_spot_no_catch_witness :
    Real.sqrt (((1/2 : ℝ) - 0)^2 + ((0 : ℝ) - 0)^2) < 1 ∧
    ¬ execCatch (mkGrid fun _ _ => false) 0 0 1 0 false (1/2) 0 := by
  have hlt : Real.sqrt (((1/2 : ℝ) - 0)^2 + ((0 : ℝ) - 0)^2) < 1 := by
    rw [show ((1/2 : ℝ) - 0)^2 + ((0 : ℝ) - 0)^2 = (1/2)^2 by norm_num,
      Real.sqrt_sq (by norm_num)]
    norm_num
  exact ⟨hlt, blind_spot_no_catch (mkGrid fun _ _ => false) 0 0 1 0 false
    (1/2) 0 hlt⟩

/-- Claim C3: with a patrolling (non-scared) executive at (5, 5) facing east
(1, 0) and the player at (9, 5) — distance 4, angle 0, within the 60° cone
and VISION_DISTANCE 6 — the catch evaluation triggers a catch when none of
the sampled ray cells (6,5) … (9,5) is a wall, and does not trigger when
grid cell (7, 5) is a wall (line of sight blocked). -/
theorem catch_scenario (m : Grid) :
    ((∀ i : ℕ, 1 ≤ i → i ≤ 4 → getCell m (5 + i) 5 = false) →
      execCatch m 5 5 1 0 false 9 5) ∧
    (getCell m 7 5 = true → ¬ execCatch m 5 5 1 0 false 9 5) := by
  have hd : Real.sqrt (((9:ℝ) - 5)^2 + ((5:ℝ) - 5)^2) = 4 := by
    rw [show ((9:ℝ) - 5)^2 + ((5:ℝ) - 5)^2 = 4^2 by norm_num,
      Real.sqrt_sq (by norm_num)]
  have hq : ((9:ℝ) - 5) / 4 = 1 := by norm_num
  have hq0 : ((5:ℝ) - 5) / 4 = 0 := by norm_num
  have hone : atan2 ((5:ℝ) - 5) ((9:ℝ) - 5) = 0 := by
    unfold atan2
    rw [show ((5:ℝ) - 5) = 0 by norm_num, show ((9:ℝ) - 5) = 4 by norm_num]
    exact Complex.arg_ofReal_of_nonneg (by norm_num)
  have htwo : atan2 (0:ℝ) (1:ℝ) = 0 := by
    unfold atan2
    exact Complex.arg_ofReal_of_nonneg (by norm_num)
  have hnorm : normAngle 0 = 0 := by
    unfold normAngle
    rw [if_neg (by linarith [Real.pi_pos]), if_neg (by linarith [Real.pi_pos])]
  constructor
  · intro hopen
    unfold execCatch
    rw [hd]
    refine ⟨rfl, by norm_num, by norm_num [VISION_DISTANCE], ?_, ?_⟩
    · rw [hone, htwo, show (0:ℝ) - 0 = 0 by norm_num, hnorm, abs_zero]
      positivity
    · intro i hi1 hi2
      rw [Nat.ceil_ofNat] at hi2
      intro hw
      rw [hq, hq0] at hw
      have hx : (5:ℝ) + 1 * (i : ℝ) = ((5 + i : ℕ) : ℝ) := by
        push_cast
        ring
      have hy : (5:ℝ) + 0 * (i : ℝ) = ((5 : ℕ) : ℝ) := by
        push_cast
        ring
      rw [hx, hy] at hw
      unfold wallAtFloor at hw
      rw [Int.floor_natCast, Int.floor_natCast] at hw
      have : getCell m (5 + i) 5 = true := hw.2.2.2.2
      rw [hopen i hi1 hi2] at this
      exact absurd this (by simp)
  · intro hwall hc
    have hlos := hc.2.2.2.2
    rw [hd, hq, hq0] at hlos
    have h2 := hlos 2 (by norm_num) (by rw [Nat.ceil_ofNat]; norm_num)
    apply h2
    have hx : (5:ℝ) + 1 * ((2:ℕ) : ℝ) = ((7 : ℕ) : ℝ) := by
      push_cast
      ring
    have hy : (5:ℝ) + 0 * ((2:ℕ) : ℝ) = ((5 : ℕ) : ℝ) := by
      push_cast
      ring
    rw [hx, hy]
    unfold wallAtFloor
    rw [Int.floor_natCast, Int.floor_natCast]
    exact ⟨by norm_num, by decide, by norm_num, by decide, hwall⟩

/-- Witness for C3 at a concrete maze: the all-open maze yields a catch in
the scenario, so the scenario's hypotheses are satisfiable. -/
theorem catch_scenario_witness :
    execCatch (mkGrid fun _ _ => false) 5 5 1 0 false 9 5 :=
  (catch_scenario (mkGrid fun _ _ => false)).1
    (fun i h1 h4 => by
      have eW : MAZE_WIDTH = 40 := rfl
      have eH : MAZE_HEIGHT = 24 := rfl
      rw [getCell_mkGrid, if_pos ⟨by omega, by omega⟩])

/-! ### The coin lifecycle (expiry and pickup)

A coin as the game loop sees it; the two per-tick passes that touch a
coin's `collected` flag and the score are the expiry pass and the pickup
pass (run in that order).  Non-coin collectibles pass through both passes
unchanged, so the model carries coins only.  Coordinates are rationals
(exact for the float arithmetic used: +, -, min and comparisons). -/

/-- A coin: cell position, value, collected flag, expire timer and the two
animation fields (`none` = the field is absent/undefined). -/
structure Coin where
  posX : ℚ
  posY : ℚ
  value : Nat
  collected : Bool
  expireTimer : Option Nat
  animBounce : Option ℚ
  animPop : Option ℚ

/-- The spawn-bounce animation update of an uncollected coin. -/
def animUpd (c : Coin) : Coin :=
  match c.animBounce with
  | some q =>
    if q < 1 then
      if (1:ℚ) ≤ min 1 (q + 1/30) then { c with animBounce := none }
      else { c with animBounce := some (min 1 (q + 1/30)) }
    else c
  | none => c

/-- The collect pop-animation update of a collected coin. -/
def popUpd (c : Coin) : Coin :=
  match c.animPop with
  | some q =>
    if q < 1 then
      if (1:ℚ) ≤ min 1 (q + 1/10) then { c with animPop := none }
      else { c with animPop := some (min 1 (q + 1/10)) }
    else c
  | none => c

/-- The per-tick coin expiry pass: an uncollected coin's timer is
decremented and, on reaching zero, the coin is marked collected (removed)
with no other effect. -/
def coinExpireStep (c : Coin) : Coin :=
  if c.collected = false then
    match c.expireTimer with
    | some t =>
      if t ≤ 1 then { c with collected := true }
      else animUpd { c with expireTimer := some (t - 1) }
    | none => animUpd c
  else popUpd c

/-- The coin's spawn bounce is still running. -/
def bounceActive (c : Coin) : Bool :=
  match c.animBounce with
  | some q => decide (q < 1)
  | none => false

/-- The player-box/coin-box overlap test of the pickup pass. -/
def coinOverlap (px py : ℚ) (c : Coin) : Bool :=
  decide (px - 1/2 < c.posX + 1/2 + 4/5) && decide (px + 3/2 > c.posX + 1/2 - 4/5) &&
  decide (py - 1/2 < c.posY + 1/2 + 4/5) && decide (py + 3/2 > c.posY + 1/2 - 4/5)

/-- The per-tick coin pickup pass for one coin: on overlap the coin's value
is awarded (the returned score delta) and the coin marked collected. -/
def coinPickupStep (px py : ℚ) (c : Coin) : Coin × Nat :=
  if c.collected then (c, 0)
  else if bounceActive c then (c, 0)
  else if coinOverlap px py c then
    ({ c with collected := true, animPop := some 0, expireTimer := none }, c.value)
  else (c, 0)

/-- One tick's effect on a coin: the expiry pass, then the pickup pass. -/
def coinTick (px py : ℚ) (c : Coin) : Coin × Nat :=
  coinPickupStep px py (coinExpireStep c)

/-- A run of ticks with per-tick player positions `ps`; returns the final
coin and the total score awarded for it. -/
def coinRun (ps : Nat → ℚ × ℚ) : Nat → Coin → Coin × Nat
  | 0, c => (c, 0)
  | n + 1, c =>
    ((coinRun ps n (coinTick (ps n).1 (ps n).2 c).1).1,
     (coinTick (ps n).1 (ps n).2 c).2 +
       (coinRun ps n (coinTick (ps n).1 (ps n).2 c).1).2)

theorem popUpd_fields (c : Coin) :
    (popUpd c).collected = c.collected ∧ (popUpd c).value = c.value := by
  unfold popUpd
  cases c.animPop with
  | none => exact ⟨rfl, rfl⟩
  | some q =>
    dsimp only
    by_cases h1 : q < 1
    · rw [if_pos h1]
      by_cases h2 : (1:ℚ) ≤ min 1 (q + 1/10)
      · rw [if_pos h2]; exact ⟨rfl, rfl⟩
      · rw [if_neg h2]; exact ⟨rfl, rfl⟩
    · rw [if_neg h1]; exact ⟨rfl, rfl⟩

theorem animUpd_fields (c : Coin) :
    (animUpd c).collected = c.collected ∧ (animUpd c).value = c.value := by
  unfold animUpd
  cases c.animBounce with
  | none => exact ⟨rfl, rfl⟩
  | some q =>
    dsimp only
    by_cases h1 : q < 1
    · rw [if_pos h1]
      by_cases h2 : (1:ℚ) ≤ min 1 (q + 1/30)
      · rw [if_pos h2]; exact ⟨rfl, rfl⟩
      · rw [if_neg h2]; exact ⟨rfl, rfl⟩
    · rw [if_neg h1]; exact ⟨rfl, rfl⟩

theorem coinExpireStep_value (c : Coin) : (coinExpireStep c).value = c.value := by
  unfold coinExpireStep
  by_cases hcol : c.collected = false
  · rw [if_pos hcol]
    cases c.expireTimer with
    | none => exact (animUpd_fields c).2
    | some t =>
      dsimp only
      by_cases ht : t ≤ 1
      · rw [if_pos ht]
      · rw [if_neg ht]
        exact (animUpd_fields _).2
  · rw [if_neg hcol]
    exact (popUpd_fields c).2

theorem coinExpireStep_absorb {c : Coin} (h : c.collected = true) :
    (coinExpireStep c).collected = true := by
  unfold coinExpireStep
  rw [if_neg (by rw [h]; simp), (popUpd_fields c).1]
  exact h

theorem coinExpireStep_expired {c : Coin} {t : Nat} (h : c.collected = false)
    (ht : c.expireTimer = some t) (h1 : t ≤ 1) :
    coinExpireStep c = { c with collected := true } := by
  obtain ⟨x, y, v, col, et, ab, ap⟩ := c
  simp only at h ht
  subst h
  subst ht
  unfold coinExpireStep
  dsimp only
  rw [if_pos rfl, if_pos h1]

/-- The pickup pass either leaves the coin alone with no award or awards
its value once while marking it collected. -/
theorem coinPickupStep_cases (px py : ℚ) (c : Coin) :
    coinPickupStep px py c = (c, 0) ∨
    (c.collected = false ∧ coinPickupStep px py c =
      ({ c with collected := true, animPop := some 0, expireTimer := none },
        c.value)) := by
  unfold coinPickupStep
  by_cases h1 : c.collected = true
  · rw [if_pos h1]
    exact Or.inl rfl
  · rw [if_neg h1]
    by_cases h2 : bounceActive c = true
    · rw [if_pos h2]
      exact Or.inl rfl
    · rw [if_neg h2]
      by_cases h3 : coinOverlap px py c = true
      · rw [if_pos h3]
        exact Or.inr ⟨by revert h1; cases c.collected <;> simp, rfl⟩
      · rw [if_neg h3]
        exact Or.inl rfl

theorem coinPickupStep_collected {px py : ℚ} {c : Coin}
    (h : c.collected = true) : coinPickupStep px py c = (c, 0) := by
  unfold coinPickupStep
  rw [if_pos h]

theorem coinTick_value (px py : ℚ) (c : Coin) :
    (coinTick px py c).1.value = c.value := by
  unfold coinTick
  rcases coinPickupStep_cases px py (coinExpireStep c) with h | ⟨-, h⟩ <;>
    rw [h] <;> exact coinExpireStep_value c

theorem coinTick_absorb (px py : ℚ) {c : Coin} (h : c.collected = true) :
    (coinTick px py c).1.collected = true ∧ (coinTick px py c).2 = 0 := by
  unfold coinTick
  rw [coinPickupStep_collected (coinExpireStep_absorb h)]
  exact ⟨coinExpireStep_absorb h, rfl⟩

theorem coinTick_award (px py : ℚ) (c : Coin) :
    (coinTick px py c).2 = 0 ∨
    ((coinTick px py c).2 = c.value ∧ (coinTick px py c).1.collected = true) := by
  unfold coinTick
  rcases coinPickupStep_cases px py (coinExpireStep c) with h | ⟨-, h⟩
  · rw [h]
    exact Or.inl rfl
  · rw [h]
    exact Or.inr ⟨coinExpireStep_value c, rfl⟩

theorem coinRun_bound (ps : Nat → ℚ × ℚ) :
    ∀ (n : Nat) (c : Coin), (coinRun ps n c).2 ≤ c.value ∧
      (c.collected = true → (coinRun ps n c).2 = 0) := by
  intro n
  induction n with
  | zero => intro c; exact ⟨Nat.zero_le _, fun _ => rfl⟩
  | succ n ih =>
    intro c
    show (coinTick (ps n).1 (ps n).2 c).2 +
        (coinRun ps n (coinTick (ps n).1 (ps n).2 c).1).2 ≤ c.value ∧ _
    constructor
    · rcases coinTick_award (ps n).1 (ps n).2 c with h0 | ⟨hv, hcol⟩
      · rw [h0, Nat.zero_add]
        calc (coinRun ps n (coinTick (ps n).1 (ps n).2 c).1).2
            ≤ (coinTick (ps n).1 (ps n).2 c).1.value :=
              (ih (coinTick (ps n).1 (ps n).2 c).1).1
          _ = c.value := coinTick_value _ _ c
      · rw [hv, (ih (coinTick (ps n).1 (ps n).2 c).1).2 hcol]
        omega
    · intro hcol
      obtain ⟨hc1, hc2⟩ := coinTick_absorb (ps n).1 (ps n).2 hcol
      show (coinTick (ps n).1 (ps n).2 c).2 +
        (coinRun ps n (coinTick (ps n).1 (ps n).2 c).1).2 = 0
      rw [hc2, (ih (coinTick (ps n).1 (ps n).2 c).1).2 hc1]

/-- Claim C6: a coin's value is awarded at most once.  A collected coin is
never awarded again on any later tick (the flag is absorbing and suppresses
the award), a coin whose expire timer reaches zero before pickup is marked
collected with a zero score delta, and the total score awarded for one coin
over any run of ticks never exceeds its value (and is zero once the coin is
collected). -/
theorem coin_awarded_at_most_once :
    (∀ (px py : ℚ) (c : Coin), c.collected = true →
      (coinTick px py c).1.collected = true ∧ (coinTick px py c).2 = 0) ∧
    (∀ (px py : ℚ) (c : Coin) (t : Nat), c.collected = false →
      c.expireTimer = some t → t ≤ 1 →
      (coinTick px py c).1.collected = true ∧ (coinTick px py c).2 = 0) ∧
    (∀ (ps : Nat → ℚ × ℚ) (n : Nat) (c : Coin),
      (coinRun ps n c).2 ≤ c.value ∧
      (c.collected = true → (coinRun ps n c).2 = 0)) := by
  refine ⟨fun px py c h => coinTick_absorb px py h, ?_,
    fun ps n c => coinRun_bound ps n c⟩
  intro px py c t hcol ht h1
  have hexp := coinExpireStep_expired hcol ht h1
  unfold coinTick
  rw [hexp, coinPickupStep_collected rfl]
  exact ⟨rfl, rfl⟩

/-- Witness for C6: a concrete expired coin is collected with no award. -/
theorem coin_awarded_at_most_once_witness :
    (coinTick 0 0 ⟨3, 3, 1, false, some 1, none, none⟩).1.collected = true ∧
    (coinTick 0 0 ⟨3, 3, 1, false, some 1, none, none⟩).2 = 0 :=
  coin_awarded_at_most_once.2.1 0 0 ⟨3, 3, 1, false, some 1, none, none⟩ 1
    rfl rfl (by decide)

/-! ### The interaction action on collectibles (damage and coin spawning)

The model for `handleAction`'s collectible half: collectible positions are
rationals (grid integers in practice), the random comparison sort of the
candidate cells is the parameter `shuf` (a permutation in the theorems),
and the JS reference equality `c === nearby` of the damage map is
replacement of the first matching element (`find` returns the first match
and objects are distinct references).  The `checked` set of the candidate
search never fires because the 7x7 candidate cells are pairwise distinct;
animation fields and sounds are irrelevant to the claim and omitted. -/

/-- Collectible type tags. -/
inductive CType where
  | computer
  | wallArt
  | coworker
  | coffee
  | coin
deriving DecidableEq

/-- A collectible of the interaction pass. -/
structure Collectible where
  posX : ℚ
  posY : ℚ
  ctype : CType
  collected : Bool
  damaged : Bool
  damageTimer : Option Nat
  value : Nat
  expireTimer : Option Nat
deriving DecidableEq

/-- The nearby-collectible test of `handleAction` (1-cell Chebyshev box,
undamaged, uncollected, not a coin). -/
def nearbyTest (px py : ℚ) (c : Collectible) : Bool :=
  !c.collected && !c.damaged && decide (c.ctype ≠ CType.coin) &&
  decide (qabs (c.posX - px) ≤ 1) && decide (qabs (c.posY - py) ≤ 1)

/-- Some uncollected collectible already sits at the cell. -/
def occupiedAt (cs : List Collectible) (gx gy : Int) : Bool :=
  cs.any fun c => !c.collected && decide (c.posX = gx) && decide (c.posY = gy)

/-- The candidate-cell walkability test of the coin spawn search. -/
def coinCellOpen (m : Grid) (cs : List Collectible) (gx gy : Int) : Bool :=
  decide (0 ≤ gx) && decide (gx < (MAZE_WIDTH : Int)) &&
  decide (0 ≤ gy) && decide (gy < (MAZE_HEIGHT : Int)) &&
  !getCell m gx.toNat gy.toNat && !occupiedAt cs gx gy

/-- The 7x7 candidate cells around the damaged item (scan order: `dy` outer
from -3 to 3, `dx` inner), keeping the walkable unoccupied ones. -/
def coinCandidates (m : Grid) (cs : List Collectible) (cx cy : ℚ) :
    List (Int × Int) :=
  (List.range 7).flatMap fun dyi : Nat =>
    (List.range 7).filterMap fun dxi : Nat =>
      if coinCellOpen m cs (⌊cx⌋ + (dxi : Int) - 3) (⌊cy⌋ + (dyi : Int) - 3)
      then some (⌊cx⌋ + (dxi : Int) - 3, ⌊cy⌋ + (dyi : Int) - 3) else none

/-- A freshly spawned coin (value 1, expire timer 180). -/
def mkCoin (pos : Int × Int) : Collectible :=
  ⟨pos.1, pos.2, CType.coin, false, false, none, 1, some 180⟩

/-- Replace the first element satisfying `p` (the JS `c === nearby` map). -/
def replaceFirst {α : Type} (p : α → Bool) (f : α → α) : List α → List α
  | [] => []
  | a :: t => if p a then f a :: t else a :: replaceFirst p f t

/-- The collectible half of `handleAction`: find the first nearby undamaged
non-coin collectible; coffee is collected outright; anything else is marked
damaged (timer 300 for coworkers, 180 otherwise) and up to 3 coins are
appended at shuffled candidate cells. -/
def handleActionItems (m : Grid) (shuf : List (Int × Int) → List (Int × Int))
    (px py : ℚ) (cs : List Collectible) : List Collectible :=
  match cs.find? (nearbyTest px py) with
  | none => cs
  | some nearby =>
    if nearby.ctype = CType.coffee then
      replaceFirst (nearbyTest px py) (fun c => { c with collected := true }) cs
    else
      let timer : Nat := if nearby.ctype = CType.coworker then 300 else 180
      let updated := replaceFirst (nearbyTest px py)
        (fun c => { c with damaged := true, damageTimer := some timer }) cs
      let cands := coinCandidates m cs nearby.posX nearby.posY
      updated ++ ((shuf cands).take (min 3 (shuf cands).length)).map mkCoin

theorem find?_decomp {α : Type} {p : α → Bool} :
    ∀ {l : List α} {a : α}, l.find? p = some a →
      ∃ pre post, l = pre ++ a :: post ∧ (∀ x ∈ pre, p x = false) := by
  intro l
  induction l with
  | nil => intro a h; exact absurd h (by simp)
  | cons b t ih =>
    intro a h
    by_cases hb : p b = true
    · rw [List.find?_cons_of_pos _ hb] at h
      cases h
      exact ⟨[], t, rfl, by simp⟩
    · rw [List.find?_cons_of_neg _ (by simpa using hb)] at h
      obtain ⟨pre, post, rfl, hpre⟩ := ih h
      refine ⟨b :: pre, post, rfl, ?_⟩
      intro x hx
      rcases List.mem_cons.mp hx with rfl | hx
      · exact Bool.eq_false_iff.mpr fun hc => hb hc
      · exact hpre x hx

theorem replaceFirst_append {α : Type} (p : α → Bool) (f : α → α)
    (pre post : List α) (a : α) (hpre : ∀ x ∈ pre, p x = false)
    (ha : p a = true) :
    replaceFirst p f (pre ++ a :: post) = pre ++ f a :: post := by
  induction pre with
  | nil =>
    show replaceFirst p f (a :: post) = f a :: post
    unfold replaceFirst
    rw [if_pos ha]
  | cons b t ih =>
    show replaceFirst p f (b :: (t ++ a :: post)) = b :: (t ++ f a :: post)
    unfold replaceFirst
    rw [if_neg (by rw [hpre b (List.mem_cons_self b t)]; simp)]
    rw [ih (fun x hx => hpre x (List.mem_cons_of_mem b hx))]

/-- A hit of the candidate search names its cell. -/
theorem coinCandidates_hit (m : Grid) (cs : List Collectible) (cx cy : ℚ)
    (dyi dxi : Nat) (b : Int × Int)
    (h : (if coinCellOpen m cs (⌊cx⌋ + dxi - 3) (⌊cy⌋ + dyi - 3)
      then some ((⌊cx⌋ + dxi - 3 : Int), (⌊cy⌋ + dyi - 3 : Int)) else none) =
      some b) :
    b = ((⌊cx⌋ + dxi - 3 : Int), (⌊cy⌋ + dyi - 3 : Int)) := by
  by_cases hc : coinCellOpen m cs (⌊cx⌋ + dxi - 3) (⌊cy⌋ + dyi - 3) = true
  · rw [if_pos hc] at h
    exact (Option.some.injEq _ _ ▸ h).symm
  · rw [if_neg hc] at h
    exact absurd h (by simp)

/-- The candidate cells are pairwise distinct. -/
theorem coinCandidates_nodup (m : Grid) (cs : List Collectible) (cx cy : ℚ) :
    (coinCandidates m cs cx cy).Nodup := by
  unfold coinCandidates
  rw [List.nodup_flatMap]
  constructor
  · intro dyi _
    refine List.Nodup.filterMap ?_ (List.nodup_range 7)
    intro a a' b hb hb'
    have e1 := coinCandidates_hit m cs cx cy dyi a b hb
    have e2 := coinCandidates_hit m cs cx cy dyi a' b hb'
    have h1 : (⌊cx⌋ + (a : Int) - 3) = ⌊cx⌋ + (a' : Int) - 3 :=
      congrArg Prod.fst (e1.symm.trans e2)
    omega
  · rw [List.pairwise_iff_getElem]
    intro i j hi hj hij
    intro x hx hx'
    rcases List.mem_filterMap.mp hx with ⟨a, _, ha⟩
    rcases List.mem_filterMap.mp hx' with ⟨a', _, ha'⟩
    have e1 := coinCandidates_hit m cs cx cy ((List.range 7)[i]) a x ha
    have e2 := coinCandidates_hit m cs cx cy ((List.range 7)[j]) a' x ha'
    have h2 : (⌊cy⌋ + ((List.range 7)[i] : Int) - 3) =
        ⌊cy⌋ + ((List.range 7)[j] : Int) - 3 :=
      congrArg Prod.snd (e1.symm.trans e2)
    have hgi : (List.range 7)[i] = i := List.getElem_range i hi
    have hgj : (List.range 7)[j] = j := List.getElem_range j hj
    rw [hgi] at h2
    rw [hgj] at h2
    omega

/-- Every candidate cell is open and unoccupied. -/
theorem coinCandidates_open (m : Grid) (cs : List Collectible) (cx cy : ℚ) :
    ∀ pos ∈ coinCandidates m cs cx cy, coinCellOpen m cs pos.1 pos.2 = true := by
  intro pos hpos
  unfold coinCandidates at hpos
  rcases List.mem_flatMap.mp hpos with ⟨dyi, _, hin⟩
  rcases List.mem_filterMap.mp hin with ⟨dxi, _, hdx⟩
  have e := coinCandidates_hit m cs cx cy dyi dxi pos hdx
  by_cases hc : coinCellOpen m cs (⌊cx⌋ + dxi - 3) (⌊cy⌋ + dyi - 3) = true
  · rw [e]
    exact hc
  · rw [if_neg hc] at hdx
    exact absurd hdx (by simp)

/-- Claim C7 (amended): when the interaction action finds an undamaged,
uncollected computer within the 1-cell Chebyshev box of the player, the
computer is marked damaged with damage timer 180 (nonzero), and
`min 3 k` coins are created at pairwise distinct, open, unoccupied cells
of the 7x7 search box, where `k` is the number of such candidate cells
(so exactly 3 whenever at least 3 candidates exist, but fewer when the
box holds fewer open unoccupied cells). -/
theorem action_damages_computer (m : Grid)
    (shuf : List (Int × Int) → List (Int × Int))
    (hshuf : ∀ l, (shuf l).Perm l) (px py : ℚ) (cs : List Collectible)
    (nb : Collectible) (hfind : cs.find? (nearbyTest px py) = some nb)
    (hc : nb.ctype = CType.computer) :
    ∃ (pre post : List Collectible) (newCoins : List (Int × Int)),
      cs = pre ++ nb :: post ∧
      handleActionItems m shuf px py cs =
        (pre ++ { nb with damaged := true, damageTimer := some 180 } :: post) ++
          newCoins.map mkCoin ∧
      newCoins.length = min 3 (coinCandidates m cs nb.posX nb.posY).length ∧
      newCoins.Nodup ∧
      ∀ pos ∈ newCoins, coinCellOpen m cs pos.1 pos.2 = true := by
  obtain ⟨pre, post, hsplit, hpre⟩ := find?_decomp hfind
  have hpnb : nearbyTest px py nb = true := List.find?_some hfind
  refine ⟨pre, post,
    (shuf (coinCandidates m cs nb.posX nb.posY)).take
      (min 3 (shuf (coinCandidates m cs nb.posX nb.posY)).length),
    hsplit, ?_, ?_, ?_, ?_⟩
  · unfold handleActionItems
    rw [hfind]
    dsimp only
    rw [if_neg (by rw [hc]; intro hcc; exact absurd hcc (by simp))]
    rw [if_neg (by rw [hc]; intro hcc; exact absurd hcc (by simp))]
    have hrep : replaceFirst (nearbyTest px py)
        (fun c => { c with damaged := true, damageTimer := some 180 }) cs =
        pre ++ { nb with damaged := true, damageTimer := some 180 } :: post := by
      rw [hsplit]
      exact replaceFirst_append _ _ pre post nb hpre hpnb
    rw [hrep]
  · rw [List.length_take, (hshuf _).length_eq]
    omega
  · refine List.Nodup.sublist (List.take_sublist _ _) ?_
    exact ((hshuf _).nodup_iff).mpr (coinCandidates_nodup m cs nb.posX nb.posY)
  · intro pos hpos
    have h1 : pos ∈ shuf (coinCandidates m cs nb.posX nb.posY) :=
      List.mem_of_mem_take hpos
    exact coinCandidates_open m cs nb.posX nb.posY pos ((hshuf _).subset h1)

/-- The concrete computer of the C7 counterexample. -/
def nb7 : Collectible := ⟨1, 1, CType.computer, false, false, none, 1, none⟩

/-- A maze whose only open cells are (1,1) and (2,1). -/
def m7 : Grid := mkGrid fun x y => !(y == 1 && (x == 1 || x == 2))

/-- The collectible list of the C7 counterexample: one computer at (1,1). -/
def cs7 : List Collectible := [nb7]

/-- Counterexample to C7 as stated: the player acts next to an undamaged
computer, yet only one coin is created (the 7x7 box holds a single open
unoccupied cell, the computer itself occupying the other open cell), not
exactly 3. -/
theorem action_three_coins_counterexample :
    cs7.find? (nearbyTest 1 1) = some nb7 ∧
    nb7.ctype = CType.computer ∧
    (coinCandidates m7 cs7 1 1).length = 1 ∧
    (handleActionItems m7 (fun l => l) 1 1 cs7).length = cs7.length + 1 := by
  have hnb : nearbyTest 1 1 nb7 = true := by
    norm_num [nearbyTest, nb7, qabs]
    decide
  have hfind : cs7.find? (nearbyTest 1 1) = some nb7 :=
    List.find?_cons_of_pos _ hnb
  have hcand : coinCandidates m7 cs7 1 1 = [(2, 1)] := by decide
  have hcandp : coinCandidates m7 cs7 nb7.posX nb7.posY = [(2, 1)] := by decide
  have hrep : replaceFirst (nearbyTest 1 1)
      (fun c => { c with damaged := true, damageTimer := some 180 }) cs7 =
      [{ nb7 with damaged := true, damageTimer := some 180 }] := by
    show replaceFirst _ _ [nb7] = _
    unfold replaceFirst
    rw [if_pos hnb]
  have hres : handleActionItems m7 (fun l => l) 1 1 cs7 =
      [{ nb7 with damaged := true, damageTimer := some 180 }, mkCoin (2, 1)] := by
    unfold handleActionItems
    rw [hfind]
    dsimp only
    rw [if_neg (show ¬nb7.ctype = CType.coffee by decide)]
    rw [if_neg (show ¬nb7.ctype = CType.coworker by decide)]
    rw [hcandp]
    rw [hrep]
    rfl
  refine ⟨hfind, rfl, by rw [hcand]; rfl, by rw [hres]; rfl⟩

/-- Witness for C7's amended statement at the concrete counterexample
inputs (one candidate cell, hence one coin). -/
theorem action_damages_computer_witness :
    ∃ (pre post : List Collectible) (newCoins : List (Int × Int)),
      cs7 = pre ++ nb7 :: post ∧
      handleActionItems m7 (fun l => l) 1 1 cs7 =
        (pre ++ { nb7 with damaged := true, damageTimer := some 180 } :: post) ++
          newCoins.map mkCoin ∧
      newCoins.length = min 3 (coinCandidates m7 cs7 nb7.posX nb7.posY).length ∧
      newCoins.Nodup ∧
      ∀ pos ∈ newCoins, coinCellOpen m7 cs7 pos.1 pos.2 = true :=
  action_damages_computer m7 (fun l => l) (fun l => List.Perm.refl l) 1 1 cs7
    nb7 (List.find?_cons_of_pos _ (by
      norm_num [nearbyTest, nb7, qabs]
      decide)) rfl

/-- The `isSafePosition` helper of `findSafeSpawn`: the cell itself is not a
wall, and no executive is at Euclidean distance below 6. -/
def isSafePosition (m : Grid) (execs : List (ℝ × ℝ)) (x y : Nat) : Prop :=
  getCell m x y = false ∧
  ∀ e ∈ execs, ¬ Real.sqrt ((e.1 - (x : ℝ)) ^ 2 + (e.2 - (y : ℝ)) ^ 2) < 6

/-- One random respawn attempt: `x = 2 + floor(r1 * 36)`,
`y = 2 + floor(r2 * 20)`. -/
def sampleCell (p : ℚ × ℚ) : Nat × Nat :=
  (2 + (⌊p.1 * 36⌋).toNat, 2 + (⌊p.2 * 20⌋).toNat)

/-- The 50 random candidate cells of the respawn search. -/
def sampleList (rnd : Nat → ℚ × ℚ) : List (Nat × Nat) :=
  (List.range 50).map fun i => sampleCell (rnd i)

/-- The four corner cells tried by `findSafeSpawn`. -/
def respawnCorners : List (Nat × Nat) := [(2, 2), (37, 2), (2, 21), (37, 21)]

/-- The walkable corners among `respawnCorners`. -/
def walkableCorners (m : Grid) : List (Nat × Nat) :=
  respawnCorners.filter fun c => !getCell m c.1 c.2

/-- Total Euclidean distance from a cell to all executives. -/
noncomputable def totalDist (execs : List (ℝ × ℝ)) (c : Nat × Nat) : ℝ :=
  (execs.map fun e =>
    Real.sqrt ((e.1 - (c.1 : ℝ)) ^ 2 + (e.2 - (c.2 : ℝ)) ^ 2)).sum

open Classical in
/-- One step of the farthest-corner scan (`if (totalDist > maxDist)`). -/
noncomputable def cornerStep (execs : List (ℝ × ℝ))
    (acc : (Nat × Nat) × ℝ) (c : Nat × Nat) : (Nat × Nat) × ℝ :=
  if acc.2 < totalDist execs c then (c, totalDist execs c) else acc

/-- The full-scan order of the last-resort loop (`y` outer from 1 to 22,
`x` inner from 1 to 38). -/
def scanList : List (Nat × Nat) :=
  (List.range' 1 22).flatMap fun y => (List.range' 1 38).map fun x => (x, y)

/-- The first non-wall cell in full-scan order. -/
def scanFirstOpen (m : Grid) : Option (Nat × Nat) :=
  scanList.find? fun c => !getCell m c.1 c.2

open Classical in
/-- `findSafeSpawn` from the catch handler: original spawn if safe, else the
first safe cell among 50 random samples, else the walkable corner with the
largest total distance to the executives, else the first open cell of a full
scan, else the original spawn. -/
noncomputable def findSafeSpawn (m : Grid) (execs : List (ℝ × ℝ))
    (rnd : Nat → ℚ × ℚ) : Nat × Nat :=
  if isSafePosition m execs SPAWN_X SPAWN_Y then (SPAWN_X, SPAWN_Y)
  else
    match (sampleList rnd).find?
        (fun c => decide (isSafePosition m execs c.1 c.2)) with
    | some c => c
    | none =>
      match walkableCorners m with
      | [] => (scanFirstOpen m).getD (SPAWN_X, SPAWN_Y)
      | c0 :: rest => ((c0 :: rest).foldl (cornerStep execs) (c0, 0)).1

/-- The spec's footprint-clearance at a cell: the 2x2 block of cells covered
by the player box anchored there (offsets +0.5 to +1.5) is wall-free. -/
def footprintClear (m : Grid) (x y : Nat) : Prop :=
  getCell m x y = false ∧ getCell m (x + 1) y = false ∧
  getCell m x (y + 1) = false ∧ getCell m (x + 1) (y + 1) = false

/-- The spec's safety condition: footprint-clear and at least 6 units from
every executive. -/
def specSafe (m : Grid) (execs : List (ℝ × ℝ)) (x y : Nat) : Prop :=
  footprintClear m x y ∧
  ∀ e ∈ execs, ¬ Real.sqrt ((e.1 - (x : ℝ)) ^ 2 + (e.2 - (y : ℝ)) ^ 2) < 6

/-- The respawn policy exactly as the spec words it: spawn if footprint-clear
and far from all executives; else a sampled candidate cell satisfying the same
constraints; else a walkable corner maximizing total distance to the
executives; else the first open cell found by the full scan (spawn when even
that fails). -/
def SpecRespawnOK (m : Grid) (execs : List (ℝ × ℝ)) (rnd : Nat → ℚ × ℚ)
    (r : Nat × Nat) : Prop :=
  (specSafe m execs SPAWN_X SPAWN_Y ∧ r = (SPAWN_X, SPAWN_Y)) ∨
  (specSafe m execs r.1 r.2 ∧ r ∈ sampleList rnd) ∨
  (r ∈ walkableCorners m ∧
    ∀ c ∈ walkableCorners m, totalDist execs c ≤ totalDist execs r) ∨
  (scanFirstOpen m = some r ∨ (scanFirstOpen m = none ∧ r = (SPAWN_X, SPAWN_Y)))

/-- The same staged policy with the safety condition the code actually uses:
single-cell walkability instead of footprint clearance. -/
def CodeRespawnOK (m : Grid) (execs : List (ℝ × ℝ)) (rnd : Nat → ℚ × ℚ)
    (r : Nat × Nat) : Prop :=
  (isSafePosition m execs SPAWN_X SPAWN_Y ∧ r = (SPAWN_X, SPAWN_Y)) ∨
  (isSafePosition m execs r.1 r.2 ∧ r ∈ sampleList rnd) ∨
  (r ∈ walkableCorners m ∧
    ∀ c ∈ walkableCorners m, totalDist execs c ≤ totalDist execs r) ∨
  (scanFirstOpen m = some r ∨ (scanFirstOpen m = none ∧ r = (SPAWN_X, SPAWN_Y)))

theorem totalDist_nonneg (execs : List (ℝ × ℝ)) (c : Nat × Nat) :
    0 ≤ totalDist execs c := by
  refine List.sum_nonneg ?_
  intro d hd
  rcases List.mem_map.mp hd with ⟨e, _, rfl⟩
  exact Real.sqrt_nonneg _

theorem cornerFold_spec (execs : List (ℝ × ℝ)) :
    ∀ (l : List (Nat × Nat)) (a : Nat × Nat) (v : ℝ),
      v ≤ totalDist execs a →
      (((l.foldl (cornerStep execs) (a, v)).1 = a ∨
          (l.foldl (cornerStep execs) (a, v)).1 ∈ l) ∧
        v ≤ (l.foldl (cornerStep execs) (a, v)).2 ∧
        (l.foldl (cornerStep execs) (a, v)).2 ≤
          totalDist execs (l.foldl (cornerStep execs) (a, v)).1 ∧
        ∀ c ∈ l, totalDist execs c ≤ (l.foldl (cornerStep execs) (a, v)).2) := by
  intro l
  induction l with
  | nil =>
    intro a v hva
    exact ⟨Or.inl rfl, le_refl v, hva, by simp⟩
  | cons b t ih =>
    intro a v hva
    rw [List.foldl_cons]
    by_cases hb : v < totalDist execs b
    · have hs : cornerStep execs (a, v) b = (b, totalDist execs b) := by
        unfold cornerStep
        rw [if_pos hb]
      rw [hs]
      obtain ⟨h1, h2, h3, h4⟩ := ih b (totalDist execs b) (le_refl _)
      refine ⟨?_, ?_, h3, ?_⟩
      · rcases h1 with h1 | h1
        · exact Or.inr (by rw [h1]; exact List.mem_cons_self b t)
        · exact Or.inr (List.mem_cons_of_mem b h1)
      · exact le_trans (le_of_lt hb) h2
      · intro c hc
        rcases List.mem_cons.mp hc with rfl | hc
        · exact h2
        · exact h4 c hc
    · have hs : cornerStep execs (a, v) b = (a, v) := by
        unfold cornerStep
        rw [if_neg hb]
      rw [hs]
      obtain ⟨h1, h2, h3, h4⟩ := ih a v hva
      refine ⟨?_, h2, h3, ?_⟩
      · rcases h1 with h1 | h1
        · exact Or.inl h1
        · exact Or.inr (List.mem_cons_of_mem b h1)
      · intro c hc
        rcases List.mem_cons.mp hc with rfl | hc
        · exact le_trans (not_lt.mp hb) h2
        · exact h4 c hc

open Classical in
/-- Claim C5 (amended): the respawn location returned by `findSafeSpawn`
always satisfies the staged safe-respawn policy with single-cell walkability
in place of the spec's footprint clearance: it is the original spawn when that
cell is walkable and at least 6 units from every executive; or a sampled
candidate cell satisfying the same single-cell condition; or a walkable corner
maximizing total distance to the executives; or the first open cell of the
full scan (spawn if none exists). -/
theorem respawn_single_cell_policy (m : Grid) (execs : List (ℝ × ℝ))
    (rnd : Nat → ℚ × ℚ) :
    CodeRespawnOK m execs rnd (findSafeSpawn m execs rnd) := by
  unfold findSafeSpawn
  by_cases h1 : isSafePosition m execs SPAWN_X SPAWN_Y
  · rw [if_pos h1]
    exact Or.inl ⟨h1, rfl⟩
  · rw [if_neg h1]
    cases hf : (sampleList rnd).find?
        (fun c => decide (isSafePosition m execs c.1 c.2)) with
    | some c =>
      dsimp only
      refine Or.inr (Or.inl ⟨?_, ?_⟩)
      · have hp := List.find?_some hf
        simp only [decide_eq_true_eq] at hp
        exact hp
      · exact List.mem_of_find?_eq_some hf
    | none =>
      dsimp only
      cases hw : walkableCorners m with
      | nil =>
        dsimp only
        cases hs : scanFirstOpen m with
        | some c =>
          refine Or.inr (Or.inr (Or.inr (Or.inl ?_)))
          rw [hs]
          rfl
        | none =>
          exact Or.inr (Or.inr (Or.inr (Or.inr ⟨hs, rfl⟩)))
      | cons c0 rest =>
        dsimp only
        obtain ⟨h1', h2, h3, h4⟩ :=
          cornerFold_spec execs (c0 :: rest) c0 0 (totalDist_nonneg execs c0)
        refine Or.inr (Or.inr (Or.inl ⟨?_, ?_⟩))
        · rw [hw]
          rcases h1' with h | h
          · rw [h]
            exact List.mem_cons_self c0 rest
          · exact h
        · rw [hw]
          intro c hc
          exact le_trans (h4 c hc) h3

/-- The grid of the C5 counterexample: everything open except a wall at
(21,12), inside the spec's player footprint anchored at the spawn cell. -/
def m5 : Grid := mkGrid fun x y => x == 21 && y == 12

/-- A fixed random source for the C5 counterexample. -/
def rnd5 : Nat → ℚ × ℚ := fun _ => (0, 0)

/-- Counterexample to C5 as stated: with no executives and a wall at (21,12),
the code happily respawns the player at the original spawn cell (20,12) —
`isSafePosition` only checks the single spawn cell — but the spec's policy
forbids every stage from returning (20,12): the spawn footprint is not clear,
so stages 1 and 2 fail; (20,12) is not a corner; and the full scan's first
open cell is (1,1). -/
theorem respawn_footprint_counterexample :
    findSafeSpawn m5 [] rnd5 = (SPAWN_X, SPAWN_Y) ∧
    ¬ SpecRespawnOK m5 [] rnd5 (SPAWN_X, SPAWN_Y) := by
  have hsafe : isSafePosition m5 [] SPAWN_X SPAWN_Y := by
    refine ⟨by decide, ?_⟩
    intro e he
    exact absurd he (List.not_mem_nil e)
  constructor
  · unfold findSafeSpawn
    rw [if_pos hsafe]
  · intro h
    have hfp : ¬ footprintClear m5 SPAWN_X SPAWN_Y := by
      intro hc
      have h21 : getCell m5 (SPAWN_X + 1) SPAWN_Y = true := by decide
      rw [hc.2.1] at h21
      exact Bool.false_ne_true h21
    have hscan : scanFirstOpen m5 = some (1, 1) := by decide
    rcases h with ⟨hs, _⟩ | ⟨hs, _⟩ | ⟨hmem, _⟩ | hlast
    · exact hfp hs.1
    · exact hfp hs.1
    · have : (SPAWN_X, SPAWN_Y) ∈ respawnCorners :=
        List.mem_of_mem_filter hmem
      exact absurd this (by decide)
    · rcases hlast with hsome | ⟨hnone, _⟩
      · rw [hscan] at hsome
        exact absurd (Option.some.injEq _ _ ▸ hsome) (by decide)
      · rw [hscan] at hnone
        exact absurd hnone (by simp)

/-- Decode a grid from one bitmask per row (bit `x` = wall at `(x, y)`). -/
def gOf (rows : List Nat) : Grid :=
  rows.map fun n => (List.range MAZE_WIDTH).map fun x => n.testBit x

def mzc0 : Grid := gOf [1099510579199, 549755813889, 549755813889, 549755813889, 549755813889, 549755813889, 549755813889, 549755813889, 549755813889, 549755813889, 549755813889, 549755813889, 0, 549755813889, 549755813889, 549755813889, 549755813889, 549755813889, 549755813889, 549755813889, 549755813889, 549755813889, 549755813889, 1099510579199]

def mzc1 : Grid := gOf [1099510579199, 549755813889, 586406201481, 586406201481, 549755813889, 586406201481, 586406201481, 549755813889, 586406201481, 586406201481, 549755813889, 586406201481, 0, 549755813889, 586406201481, 586406201481, 549755813889, 586406201481, 586406201481, 549755813889, 586406201481, 586406201481, 549755813889, 1099510579199]

def mzc2 : Grid := gOf [1099510579199, 549755813889, 586406201481, 586406201481, 667559582573, 586406201481, 586406201481, 549755813889, 669707590637, 586406201481, 549755813889, 586406201481, 0, 549755813889, 586406201481, 586406201481, 667559582573, 586406201481, 586406201481, 549755813889, 586406201481, 586406201481, 549755813889, 1099510579199]

def mzc3 : Grid := gOf [1099510579199, 549755813889, 586406291593, 586406283401, 667559582701, 586406201545, 586406201481, 549755813889, 669707590637, 586406414521, 549756043313, 586406201481, 0, 549755813889, 586406201481, 586406201481, 667559582573, 586406201481, 586406201481, 549755813889, 586406201481, 586406201481, 549755813889, 1099510579199]

def mzc4 : Grid := gOf [1099510579199, 549755813889, 586406291593, 586406283401, 562844538893, 586406201545, 586406201481, 549755813889, 653039376397, 586406168761, 549755813937, 586406201481, 0, 549755813889, 586406201481, 586406201481, 654472954637, 586406201481, 586406201481, 549755813889, 586406201481, 586406201481, 549755813889, 1099510579199]

def mzc5 : Grid := gOf [1099510579199, 549755813889, 586406291593, 586406283401, 562844538893, 549890033737, 549890033673, 549755813889, 652905156613, 586271948977, 549755813937, 586406201481, 0, 549755813889, 552045938825, 552045938825, 620113216269, 549764759561, 549764759561, 549755813889, 586397255809, 586397255809, 549755813889, 1099510579199]

def mzf0 : Grid := gOf [1099511627775, 549755813889, 549755813889, 549755813889, 549755813889, 549755813889, 549755813889, 549755813889, 549755813889, 549755813889, 549755813889, 549755813889, 549755813889, 549755813889, 549755813889, 549755813889, 549755813889, 549755813889, 549755813889, 549755813889, 549755813889, 549755813889, 549755813889, 1099511627775]

def mzc6 : Grid := gOf [1099511627775, 549755813889, 586406291593, 586406283401, 562844538893, 549890033737, 549890033673, 549755813889, 652905156613, 586271948977, 549755813937, 586406201481, 549755813889, 549755813889, 552045938825, 552045938825, 620113216269, 549764759561, 549764759561, 549755813889, 586397255809, 586397255809, 549755813889, 1099511627775]

def mzc7 : Grid := gOf [1099511627775, 549755813889, 586406291593, 586406250633, 562844538893, 549890033737, 549890033673, 549755813889, 652905156613, 586271948977, 549755813905, 586406201481, 549755813889, 549755813889, 552045938825, 552045938825, 620113216269, 549764759561, 549764759561, 549755813889, 586397255809, 586397255809, 549755813889, 1099511627775]

def mzc8 : Grid := gOf [1099511627775, 549755813889, 586406688911, 586406688911, 562846111759, 549890033791, 549890033679, 549755813889, 1065223065607, 586271949041, 549755813905, 586406201487, 549755813889, 549755813889, 552045938831, 552045938831, 1032434270991, 549764759567, 549764759567, 549755813889, 586397255809, 586397255809, 549755813889, 1099511627775]

def mzc9 : Grid := gOf [1099511627775, 586406688911, 586406688911, 586406688911, 562846111759, 549890033791, 549890033679, 549755813895, 1065223065607, 586271949047, 586271948951, 586406201487, 552045938831, 552045938831, 552045938831, 552045938831, 1032434270991, 549764759567, 549764759567, 549755813889, 586397255809, 586397255809, 586397255809, 1099511627775]

def mzc10 : Grid := gOf [1099511627775, 586406688897, 586406688897, 586406688897, 562846111759, 549890033791, 549890033679, 549755813895, 1065223065607, 586271949047, 586271948951, 586406201487, 552045938831, 552045938831, 552045938831, 552045938831, 1032434270991, 549764759567, 549764759567, 549755813889, 586397255809, 586397255809, 586397255809, 1099511627775]

def mzc11 : Grid := gOf [1099511627775, 586406164609, 586406164609, 586406164609, 562842441743, 549890033791, 549890033679, 549755813895, 1065219395591, 586271424759, 586271424663, 549755813889, 549755813889, 549755813889, 552045938831, 552045938831, 1032432173839, 549764235279, 549764235279, 549755813889, 586397255809, 586397255809, 586397255809, 1099511627775]

def mzv0 : Grid := gOf [0, 0, 0, 0, 0, 0, 0, 0, 0, 0, 0, 0, 1048576, 0, 0, 0, 0, 0, 0, 0, 0, 0, 0, 0]

def mzv1 : Grid := gOf [0, 0, 0, 0, 0, 0, 0, 0, 0, 0, 0, 1048576, 3670016, 1048576, 0, 0, 0, 0, 0, 0, 0, 0, 0, 0]

def mzv2 : Grid := gOf [0, 0, 0, 0, 0, 0, 0, 0, 0, 0, 1048576, 3670016, 8126464, 3670016, 1048576, 0, 0, 0, 0, 0, 0, 0, 0, 0]

def mzv3 : Grid := gOf [0, 0, 0, 0, 0, 0, 0, 0, 0, 1048576, 3670016, 8126464, 16646144, 8126464, 3670016, 1048576, 0, 0, 0, 0, 0, 0, 0, 0]

def mzv4 : Grid := gOf [0, 0, 0, 0, 0, 0, 0, 0, 1048576, 3670016, 8126464, 16646144, 33488896, 16646144, 8126464, 3670016, 1048576, 0, 0, 0, 0, 0, 0, 0]

def mzv5 : Grid := gOf [0, 0, 0, 0, 0, 0, 0, 1048576, 3670016, 8126464, 8257536, 33488896, 67076096, 33488896, 8257536, 8126464, 3670016, 1048576, 0, 0, 0, 0, 0, 0]

def mzv6 : Grid := gOf [0, 0, 0, 0, 0, 0, 1048576, 3670016, 7864320, 8257536, 25100288, 67076096, 134201344, 67076096, 25100288, 8257536, 3932160, 3670016, 1048576, 0, 0, 0, 0, 0]

def mzv7 : Grid := gOf [0, 0, 0, 0, 0, 1048576, 3670016, 8126464, 16252928, 25100288, 58687488, 134201344, 268427264, 134201344, 58654720, 25100288, 4063232, 8126464, 3670016, 1048576, 0, 0, 0, 0]

def mzv8 : Grid := gOf [0, 0, 0, 0, 1048576, 3670016, 8126464, 16646144, 33095680, 58687488, 125812736, 268427264, 536866816, 268427264, 125779968, 58654720, 4128768, 8257536, 8126464, 3670016, 1048576, 0, 0, 0]

def mzv9 : Grid := gOf [0, 0, 0, 1048576, 3670016, 8126464, 16646144, 33488896, 66682880, 125812736, 260038656, 536866816, 1073739776, 536866816, 125788160, 125779968, 37683200, 8323072, 8257536, 8126464, 3670016, 1048576, 0, 0]

def mzv10 : Grid := gOf [0, 0, 1048576, 3670016, 7864320, 16646144, 33488896, 67076096, 66699264, 260038656, 528478208, 1073739776, 2147482624, 1073739776, 394227712, 125788160, 104792064, 41877504, 8323072, 16646144, 8126464, 3670016, 1048576, 0]

def mzv11 : Grid := gOf [0, 1048576, 3670016, 7864320, 16252928, 33488896, 67076096, 134201344, 200925184, 528478208, 1065351168, 2147482624, 4294966784, 2147482624, 931098624, 394227712, 239017984, 125763584, 41877504, 33488896, 16646144, 8126464, 3670016, 0]

def mzv12 : Grid := gOf [0, 3670016, 7864320, 7864320, 33095680, 67076096, 134201344, 268427264, 469360640, 1065351168, 2139094016, 4294966784, 8589934336, 4294966784, 2004841472, 931098624, 507457536, 259989504, 125763584, 67076096, 33488896, 16646144, 8126464, 0]

def mzv13 : Grid := gOf [0, 7864320, 7864320, 24641536, 66682880, 134201344, 134209536, 536866816, 1006233600, 2139094016, 2139094528, 8589934336, 17179869056, 8589934336, 2004841984, 2004841472, 507459584, 528445440, 259989504, 134201344, 67076096, 33488896, 16646144, 0]

def mzv14 : Grid := gOf [0, 7864320, 24641536, 58195968, 66699264, 134209536, 402649088, 1073739776, 2079976448, 2139094528, 6434062080, 17179869056, 34359738304, 17179869056, 6299809536, 2004841984, 507460608, 1065318400, 528445440, 268427264, 134201344, 67076096, 33488896, 0]

def mzv15 : Grid := gOf [0, 24641536, 58195968, 125304832, 66707456, 402649088, 939520000, 2147482624, 4227460608, 6434062080, 15023996672, 34359738304, 68719476704, 34359738304, 14889744128, 6299809536, 507460608, 2139061248, 1065318400, 536866816, 134209536, 134201344, 67076096, 0]

def mzv16 : Grid := gOf [0, 58195968, 125304832, 125304832, 335142912, 939520000, 2013262848, 4294966784, 8522428160, 15023996672, 32203865920, 68719476704, 137438953456, 68719476704, 32069613376, 14889744128, 4802427904, 4286545408, 2139061248, 1073739776, 402649088, 134209536, 134201344, 0]

def mzv17 : Grid := gOf [0, 125304832, 125304832, 393740288, 872013824, 2013262848, 4160747008, 8589934336, 17112362880, 32203865856, 32203865952, 137438953456, 274877906936, 137438953456, 66429351776, 32069613376, 15539846144, 8581512960, 4286545408, 2147482624, 939520000, 402649088, 134209536, 0]

def mzv18 : Grid := gOf [0, 125304832, 393740288, 930611200, 1945756672, 4160747008, 8455714560, 17179869056, 34292232128, 32203865856, 100923342688, 274877906936, 549755813884, 274877906936, 135148828528, 66429351776, 32719715392, 17171447680, 8581512960, 4294966784, 2013262848, 939520000, 402649088, 0]

def mzv19 : Grid := gOf [0, 393740288, 930611200, 2004354048, 4093240832, 8455714560, 17045649280, 34359738304, 34292232160, 100923342592, 238362296168, 549755813884, 549755813886, 549755813884, 272587782000, 135148828528, 67079453920, 34351316928, 17171447680, 8589934336, 2013263360, 2013262848, 939520000, 0]

def mzv20 : Grid := gOf [0, 930611200, 2004354048, 2004354560, 4093241088, 17045649280, 34225518528, 68719476704, 34292232176, 238362296072, 513240203112, 549755813886, 549755813886, 549755813886, 547465688944, 272587782000, 67079453936, 68711055328, 34351316928, 17179869056, 6308230912, 2013263360, 2013262848, 0]

def mzv21 : Grid := gOf [0, 2004354048, 2004354560, 2004354816, 4093241216, 34225518464, 68585256928, 137438953456, 34292232184, 513240203016, 513240203112, 549755813886, 549755813886, 549755813886, 547465688944, 547465688944, 67079453936, 137430532080, 68711055328, 34359738304, 14898165504, 6308230912, 2013263360, 0]

def mzv22 : Grid := gOf [0, 2004354560, 2004354816, 2004354816, 21273110464, 68585256832, 137304733680, 274877906936, 34292232184, 513240203016, 513240203112, 549755813886, 549755813886, 549755813886, 547465688944, 547465688944, 67079453936, 274869485552, 137430532080, 68719476704, 32078034752, 14898165504, 6308230912, 0]

def mzv23 : Grid := gOf [0, 2004354816, 2004354816, 19184224064, 55632848864, 137304733568, 274743687152, 549755813880, 34292232184, 513240203016, 513240203112, 549755813886, 549755813886, 549755813886, 547465688944, 547465688944, 67079453936, 549747392496, 274869485552, 137438953456, 32078034784, 32078034752, 14898165504, 0]

def mzv24 : Grid := gOf [0, 2004354816, 19184224064, 27774158688, 124352325616, 274743687040, 549621594096, 549755813880, 34292232184, 513240203016, 513240203112, 549755813886, 549755813886, 549755813886, 547465688944, 547465688944, 67079453936, 549747392496, 549747392496, 274877906936, 100797511536, 32078034784, 32078034752, 0]

def mzv25 : Grid := gOf [0, 19184224064, 27774158688, 100788602736, 261791279088, 549621593984, 549621594096, 549755813880, 34292232184, 513240203016, 513240203112, 549755813886, 549755813886, 549755813886, 547465688944, 547465688944, 67079453936, 549747392496, 549747392496, 549755813884, 238236465016, 100797511536, 32078034784, 0]

def mzv26 : Grid := gOf [0, 27774158688, 100788602736, 238227556216, 536669186032, 549621593984, 549621594096, 549755813880, 34292232184, 513240203016, 513240203112, 549755813886, 549755813886, 549755813886, 547465688944, 547465688944, 67079453936, 549747392496, 549747392496, 549755813886, 513114371964, 238236465016, 100797511536, 0]

def mzv27 : Grid := gOf [0, 100788602736, 238227556216, 513105463164, 536669186032, 549621593984, 549621594096, 549755813880, 34292232184, 513240203016, 513240203112, 549755813886, 549755813886, 549755813886, 547465688944, 547465688944, 67079453936, 549747392496, 549747392496, 549755813886, 513114371966, 513114371964, 238236465016, 0]

def mzv28 : Grid := gOf [0, 238227556216, 513105463164, 513105463166, 536669186032, 549621593984, 549621594096, 549755813880, 34292232184, 513240203016, 513240203112, 549755813886, 549755813886, 549755813886, 547465688944, 547465688944, 67079453936, 549747392496, 549747392496, 549755813886, 513114371966, 513114371966, 513114371964, 0]

def mzv29 : Grid := gOf [0, 513105463164, 513105463166, 513105463166, 536669186032, 549621593984, 549621594096, 549755813880, 34292232184, 513240203016, 513240203112, 549755813886, 549755813886, 549755813886, 547465688944, 547465688944, 67079453936, 549747392496, 549747392496, 549755813886, 513114371966, 513114371966, 513114371966, 0]

def mzv30 : Grid := gOf [0, 513105463166, 513105463166, 513105463166, 536669186032, 549621593984, 549621594096, 549755813880, 34292232184, 513240203016, 513240203112, 549755813886, 549755813886, 549755813886, 547465688944, 547465688944, 67079453936, 549747392496, 549747392496, 549755813886, 513114371966, 513114371966, 513114371966, 0]

def mzc12 : Grid := gOf [1099511627775, 586405642241, 586405642241, 586405642241, 562842441743, 549890033791, 549890033679, 549755813895, 1065219395591, 586271424759, 586271424663, 549755813889, 549755813889, 549755813889, 552045938831, 552045938831, 1032432173839, 549764235279, 549764235279, 549755813889, 586397255809, 586397255809, 586397255809, 1099511627775]

def mzc13 : Grid := gOf [1099511627775, 549755813889, 549755813889, 549755813889, 562842441743, 549890033791, 549890033679, 549755813895, 1065219395591, 586271424759, 586271424663, 549755813889, 549755813889, 549755813889, 552045938831, 552045938831, 1032432173839, 549764235279, 549764235279, 549755813889, 586397255809, 586397255809, 586397255809, 1099511627775]

def mzc14 : Grid := gOf [1099511627775, 549755813889, 549755813889, 549755813889, 562842441743, 549890033791, 549890033679, 549755813895, 1065219395591, 586271424759, 586271424663, 549755813889, 549755813889, 549755813889, 552045938831, 552045938831, 1032432173839, 549764235279, 549764235279, 549755813889, 586397253633, 586397253633, 586397253633, 1099511627775]

def mzc15 : Grid := gOf [1099511627775, 549755813889, 549755813889, 549755813889, 562842441743, 549890033791, 549890033679, 549755813895, 1065219395591, 586271424759, 586271424663, 549755813889, 549755813889, 549755813889, 552045938831, 552045938831, 1032432173839, 549764235279, 549764235279, 549755813889, 549755813889, 549755813889, 549755813889, 1099511627775]

def mzc16 : Grid := gOf [1099511627775, 549755813889, 549755813889, 549755813889, 562842441743, 549890033791, 549890033679, 549755813895, 1065219395591, 586271424759, 586271424663, 549755813889, 549755813889, 549755813889, 552045938831, 552045938831, 1032432173839, 549764235279, 549764235279, 549755813889, 549755813889, 549755813889, 549755813889, 1099511627775]

theorem mzE0 : coarseInit = mzc0 := by decide

theorem mzE1 : vertStruts rAllTrue mzc0 = mzc1 := by decide

theorem mzE2 : horizStruts rAllTrue mzc1 = mzc2 := by decide

theorem mzE3 : addRooms mzc2 = mzc3 := by decide

theorem mzE4 : segRemoveH mzc3 = mzc4 := by decide

theorem mzE5 : segRemoveV mzc4 = mzc5 := by decide

theorem mzEf : fineInit = mzf0 := by decide

theorem mzE6 : project mzc5 mzf0 = mzc6 := by decide

theorem mzE7 : thin2x2 mzc6 = mzc7 := by decide

theorem mzE8 : closeRunsRows mzc7 = mzc8 := by decide

theorem mzE9 : closeRunsCols mzc8 = mzc9 := by decide

theorem mzE10 : clearPockets mzc9 = mzc10 := by decide

theorem mzE11 : clearBands mzc10 = mzc11 := by decide

theorem mzPreEq : mazePre rAllTrue rAllTrue = mzc11 := by
  unfold mazePre
  rw [mzE0, mzE1, mzE2, mzE3, mzE4, mzE5, mzEf, mzE6, mzE7, mzE8, mzE9, mzE10, mzE11]

theorem ffIter_succ (g : Grid) (n : Nat) (V : Grid) :
    ffIter g (n + 1) V = (if dilate g V = V then V else ffIter g n (dilate g V)) := rfl

theorem ffIter_stepped {g V V1 R : Grid} {n : Nat} (hd : dilate g V = V1)
    (hne : V1 ≠ V) (h : ffIter g n V1 = R) : ffIter g (n + 1) V = R := by
  rw [ffIter_succ, hd, if_neg hne, h]

theorem ffIter_fixed {g V : Grid} (n : Nat) (hd : dilate g V = V) :
    ffIter g (n + 1) V = V := by
  rw [ffIter_succ, hd, if_pos rfl]

theorem mzD1 : dilate mzc11 mzv0 = mzv1 := by decide

theorem mzD2 : dilate mzc11 mzv1 = mzv2 := by decide

theorem mzD3 : dilate mzc11 mzv2 = mzv3 := by decide

theorem mzD4 : dilate mzc11 mzv3 = mzv4 := by decide

theorem mzD5 : dilate mzc11 mzv4 = mzv5 := by decide

theorem mzD6 : dilate mzc11 mzv5 = mzv6 := by decide

theorem mzD7 : dilate mzc11 mzv6 = mzv7 := by decide

theorem mzD8 : dilate mzc11 mzv7 = mzv8 := by decide

theorem mzD9 : dilate mzc11 mzv8 = mzv9 := by decide

theorem mzD10 : dilate mzc11 mzv9 = mzv10 := by decide

theorem mzD11 : dilate mzc11 mzv10 = mzv11 := by decide

theorem mzD12 : dilate mzc11 mzv11 = mzv12 := by decide

theorem mzD13 : dilate mzc11 mzv12 = mzv13 := by decide

theorem mzD14 : dilate mzc11 mzv13 = mzv14 := by decide

theorem mzD15 : dilate mzc11 mzv14 = mzv15 := by decide

theorem mzD16 : dilate mzc11 mzv15 = mzv16 := by decide

theorem mzD17 : dilate mzc11 mzv16 = mzv17 := by decide

theorem mzD18 : dilate mzc11 mzv17 = mzv18 := by decide

theorem mzD19 : dilate mzc11 mzv18 = mzv19 := by decide

theorem mzD20 : dilate mzc11 mzv19 = mzv20 := by decide

theorem mzD21 : dilate mzc11 mzv20 = mzv21 := by decide

theorem mzD22 : dilate mzc11 mzv21 = mzv22 := by decide

theorem mzD23 : dilate mzc11 mzv22 = mzv23 := by decide

theorem mzD24 : dilate mzc11 mzv23 = mzv24 := by decide

theorem mzD25 : dilate mzc11 mzv24 = mzv25 := by decide

theorem mzD26 : dilate mzc11 mzv25 = mzv26 := by decide

theorem mzD27 : dilate mzc11 mzv26 = mzv27 := by decide

theorem mzD28 : dilate mzc11 mzv27 = mzv28 := by decide

theorem mzD29 : dilate mzc11 mzv28 = mzv29 := by decide

theorem mzD30 : dilate mzc11 mzv29 = mzv30 := by decide

theorem mzDfix : dilate mzc11 mzv30 = mzv30 := by decide

theorem mzV0Eq : visitedInit mzc11 = mzv0 := by decide

theorem mzFFEq : floodFill mzc11 = mzv30 := by
  show ffIter mzc11 960 (visitedInit mzc11) = mzv30
  rw [mzV0Eq]
  exact ffIter_stepped mzD1 (by decide) (ffIter_stepped mzD2 (by decide) (ffIter_stepped mzD3 (by decide) (ffIter_stepped mzD4 (by decide) (ffIter_stepped mzD5 (by decide) (ffIter_stepped mzD6 (by decide) (ffIter_stepped mzD7 (by decide) (ffIter_stepped mzD8 (by decide) (ffIter_stepped mzD9 (by decide) (ffIter_stepped mzD10 (by decide) (ffIter_stepped mzD11 (by decide) (ffIter_stepped mzD12 (by decide) (ffIter_stepped mzD13 (by decide) (ffIter_stepped mzD14 (by decide) (ffIter_stepped mzD15 (by decide) (ffIter_stepped mzD16 (by decide) (ffIter_stepped mzD17 (by decide) (ffIter_stepped mzD18 (by decide) (ffIter_stepped mzD19 (by decide) (ffIter_stepped mzD20 (by decide) (ffIter_stepped mzD21 (by decide) (ffIter_stepped mzD22 (by decide) (ffIter_stepped mzD23 (by decide) (ffIter_stepped mzD24 (by decide) (ffIter_stepped mzD25 (by decide) (ffIter_stepped mzD26 (by decide) (ffIter_stepped mzD27 (by decide) (ffIter_stepped mzD28 (by decide) (ffIter_stepped mzD29 (by decide) (ffIter_stepped mzD30 (by decide) (ffIter_fixed _ mzDfix))))))))))))))))))))))))))))))

theorem connectLoopFuel_succ (n : Nat) (g : Grid) :
    connectLoopFuel (n + 1) g =
      (match findUnvisited g (floodFill g) with
       | none => g
       | some s => connectLoopFuel n (carve g s)) := rfl

set_option maxRecDepth 4000 in
theorem mzLoopEq : connectLoopFuel 960 mzc11 = mzc11 := by
  rw [connectLoopFuel_succ, mzFFEq]
  have h : findUnvisited mzc11 mzv30 = none := by decide
  rw [h]

theorem mzE12 : carve mzc11 (2, 2) = mzc12 := by decide

theorem mzE13 : carve mzc12 (MAZE_WIDTH - 3, 2) = mzc13 := by decide

theorem mzE14 : carve mzc13 (2, MAZE_HEIGHT - 3) = mzc14 := by decide

theorem mzE15 : carve mzc14 (MAZE_WIDTH - 3, MAZE_HEIGHT - 3) = mzc15 := by decide

theorem mzE16 : setCell mzc15 SPAWN_X SPAWN_Y false = mzc16 := by decide

theorem genTrueEval : generate rAllTrue rAllTrue = mzc16 := by
  show setCell (carve (carve (carve (carve (connectLoopFuel 960 (mazePre rAllTrue rAllTrue))
    (2, 2)) (MAZE_WIDTH - 3, 2)) (2, MAZE_HEIGHT - 3)) (MAZE_WIDTH - 3, MAZE_HEIGHT - 3))
    SPAWN_X SPAWN_Y false = mzc16
  rw [mzPreEq, mzLoopEq, mzE12, mzE13, mzE14, mzE15, mzE16]


/-- Every open run starting strictly below `b` extends at least 3 cells. -/
def GoodBelow (r : List Bool) (b : Nat) : Prop :=
  ∀ x0, x0 < b → r.getD x0 false = false →
    (x0 = 0 ∨ r.getD (x0 - 1) false = true) →
    r.getD (x0 + 1) false = false ∧ r.getD (x0 + 2) false = false

/-- Invariant of the row-closing scan before processing index `x`. -/
def RowInv (x : Nat) (st : List Bool × Option Nat) : Prop :=
  st.1.length = MAZE_WIDTH ∧
  st.1.getD 0 false = true ∧
  st.1.getD (MAZE_WIDTH - 1) false = true ∧
  match st.2 with
  | none => (x ≤ MAZE_WIDTH → x = 0 ∨ st.1.getD (x - 1) false = true) ∧
      GoodBelow st.1 x
  | some s => s < x ∧ s < MAZE_WIDTH ∧
      (∀ i, s ≤ i → i < x → st.1.getD i false = false) ∧
      (st.1.getD (s - 1) false = true ∧ 1 ≤ s) ∧ GoodBelow st.1 s

theorem fillRunH_spec (y : Nat) (hy0 : y ≠ 0) (hyH : y ≠ MAZE_HEIGHT - 1) :
    ∀ (n s e : Nat) (row : List Bool), e + 1 - s = n → 1 ≤ s →
      e ≤ MAZE_WIDTH - 2 → row.length = MAZE_WIDTH →
      (fillRunH y row s e).length = MAZE_WIDTH ∧
      (∀ i, s ≤ i → i ≤ e → (fillRunH y row s e).getD i false = true) ∧
      (∀ i, i < s ∨ e < i →
        (fillRunH y row s e).getD i false = row.getD i false) := by
  have eW : MAZE_WIDTH = 40 := rfl
  have eH : MAZE_HEIGHT = 24 := rfl
  intro n
  induction n with
  | zero =>
    intro s e row hn hs he hlen
    have hfill : fillRunH y row s e = row := by
      unfold fillRunH
      rw [hn]
      rfl
    rw [hfill]
    refine ⟨hlen, ?_, ?_⟩
    · intro i h1 h2
      omega
    · intro i h
      rfl
  | succ n ih =>
    intro s e row hn hs he hlen
    have hse : s ≤ e := by omega
    have hstep : fillRunH y row s e = fillRunH y (row.set s true) (s + 1) e := by
      unfold fillRunH
      rw [hn, show e + 1 - (s + 1) = n from by omega]
      rw [show List.range' s (n + 1) = s :: List.range' (s + 1) n from rfl,
        List.foldl_cons]
      rw [if_neg (by push_neg; exact ⟨by omega, by omega, hy0, hyH⟩)]
    obtain ⟨L, A, B⟩ := ih (s + 1) e (row.set s true)
      (by omega) (by omega) he (by rw [List.length_set]; exact hlen)
    rw [hstep]
    refine ⟨L, ?_, ?_⟩
    · intro i h1 h2
      rcases Nat.eq_or_lt_of_le h1 with rfl | hlt
      · rw [B s (Or.inl (by omega)), getD_set_list, if_pos ⟨rfl, by omega⟩]
      · exact A i (by omega) h2
    · intro i hi
      rw [B i (by omega), getD_set_list, if_neg (by intro hc; omega)]

theorem rowInv_step (y : Nat) (hy0 : y ≠ 0) (hyH : y ≠ MAZE_HEIGHT - 1)
    (x : Nat) (hx : x ≤ MAZE_WIDTH) (st : List Bool × Option Nat)
    (h : RowInv x st) : RowInv (x + 1) (closeRowStep y st x) := by
  have eW : MAZE_WIDTH = 40 := rfl
  have eH : MAZE_HEIGHT = 24 := rfl
  obtain ⟨row, rs⟩ := st
  obtain ⟨hlen, hb0, hb39, hm⟩ := h
  dsimp only at hlen hb0 hb39
  unfold closeRowStep
  dsimp only
  by_cases hio : (decide (x < MAZE_WIDTH) && !row.getD x false) = true
  · rw [if_pos hio]
    rw [Bool.and_eq_true] at hio
    obtain ⟨hio1, hio2⟩ := hio
    have hxw : x < MAZE_WIDTH := of_decide_eq_true hio1
    have hxo : row.getD x false = false := by
      cases hgd : row.getD x false
      · rfl
      · rw [hgd] at hio2
        exact Bool.noConfusion hio2
    cases rs with
    | none =>
      obtain ⟨hN1, hGB⟩ := hm
      have hx1 : 1 ≤ x := by
        rcases Nat.eq_zero_or_pos x with rfl | h1
        · rw [hb0] at hxo
          exact Bool.noConfusion hxo
        · exact h1
      have hprev : row.getD (x - 1) false = true := by
        rcases hN1 (by omega) with h0 | hp
        · omega
        · exact hp
      show RowInv (x + 1) (row, some x)
      exact ⟨hlen, hb0, hb39, by omega, hxw,
        fun i h1 h2 => by rw [show i = x from by omega]; exact hxo,
        ⟨hprev, hx1⟩, hGB⟩
    | some s =>
      obtain ⟨hsx, hsw, hrun, hS2, hGB⟩ := hm
      show RowInv (x + 1) (row, some s)
      refine ⟨hlen, hb0, hb39, by omega, hsw, ?_, hS2, hGB⟩
      intro i h1 h2
      rcases Nat.lt_or_ge i x with hlt | hge
      · exact hrun i h1 hlt
      · rw [show i = x from by omega]
        exact hxo
  · rw [if_neg hio]
    have hwall : x < MAZE_WIDTH → row.getD x false = true := by
      intro hxw
      cases hgd : row.getD x false
      · exfalso
        apply hio
        rw [hgd]
        simp [hxw]
      · rfl
    cases rs with
    | none =>
      obtain ⟨hN1, hGB⟩ := hm
      show RowInv (x + 1) (row, none)
      refine ⟨hlen, hb0, hb39, ?_, ?_⟩
      · intro hx1
        exact Or.inr (by rw [Nat.add_sub_cancel]; exact hwall (by omega))
      · intro x0 hx0 ho hst
        rcases Nat.lt_or_ge x0 x with hlt | hge
        · exact hGB x0 hlt ho hst
        · have hx0x : x0 = x := by omega
          subst hx0x
          rcases Nat.lt_or_ge x0 MAZE_WIDTH with hw | hw
          · rw [hwall hw] at ho
            exact Bool.noConfusion ho
          · constructor
            · show row.getD (x0 + 1) false = false
              rw [List.getD_eq_getElem?_getD,
                List.getElem?_eq_none (by omega)]
              rfl
            · show row.getD (x0 + 2) false = false
              rw [List.getD_eq_getElem?_getD,
                List.getElem?_eq_none (by omega)]
              rfl
    | some s =>
      obtain ⟨hsx, hsw, hrun, ⟨hS2, hs1⟩, hGB⟩ := hm
      dsimp only
      have hxle : x ≤ MAZE_WIDTH - 1 := by
        by_contra hc
        have h39 : row.getD (MAZE_WIDTH - 1) false = false :=
          hrun (MAZE_WIDTH - 1) (by omega) (by omega)
        rw [hb39] at h39
        exact Bool.noConfusion h39
      have hxw : x < MAZE_WIDTH := by omega
      have hwx : row.getD x false = true := hwall hxw
      have hrun39 : x - 1 ≤ MAZE_WIDTH - 2 := by omega
      by_cases hshort : 0 < x - s ∧ x - s < 3
      · rw [if_pos hshort]
        obtain ⟨L, A, B⟩ := fillRunH_spec y hy0 hyH (x - s) s (x - 1) row
          (by omega) hs1 hrun39 hlen
        show RowInv (x + 1) (fillRunH y row s (x - 1), none)
        refine ⟨L, ?_, ?_, ?_, ?_⟩
        · rw [B 0 (Or.inl (by omega))]
          exact hb0
        · rw [B (MAZE_WIDTH - 1) (Or.inr (by omega))]
          exact hb39
        · intro hx1
          refine Or.inr ?_
          rw [Nat.add_sub_cancel, B x (Or.inr (by omega))]
          exact hwx
        · intro x0 hx0 ho hst
          rcases Nat.lt_or_ge x0 s with hlt | hge
          · have ho' : row.getD x0 false = false := by
              rw [B x0 (Or.inl hlt)] at ho
              exact ho
            have hne : x0 ≠ s - 1 := by
              intro hc
              rw [hc, hS2] at ho'
              exact Bool.noConfusion ho'
            have hst' : x0 = 0 ∨ row.getD (x0 - 1) false = true := by
              rcases hst with h0 | hp
              · exact Or.inl h0
              · refine Or.inr ?_
                rw [B (x0 - 1) (Or.inl (by omega))] at hp
                exact hp
            obtain ⟨g1, g2⟩ := hGB x0 hlt ho' hst'
            have hne2 : x0 + 1 ≠ s - 1 := by
              intro hc
              rw [hc, hS2] at g1
              exact Bool.noConfusion g1
            have hne3 : x0 + 2 ≠ s - 1 := by
              intro hc
              rw [hc, hS2] at g2
              exact Bool.noConfusion g2
            constructor
            · rw [B (x0 + 1) (Or.inl (by omega))]
              exact g1
            · rw [B (x0 + 2) (Or.inl (by omega))]
              exact g2
          · rcases Nat.lt_or_ge x0 x with hltx | hgex
            · rw [A x0 hge (by omega)] at ho
              exact Bool.noConfusion ho
            · have hx0x : x0 = x := by omega
              rw [hx0x, B x (Or.inr (by omega)), hwx] at ho
              exact Bool.noConfusion ho
      · rw [if_neg hshort]
        have hlong : 3 ≤ x - s := by omega
        show RowInv (x + 1) (row, none)
        refine ⟨hlen, hb0, hb39, ?_, ?_⟩
        · intro hx1
          exact Or.inr (by rw [Nat.add_sub_cancel]; exact hwx)
        · intro x0 hx0 ho hst
          rcases Nat.lt_or_ge x0 s with hlt | hge
          · exact hGB x0 hlt ho hst
          · rcases Nat.eq_or_lt_of_le hge with rfl | hgt
            · exact ⟨hrun (s + 1) (by omega) (by omega),
                hrun (s + 2) (by omega) (by omega)⟩
            · rcases Nat.lt_or_ge x0 x with hltx | hgex
              · have hprev : row.getD (x0 - 1) false = false :=
                  hrun (x0 - 1) (by omega) (by omega)
                rcases hst with h0 | hp
                · omega
                · rw [hprev] at hp
                  exact Bool.noConfusion hp
              · have hx0x : x0 = x := by omega
                rw [hx0x, hwx] at ho
                exact Bool.noConfusion ho

theorem rowInv_fold (y : Nat) (hy0 : y ≠ 0) (hyH : y ≠ MAZE_HEIGHT - 1) :
    ∀ (n x0 : Nat) (st : List Bool × Option Nat), x0 + n ≤ MAZE_WIDTH + 1 →
      RowInv x0 st →
      RowInv (x0 + n) ((List.range' x0 n).foldl (closeRowStep y) st) := by
  intro n
  induction n with
  | zero =>
    intro x0 st _ h
    exact h
  | succ n ih =>
    intro x0 st hb h
    rw [show List.range' x0 (n + 1) = x0 :: List.range' (x0 + 1) n from rfl,
      List.foldl_cons]
    have hstep := rowInv_step y hy0 hyH x0 (by omega) st h
    have hrec := ih (x0 + 1) (closeRowStep y st x0) (by omega) hstep
    rw [show x0 + 1 + n = x0 + (n + 1) from by omega] at hrec
    exact hrec

set_option maxHeartbeats 1000000 in
set_option linter.constructorNameAsVariable false in
/-- After the row-closing scan of an interior bordered row, every open run
extends at least 3 cells. -/
theorem closeRowGo_good (y : Nat) (row : List Bool) (hy0 : y ≠ 0)
    (hyH : y ≠ MAZE_HEIGHT - 1) (hlen : row.length = MAZE_WIDTH)
    (hb0 : row.getD 0 false = true)
    (hb39 : row.getD (MAZE_WIDTH - 1) false = true) :
    GoodBelow (closeRowGo y row) (MAZE_WIDTH + 1) := by
  have hinit : RowInv 0 (row, none) := by
    refine ⟨hlen, hb0, hb39, fun _ => Or.inl rfl, ?_⟩
    intro x0 hx0
    omega
  have hfold := rowInv_fold y hy0 hyH (MAZE_WIDTH + 1) 0 (row, none)
    (by omega) hinit
  rw [show (0 : Nat) + (MAZE_WIDTH + 1) = MAZE_WIDTH + 1 from by omega] at hfold
  have hgo : closeRowGo y row =
      ((List.range' 0 (MAZE_WIDTH + 1)).foldl (closeRowStep y) (row, none)).1 := by
    unfold closeRowGo
    rw [List.range_eq_range']
  obtain ⟨hL, hB0, hB39, hm⟩ := hfold
  rw [hgo]
  cases hrs : ((List.range' 0 (MAZE_WIDTH + 1)).foldl (closeRowStep y)
      (row, none)).2 with
  | none =>
    rw [hrs] at hm
    exact hm.2
  | some s =>
    rw [hrs] at hm
    obtain ⟨hsx, hsw, hrun, -, -⟩ := hm
    exfalso
    have h39o := hrun (MAZE_WIDTH - 1) (by omega) (by omega)
    rw [hB39] at h39o
    exact Bool.noConfusion h39o

/-- Invariant of the column-closing scan before processing index `y`. -/
def ColInv (y : Nat) (st : List Bool × Option Nat) : Prop :=
  st.1.length = MAZE_HEIGHT ∧
  st.1.getD 0 false = true ∧
  st.1.getD (MAZE_HEIGHT - 1) false = true ∧
  match st.2 with
  | none => (y ≤ MAZE_HEIGHT → y = 0 ∨ st.1.getD (y - 1) false = true) ∧
      GoodBelow st.1 y
  | some s => s < y ∧ s < MAZE_HEIGHT ∧
      (∀ i, s ≤ i → i < y → st.1.getD i false = false) ∧
      (st.1.getD (s - 1) false = true ∧ 1 ≤ s) ∧ GoodBelow st.1 s

theorem fillRunV_spec (x : Nat) (hx0 : x ≠ 0) (hxW : x ≠ MAZE_WIDTH - 1) :
    ∀ (n s e : Nat) (col : List Bool), e + 1 - s = n → 1 ≤ s →
      e ≤ MAZE_HEIGHT - 2 → col.length = MAZE_HEIGHT →
      (fillRunV x col s e).length = MAZE_HEIGHT ∧
      (∀ i, s ≤ i → i ≤ e → (fillRunV x col s e).getD i false = true) ∧
      (∀ i, i < s ∨ e < i →
        (fillRunV x col s e).getD i false = col.getD i false) := by
  have eW : MAZE_WIDTH = 40 := rfl
  have eH : MAZE_HEIGHT = 24 := rfl
  intro n
  induction n with
  | zero =>
    intro s e col hn hs he hlen
    have hfill : fillRunV x col s e = col := by
      unfold fillRunV
      rw [hn]
      rfl
    rw [hfill]
    refine ⟨hlen, ?_, ?_⟩
    · intro i h1 h2
      omega
    · intro i h
      rfl
  | succ n ih =>
    intro s e col hn hs he hlen
    have hse : s ≤ e := by omega
    have hstep : fillRunV x col s e = fillRunV x (col.set s true) (s + 1) e := by
      unfold fillRunV
      rw [hn, show e + 1 - (s + 1) = n from by omega]
      rw [show List.range' s (n + 1) = s :: List.range' (s + 1) n from rfl,
        List.foldl_cons]
      rw [if_neg (by push_neg; exact ⟨hx0, hxW, by omega, by omega⟩)]
    obtain ⟨L, A, B⟩ := ih (s + 1) e (col.set s true)
      (by omega) (by omega) he (by rw [List.length_set]; exact hlen)
    rw [hstep]
    refine ⟨L, ?_, ?_⟩
    · intro i h1 h2
      rcases Nat.eq_or_lt_of_le h1 with rfl | hlt
      · rw [B s (Or.inl (by omega)), getD_set_list, if_pos ⟨rfl, by omega⟩]
      · exact A i (by omega) h2
    · intro i hi
      rw [B i (by omega), getD_set_list, if_neg (by intro hc; omega)]

theorem colInv_step (x : Nat) (hx0 : x ≠ 0) (hxW : x ≠ MAZE_WIDTH - 1)
    (y : Nat) (hy : y ≤ MAZE_HEIGHT) (st : List Bool × Option Nat)
    (h : ColInv y st) : ColInv (y + 1) (closeColStep x st y) := by
  have eW : MAZE_WIDTH = 40 := rfl
  have eH : MAZE_HEIGHT = 24 := rfl
  obtain ⟨col, rs⟩ := st
  obtain ⟨hlen, hb0, hb23, hm⟩ := h
  dsimp only at hlen hb0 hb23
  unfold closeColStep
  dsimp only
  by_cases hio : (decide (y < MAZE_HEIGHT) && !col.getD y false) = true
  · rw [if_pos hio]
    rw [Bool.and_eq_true] at hio
    obtain ⟨hio1, hio2⟩ := hio
    have hyw : y < MAZE_HEIGHT := of_decide_eq_true hio1
    have hyo : col.getD y false = false := by
      cases hgd : col.getD y false
      · rfl
      · rw [hgd] at hio2
        exact Bool.noConfusion hio2
    cases rs with
    | none =>
      obtain ⟨hN1, hGB⟩ := hm
      have hy1 : 1 ≤ y := by
        rcases Nat.eq_zero_or_pos y with rfl | h1
        · rw [hb0] at hyo
          exact Bool.noConfusion hyo
        · exact h1
      have hprev : col.getD (y - 1) false = true := by
        rcases hN1 (by omega) with h0 | hp
        · omega
        · exact hp
      show ColInv (y + 1) (col, some y)
      exact ⟨hlen, hb0, hb23, by omega, hyw,
        fun i h1 h2 => by rw [show i = y from by omega]; exact hyo,
        ⟨hprev, hy1⟩, hGB⟩
    | some s =>
      obtain ⟨hsy, hsh, hrun, hS2, hGB⟩ := hm
      show ColInv (y + 1) (col, some s)
      refine ⟨hlen, hb0, hb23, by omega, hsh, ?_, hS2, hGB⟩
      intro i h1 h2
      rcases Nat.lt_or_ge i y with hlt | hge
      · exact hrun i h1 hlt
      · rw [show i = y from by omega]
        exact hyo
  · rw [if_neg hio]
    have hwall : y < MAZE_HEIGHT → col.getD y false = true := by
      intro hyw
      cases hgd : col.getD y false
      · exfalso
        apply hio
        rw [hgd]
        simp [hyw]
      · rfl
    cases rs with
    | none =>
      obtain ⟨hN1, hGB⟩ := hm
      show ColInv (y + 1) (col, none)
      refine ⟨hlen, hb0, hb23, ?_, ?_⟩
      · intro hy1
        exact Or.inr (by rw [Nat.add_sub_cancel]; exact hwall (by omega))
      · intro y0 hy0 ho hst
        rcases Nat.lt_or_ge y0 y with hlt | hge
        · exact hGB y0 hlt ho hst
        · have hy0y : y0 = y := by omega
          subst hy0y
          rcases Nat.lt_or_ge y0 MAZE_HEIGHT with hw | hw
          · rw [hwall hw] at ho
            exact Bool.noConfusion ho
          · constructor
            · show col.getD (y0 + 1) false = false
              rw [List.getD_eq_getElem?_getD,
                List.getElem?_eq_none (by omega)]
              rfl
            · show col.getD (y0 + 2) false = false
              rw [List.getD_eq_getElem?_getD,
                List.getElem?_eq_none (by omega)]
              rfl
    | some s =>
      obtain ⟨hsy, hsh, hrun, ⟨hS2, hs1⟩, hGB⟩ := hm
      dsimp only
      have hyle : y ≤ MAZE_HEIGHT - 1 := by
        by_contra hc
        have h23 : col.getD (MAZE_HEIGHT - 1) false = false :=
          hrun (MAZE_HEIGHT - 1) (by omega) (by omega)
        rw [hb23] at h23
        exact Bool.noConfusion h23
      have hyw : y < MAZE_HEIGHT := by omega
      have hwy : col.getD y false = true := hwall hyw
      have hrun23 : y - 1 ≤ MAZE_HEIGHT - 2 := by omega
      by_cases hshort : 0 < y - s ∧ y - s < 3
      · rw [if_pos hshort]
        obtain ⟨L, A, B⟩ := fillRunV_spec x hx0 hxW (y - s) s (y - 1) col
          (by omega) hs1 hrun23 hlen
        show ColInv (y + 1) (fillRunV x col s (y - 1), none)
        refine ⟨L, ?_, ?_, ?_, ?_⟩
        · rw [B 0 (Or.inl (by omega))]
          exact hb0
        · rw [B (MAZE_HEIGHT - 1) (Or.inr (by omega))]
          exact hb23
        · intro hy1
          refine Or.inr ?_
          rw [Nat.add_sub_cancel, B y (Or.inr (by omega))]
          exact hwy
        · intro y0 hy0 ho hst
          rcases Nat.lt_or_ge y0 s with hlt | hge
          · have ho' : col.getD y0 false = false := by
              rw [B y0 (Or.inl hlt)] at ho
              exact ho
            have hne : y0 ≠ s - 1 := by
              intro hc
              rw [hc, hS2] at ho'
              exact Bool.noConfusion ho'
            have hst' : y0 = 0 ∨ col.getD (y0 - 1) false = true := by
              rcases hst with h0 | hp
              · exact Or.inl h0
              · refine Or.inr ?_
                rw [B (y0 - 1) (Or.inl (by omega))] at hp
                exact hp
            obtain ⟨g1, g2⟩ := hGB y0 hlt ho' hst'
            have hne2 : y0 + 1 ≠ s - 1 := by
              intro hc
              rw [hc, hS2] at g1
              exact Bool.noConfusion g1
            have hne3 : y0 + 2 ≠ s - 1 := by
              intro hc
              rw [hc, hS2] at g2
              exact Bool.noConfusion g2
            constructor
            · rw [B (y0 + 1) (Or.inl (by omega))]
              exact g1
            · rw [B (y0 + 2) (Or.inl (by omega))]
              exact g2
          · rcases Nat.lt_or_ge y0 y with hlty | hgey
            · rw [A y0 hge (by omega)] at ho
              exact Bool.noConfusion ho
            · have hy0y : y0 = y := by omega
              rw [hy0y, B y (Or.inr (by omega)), hwy] at ho
              exact Bool.noConfusion ho
      · rw [if_neg hshort]
        have hlong : 3 ≤ y - s := by omega
        show ColInv (y + 1) (col, none)
        refine ⟨hlen, hb0, hb23, ?_, ?_⟩
        · intro hy1
          exact Or.inr (by rw [Nat.add_sub_cancel]; exact hwy)
        · intro y0 hy0 ho hst
          rcases Nat.lt_or_ge y0 s with hlt | hge
          · exact hGB y0 hlt ho hst
          · rcases Nat.eq_or_lt_of_le hge with rfl | hgt
            · exact ⟨hrun (s + 1) (by omega) (by omega),
                hrun (s + 2) (by omega) (by omega)⟩
            · rcases Nat.lt_or_ge y0 y with hlty | hgey
              · have hprev : col.getD (y0 - 1) false = false :=
                  hrun (y0 - 1) (by omega) (by omega)
                rcases hst with h0 | hp
                · omega
                · rw [hprev] at hp
                  exact Bool.noConfusion hp
              · have hy0y : y0 = y := by omega
                rw [hy0y, hwy] at ho
                exact Bool.noConfusion ho

theorem colInv_fold (x : Nat) (hx0 : x ≠ 0) (hxW : x ≠ MAZE_WIDTH - 1) :
    ∀ (n y0 : Nat) (st : List Bool × Option Nat), y0 + n ≤ MAZE_HEIGHT + 1 →
      ColInv y0 st →
      ColInv (y0 + n) ((List.range' y0 n).foldl (closeColStep x) st) := by
  intro n
  induction n with
  | zero =>
    intro y0 st _ h
    exact h
  | succ n ih =>
    intro y0 st hb h
    rw [show List.range' y0 (n + 1) = y0 :: List.range' (y0 + 1) n from rfl,
      List.foldl_cons]
    have hstep := colInv_step x hx0 hxW y0 (by omega) st h
    have hrec := ih (y0 + 1) (closeColStep x st y0) (by omega) hstep
    rw [show y0 + 1 + n = y0 + (n + 1) from by omega] at hrec
    exact hrec

set_option maxHeartbeats 1000000 in
set_option linter.constructorNameAsVariable false in
/-- After the column-closing scan of an interior bordered column, every open
run extends at least 3 cells. -/
theorem closeColGo_good (x : Nat) (col : List Bool) (hx0 : x ≠ 0)
    (hxW : x ≠ MAZE_WIDTH - 1) (hlen : col.length = MAZE_HEIGHT)
    (hb0 : col.getD 0 false = true)
    (hb23 : col.getD (MAZE_HEIGHT - 1) false = true) :
    GoodBelow (closeColGo x col) (MAZE_HEIGHT + 1) := by
  have hinit : ColInv 0 (col, none) := by
    refine ⟨hlen, hb0, hb23, fun _ => Or.inl rfl, ?_⟩
    intro y0 hy0
    omega
  have hfold := colInv_fold x hx0 hxW (MAZE_HEIGHT + 1) 0 (col, none)
    (by omega) hinit
  rw [show (0 : Nat) + (MAZE_HEIGHT + 1) = MAZE_HEIGHT + 1 from by omega] at hfold
  have hgo : closeColGo x col =
      ((List.range' 0 (MAZE_HEIGHT + 1)).foldl (closeColStep x) (col, none)).1 := by
    unfold closeColGo
    rw [List.range_eq_range']
  obtain ⟨hL, hB0, hB23, hm⟩ := hfold
  rw [hgo]
  cases hrs : ((List.range' 0 (MAZE_HEIGHT + 1)).foldl (closeColStep x)
      (col, none)).2 with
  | none =>
    rw [hrs] at hm
    exact hm.2
  | some s =>
    rw [hrs] at hm
    obtain ⟨hsy, hsh, hrun, -, -⟩ := hm
    exfalso
    have h23o := hrun (MAZE_HEIGHT - 1) (by omega) (by omega)
    rw [hB23] at h23o
    exact Bool.noConfusion h23o

/-- No maximal horizontal open run of length 1 or 2: every open cell whose
left neighbour is a wall (or the left edge) heads a run of length at least
3. -/
def NoShortRowRuns (g : Grid) : Prop :=
  ∀ x y, x < MAZE_WIDTH → y < MAZE_HEIGHT → getCell g x y = false →
    (x = 0 ∨ getCell g (x - 1) y = true) →
    getCell g (x + 1) y = false ∧ getCell g (x + 2) y = false

/-- No maximal vertical open run of length 1 or 2. -/
def NoShortColRuns (g : Grid) : Prop :=
  ∀ x y, x < MAZE_WIDTH → y < MAZE_HEIGHT → getCell g x y = false →
    (y = 0 ∨ getCell g x (y - 1) = true) →
    getCell g x (y + 1) = false ∧ getCell g x (y + 2) = false

theorem noShortRowRuns_closeRunsRows {g : Grid} (hw : Wf g)
    (hb : BorderWall g) : NoShortRowRuns (closeRunsRows g) := by
  have eW : MAZE_WIDTH = 40 := rfl
  have eH : MAZE_HEIGHT = 24 := rfl
  intro x y hx hy ho hst
  by_cases hyb : y = 0 ∨ y = MAZE_HEIGHT - 1
  · exfalso
    have hbd : x = 0 ∨ x = MAZE_WIDTH - 1 ∨ y = 0 ∨ y = MAZE_HEIGHT - 1 :=
      hyb.elim (fun h => Or.inr (Or.inr (Or.inl h)))
        (fun h => Or.inr (Or.inr (Or.inr h)))
    have hbw : (g.getD y []).getD x false = true := hb x y hx hy hbd
    rw [closeRunsRows, getCell_onRows, if_pos hy,
      closeRowGo_protected y _ x hbd, hbw] at ho
    exact Bool.noConfusion ho
  · push_neg at hyb
    obtain ⟨hy0, hyH⟩ := hyb
    have hyg : y < g.length := by rw [hw.1]; exact hy
    have hrowlen : (g.getD y []).length = MAZE_WIDTH := by
      refine hw.2 _ ?_
      rw [List.getD_eq_getElem _ _ hyg]
      exact List.getElem_mem hyg
    have hb0 : (g.getD y []).getD 0 false = true :=
      hb 0 y (by omega) hy (Or.inl rfl)
    have hb39 : (g.getD y []).getD (MAZE_WIDTH - 1) false = true :=
      hb (MAZE_WIDTH - 1) y (by omega) hy (Or.inr (Or.inl rfl))
    have hgood := closeRowGo_good y (g.getD y []) hy0 hyH hrowlen hb0 hb39
    rw [closeRunsRows, getCell_onRows, if_pos hy] at ho
    have hst' : x = 0 ∨ (closeRowGo y (g.getD y [])).getD (x - 1) false = true := by
      rcases hst with h0 | hp
      · exact Or.inl h0
      · rw [closeRunsRows, getCell_onRows, if_pos hy] at hp
        exact Or.inr hp
    have hc := hgood x (by omega) ho hst'
    constructor
    · rw [closeRunsRows, getCell_onRows, if_pos hy]
      exact hc.1
    · rw [closeRunsRows, getCell_onRows, if_pos hy]
      exact hc.2

theorem noShortColRuns_closeRunsCols {g : Grid} (hb : BorderWall g) :
    NoShortColRuns (closeRunsCols g) := by
  have eW : MAZE_WIDTH = 40 := rfl
  have eH : MAZE_HEIGHT = 24 := rfl
  intro x y hx hy ho hst
  by_cases hxb : x = 0 ∨ x = MAZE_WIDTH - 1
  · exfalso
    have hbd : x = 0 ∨ x = MAZE_WIDTH - 1 ∨ y = 0 ∨ y = MAZE_HEIGHT - 1 :=
      hxb.elim (fun h => Or.inl h) (fun h => Or.inr (Or.inl h))
    have hbw : getCell g x y = true := hb x y hx hy hbd
    rw [closeRunsCols, getCell_onCols, if_pos ⟨hx, hy⟩,
      closeColGo_protected x _ y hbd, colOf_getD, if_pos hy, hbw] at ho
    exact Bool.noConfusion ho
  · push_neg at hxb
    obtain ⟨hx0, hxW⟩ := hxb
    have hcollen : (colOf g x).length = MAZE_HEIGHT := by
      unfold colOf
      rw [List.length_map, List.length_range]
    have hb0 : (colOf g x).getD 0 false = true := by
      rw [colOf_getD, if_pos (by omega)]
      exact hb x 0 hx (by omega) (Or.inr (Or.inr (Or.inl rfl)))
    have hb23 : (colOf g x).getD (MAZE_HEIGHT - 1) false = true := by
      rw [colOf_getD, if_pos (by omega)]
      exact hb x (MAZE_HEIGHT - 1) hx (by omega)
        (Or.inr (Or.inr (Or.inr rfl)))
    have hgood := closeColGo_good x (colOf g x) hx0 hxW hcollen hb0 hb23
    rw [closeRunsCols, getCell_onCols, if_pos ⟨hx, hy⟩] at ho
    have hst' : y = 0 ∨ (closeColGo x (colOf g x)).getD (y - 1) false = true := by
      rcases hst with h0 | hp
      · exact Or.inl h0
      · rw [closeRunsCols, getCell_onCols, if_pos ⟨hx, by omega⟩] at hp
        exact Or.inr hp
    have hc := hgood y (by omega) ho hst'
    constructor
    · rw [closeRunsCols, getCell_onCols]
      by_cases h1 : y + 1 < MAZE_HEIGHT
      · rw [if_pos ⟨hx, h1⟩]
        exact hc.1
      · rw [if_neg (fun hc2 => h1 hc2.2)]
    · rw [closeRunsCols, getCell_onCols]
      by_cases h2 : y + 2 < MAZE_HEIGHT
      · rw [if_pos ⟨hx, h2⟩]
        exact hc.2
      · rw [if_neg (fun hc2 => h2 hc2.2)]

theorem fillRunH_length (y : Nat) (row : List Bool) (s e : Nat) :
    (fillRunH y row s e).length = row.length := by
  unfold fillRunH
  refine foldl_preserve (fun (r : List Bool) => r.length = row.length)
    _ _ _ rfl ?_
  intro r a _ hr
  by_cases hc : a = 0 ∨ a = MAZE_WIDTH - 1 ∨ y = 0 ∨ y = MAZE_HEIGHT - 1
  · rw [if_pos hc]
    exact hr
  · rw [if_neg hc, List.length_set]
    exact hr

theorem closeRowGo_length (y : Nat) (row : List Bool) :
    (closeRowGo y row).length = row.length := by
  unfold closeRowGo
  refine foldl_preserve (fun (st : List Bool × Option Nat) =>
    st.1.length = row.length) (closeRowStep y) _ (row, none) rfl ?_
  intro st a _ hst
  rcases closeRowStep_shape y st a with h | ⟨s, e, h⟩
  · rw [h]
    exact hst
  · rw [h, fillRunH_length]
    exact hst

theorem wf_closeRunsRows {g : Grid} (hw : Wf g) : Wf (closeRunsRows g) := by
  constructor
  · show (onRows closeRowGo g).length = MAZE_HEIGHT
    unfold onRows
    rw [List.length_map, List.length_range]
  · intro r hr
    simp only [closeRunsRows, onRows, List.mem_map] at hr
    obtain ⟨y, hy, rfl⟩ := hr
    rw [closeRowGo_length]
    have hy24 : y < MAZE_HEIGHT := List.mem_range.mp hy
    have hyg : y < g.length := by rw [hw.1]; exact hy24
    refine hw.2 _ ?_
    rw [List.getD_eq_getElem _ _ hyg]
    exact List.getElem_mem hyg

theorem thinRowStep_length (top bot : List Bool) :
    (thinRowStep top bot).length = bot.length := by
  unfold thinRowStep
  refine foldl_preserve (fun (r : List Bool) => r.length = bot.length)
    _ _ _ rfl ?_
  intro r a _ hr
  by_cases hc : (top.getD a false && top.getD (a + 1) false &&
      r.getD a false && r.getD (a + 1) false) = true
  · rw [if_pos hc, List.length_set]
    exact hr
  · rw [if_neg hc]
    exact hr

theorem thinGo_length : ∀ (rest : List (List Bool)) (prev : List Bool),
    (thinGo prev rest).length = rest.length := by
  intro rest
  induction rest with
  | nil =>
    intro prev
    rfl
  | cons bot t ih =>
    intro prev
    show (thinRowStep prev bot :: thinGo (thinRowStep prev bot) t).length =
      (bot :: t).length
    rw [List.length_cons, List.length_cons, ih]

theorem thinGo_rows : ∀ (rest : List (List Bool)) (prev : List Bool),
    (∀ r ∈ rest, r.length = MAZE_WIDTH) →
    ∀ r ∈ thinGo prev rest, r.length = MAZE_WIDTH := by
  intro rest
  induction rest with
  | nil =>
    intro prev _ r hr
    exact absurd hr (List.not_mem_nil r)
  | cons bot t ih =>
    intro prev hall r hr
    have hshape : r ∈ thinRowStep prev bot :: thinGo (thinRowStep prev bot) t :=
      hr
    rcases List.mem_cons.mp hshape with rfl | hmem
    · rw [thinRowStep_length]
      exact hall bot (List.mem_cons_self bot t)
    · exact ih (thinRowStep prev bot)
        (fun r' hr' => hall r' (List.mem_cons_of_mem bot hr')) r hmem

theorem wf_thin2x2 {g : Grid} (hw : Wf g) : Wf (thin2x2 g) := by
  cases g with
  | nil => exact hw
  | cons r0 t0 =>
    cases t0 with
    | nil => exact hw
    | cons r1 rest =>
      show Wf (r0 :: r1 :: thinGo r1 rest)
      constructor
      · show (r0 :: r1 :: thinGo r1 rest).length = MAZE_HEIGHT
        rw [List.length_cons, List.length_cons, thinGo_length]
        have h := hw.1
        rw [List.length_cons, List.length_cons] at h
        exact h
      · intro r hr
        rcases List.mem_cons.mp hr with rfl | hr1
        · exact hw.2 _ (List.mem_cons_self _ _)
        rcases List.mem_cons.mp hr1 with rfl | hr2
        · exact hw.2 _ (List.mem_cons_of_mem _ (List.mem_cons_self _ _))
        · exact thinGo_rows rest r1
            (fun r' hr' => hw.2 _ (List.mem_cons_of_mem _
              (List.mem_cons_of_mem _ hr'))) r hr2

/-- The C2 exception regions: the 3-wide spawn cross band (columns 19-21 or
rows 11-13) and the four 3x3 corner pockets. -/
def mazeRunExcept (x y : Nat) : Prop :=
  (19 ≤ x ∧ x ≤ 21) ∨ (11 ≤ y ∧ y ≤ 13) ∨
  (((1 ≤ x ∧ x ≤ 3) ∨ (36 ≤ x ∧ x ≤ 38)) ∧
    ((1 ≤ y ∧ y ≤ 3) ∨ (20 ≤ y ∧ y ≤ 22)))

/-- Claim C2 (amended): the run-closing passes do eliminate all short open
runs along their own axis at the moment they execute: right after the
row-closing pass no maximal horizontal open run of length 1 or 2 remains, and
right after the column-closing pass no maximal vertical open run of length 1
or 2 remains, for every outcome of the pseudo-random source.  (The property
does not carry to the final maze: the corner pockets, the spawn band and the
connectivity carving run afterwards and reopen cells, which is what the
counterexample exhibits.) -/
theorem corridor_width_after_closing (rv rh : Nat → Nat → Bool) :
    NoShortRowRuns (closeRunsRows
      (thin2x2 (project (coarseFinal rv rh) fineInit))) ∧
    NoShortColRuns (closeRunsCols (closeRunsRows
      (thin2x2 (project (coarseFinal rv rh) fineInit)))) := by
  have hwp : Wf (project (coarseFinal rv rh) fineInit) := by
    unfold project
    exact wf_cellMap _ _
  have hw1 : Wf (thin2x2 (project (coarseFinal rv rh) fineInit)) :=
    wf_thin2x2 hwp
  have hb1 : BorderWall (thin2x2 (project (coarseFinal rv rh) fineInit)) :=
    borderWall_thin2x2 hwp (borderWall_project _) (edgeOpen_project rv rh)
  exact ⟨noShortRowRuns_closeRunsRows hw1 hb1,
    noShortColRuns_closeRunsCols (borderWall_closeRunsRows hb1)⟩

/-- Counterexample to C2 as stated: in the fully evaluated maze for the
all-true random source, cell (3,9) is open while (2,9) and (4,9) are walls —
a maximal horizontal open run of length 1 — and (3,9) lies neither in the
3-wide spawn cross band nor in any 3x3 corner pocket.  The run was broken
open again by passes that run after the run-closing passes. -/
theorem corridor_width_counterexample :
    getCell (generate rAllTrue rAllTrue) 2 9 = true ∧
    getCell (generate rAllTrue rAllTrue) 3 9 = false ∧
    getCell (generate rAllTrue rAllTrue) 4 9 = true ∧
    ¬ mazeRunExcept 3 9 := by
  refine ⟨?_, ?_, ?_, ?_⟩
  · rw [genTrueEval]
    decide
  · rw [genTrueEval]
    decide
  · rw [genTrueEval]
    decide
  · intro h
    rcases h with ⟨h1, h2⟩ | ⟨h1, h2⟩ | ⟨hx, hy⟩
    · omega
    · omega
    · rcases hy with ⟨h1, h2⟩ | ⟨h1, h2⟩ <;> omega

end OfficeRage
